import Mathlib

/-!
# freeaoe: the Engine orchestration core

A shallow embedding of `src/Engine.cpp`: frame loop, input dispatch chain, camera
scrolling, selection drag, message log, win/loss overlay.

The engine talks to many collaborators (widgets, dialog, unit manager, game state,
window, clock).  Every call the engine issues to one of them is appended to a call
history (`Engine.log`); the values the collaborators return are given by an environment
`Env`, whose answers may depend on the whole history of calls issued so far, which covers
every deterministic stateful collaborator.  Coordinates and times are integers; where the
code divides in floating point the quotient is kept exact (a rational number) until the
code converts it to an integer.

The definitions come first (data model, the operations of `Engine`, concrete
environments, predicates used in statements), the theorems follow.
-/

namespace FreeAoe

/-! ## Geometry -/

/-- Modelled from the spec: a screen position (`core/Types.h` is not among the sources),
a pair of coordinates. -/
structure ScreenPos where
  x : Int
  y : Int
deriving DecidableEq, Repr

/-- Componentwise sum of two screen positions, `operator+` of `ScreenPos`. -/
def ScreenPos.add (a b : ScreenPos) : ScreenPos := ⟨a.x + b.x, a.y + b.y⟩

/-- Modelled from the spec: a world (map-pixel) position. -/
structure MapPos where
  x : Int
  y : Int
  z : Int
deriving DecidableEq, Repr

/-- Modelled from the spec: a width/height pair. -/
structure Size where
  width : Int
  height : Int
deriving DecidableEq, Repr

/-- Modelled from the spec: a screen rectangle; only `width` and `height` are read by the
engine.  How a rectangle is built from two corner points is a parameter of the
environment (`Env.rectOf`). -/
structure ScreenRect where
  x : Int
  y : Int
  width : Int
  height : Int
deriving DecidableEq, Repr

/-- Modelled from the spec: the default-constructed rectangle `ScreenRect()`, the empty
rectangle. -/
def ScreenRect.empty : ScreenRect := ⟨0, 0, 0, 0⟩

/-- Modelled from the spec: a position in float coordinates (`sf::Vector2f`), as taken by
`sf::Text::setPosition`; the coordinates are exact rationals. -/
structure Vector2f where
  x : ℚ
  y : ℚ
deriving DecidableEq, Repr

/-- Modelled from the spec: the bounds of a text as `sf::Text::getLocalBounds` reports
them, a rectangle in float coordinates; the coordinates are exact rationals. -/
structure FloatRect where
  x : ℚ
  y : ℚ
  width : ℚ
  height : ℚ
deriving DecidableEq, Repr

/-! ## Events -/

/-- Modelled from the spec: the tag of an input event. -/
inductive EventType where
  | Quit
  | KeyPressed
  | KeyReleased
  | MousePressed
  | MouseReleased
  | MouseMoved
  | MouseScroll
deriving DecidableEq, Repr

/-- Modelled from the spec: key codes; the engine only distinguishes the four arrows. -/
inductive Key where
  | Left
  | Right
  | Down
  | Up
  | Other (code : Nat)
deriving DecidableEq, Repr

/-- Modelled from the spec: mouse buttons. -/
inductive MouseButton where
  | NoButton
  | LeftButton
  | RightButton
  | MiddleButton
deriving DecidableEq, Repr

/-- Modelled from the spec: an input event, a tagged variant; a keyboard event carries a
key, a mouse event a position and a button. -/
inductive Event where
  | basic (type : EventType)
  | keyboard (type : EventType) (key : Key)
  | mouse (type : EventType) (position : ScreenPos) (button : MouseButton)
deriving DecidableEq, Repr

/-- The tag of an event, `event->type`. -/
def Event.type : Event → EventType
  | .basic t => t
  | .keyboard t _ => t
  | .mouse t _ _ => t

/-! ## Collaborator interface -/

/-- Identifier of a game state object held by the state manager. -/
abbrev StateId := Nat

/-- Modelled from the spec: result of a game state. -/
inductive Result where
  | Running
  | Won
  | Lost
deriving DecidableEq, Repr

/-- Modelled from the spec: what a dialog answers to an event. -/
inductive Choice where
  | Cancel
  | Quit
  | Other (code : Nat)
deriving DecidableEq, Repr

/-- The five number labels of the engine. -/
inductive Label where
  | wood
  | food
  | gold
  | stone
  | population
deriving DecidableEq, Repr

/-- The resource kinds queried by `updateUi`. -/
inductive ResourceType where
  | WoodStorage
  | FoodStorage
  | GoldStorage
  | StoneStorage
  | PopulationHeadroom
deriving DecidableEq, Repr

/-- Modelled from the spec: the type of an icon button; the engine names `GameMenu` and
`Invalid` (no button). -/
inductive IconButtonType where
  | GameMenu
  | Other (code : Nat)
  | Invalid
deriving DecidableEq, Repr

/-- Calls that bind a widget to the active state, issued at the head of a frame. -/
inductive RebindCall where
  | minimapSetUnitManager (state : StateId)
  | minimapSetMap (state : StateId)
  | minimapSetVisibilityMap (state : StateId)
  | mapRendererSetVisibilityMap (state : StateId)
  | mapRendererSetMap (state : StateId)
  | actionPanelSetUnitManager (state : StateId)
  | actionPanelSetHumanPlayer (state : StateId)
  | unitInfoPanelSetUnitManager (state : StateId)
deriving DecidableEq, Repr

/-- Calls issued while an input event is dispatched. -/
inductive InputCall where
  | windowClose
  | dialogHandleEvent (e : Event)
  | actionPanelHandleEvent (e : Event)
  | minimapHandleEvent (e : Event)
  | unitInfoPanelHandleEvent (e : Event)
  | stateHandleEvent (state : StateId) (e : Event)
  | buttonOnMousePressed (i : Nat) (p : ScreenPos)
  | buttonOnMouseReleased (i : Nat) (p : ScreenPos)
  | onLeftClick (state : StateId) (p : ScreenPos) (camera : MapPos)
  | onMouseRelease (state : StateId)
  | onMouseMove (state : StateId) (p : MapPos)
  | selectUnits (state : StateId) (r : ScreenRect) (camera : MapPos)
  | onRightClick (state : StateId) (p : ScreenPos) (camera : MapPos)
  | getUIFile (name : String)
  | getSlp
  | dialogLoadBackground
deriving DecidableEq, Repr

/-- Calls of the widget update stage. -/
inductive UpdateCall where
  | cursorSetPosition (p : ScreenPos)
  | cursorUpdate (state : StateId)
  | labelSetValue (l : Label) (v : Int)
  | labelSetMaxValue (l : Label) (v : Int)
  | mapRendererUpdate (time : Int)
  | minimapUpdate (dt : Int)
  | actionPanelUpdate (dt : Int)
  | unitInfoPanelUpdate (dt : Int)
deriving DecidableEq, Repr

/-- Calls of the redraw block. -/
inductive RenderCall where
  | clear
  | mapRendererDisplay
  | entitiesBetween (state : StateId)
  | unitManagerRender (state : StateId)
  | stateDraw (state : StateId)
  | dialogRender
  | drawResultOverlay (text : String) (pos : Vector2f)
  | drawSelectionRect (r : ScreenRect)
  | drawUiOverlay
  | buttonRender (i : Nat)
  | minimapDraw
  | actionPanelDraw
  | unitInfoPanelDraw
  | labelRender (l : Label)
  | drawFpsLabel (text : String)
  | drawMessageLine (i : Nat) (text : String)
  | cursorRender
deriving DecidableEq, Repr

/-- Every call the engine issues to a collaborator, with its arguments, grouped by the
stage of the frame that issues it. -/
inductive Call where
  | clock
  | rebind (c : RebindCall)
  | input (c : InputCall)
  | stateUpdate (state : StateId) (time : Int)
  | update (c : UpdateCall)
  | render (c : RenderCall)
  | windowUpdate
  | sleep (ms : Int)
deriving DecidableEq, Repr

/-- The call `minimapSetUnitManager` as a `Call`. -/
@[match_pattern]
abbrev Call.minimapSetUnitManager (state : StateId) : Call :=
  Call.rebind (RebindCall.minimapSetUnitManager state)

/-- The call `minimapSetMap` as a `Call`. -/
@[match_pattern]
abbrev Call.minimapSetMap (state : StateId) : Call :=
  Call.rebind (RebindCall.minimapSetMap state)

/-- The call `minimapSetVisibilityMap` as a `Call`. -/
@[match_pattern]
abbrev Call.minimapSetVisibilityMap (state : StateId) : Call :=
  Call.rebind (RebindCall.minimapSetVisibilityMap state)

/-- The call `mapRendererSetVisibilityMap` as a `Call`. -/
@[match_pattern]
abbrev Call.mapRendererSetVisibilityMap (state : StateId) : Call :=
  Call.rebind (RebindCall.mapRendererSetVisibilityMap state)

/-- The call `mapRendererSetMap` as a `Call`. -/
@[match_pattern]
abbrev Call.mapRendererSetMap (state : StateId) : Call :=
  Call.rebind (RebindCall.mapRendererSetMap state)

/-- The call `actionPanelSetUnitManager` as a `Call`. -/
@[match_pattern]
abbrev Call.actionPanelSetUnitManager (state : StateId) : Call :=
  Call.rebind (RebindCall.actionPanelSetUnitManager state)

/-- The call `actionPanelSetHumanPlayer` as a `Call`. -/
@[match_pattern]
abbrev Call.actionPanelSetHumanPlayer (state : StateId) : Call :=
  Call.rebind (RebindCall.actionPanelSetHumanPlayer state)

/-- The call `unitInfoPanelSetUnitManager` as a `Call`. -/
@[match_pattern]
abbrev Call.unitInfoPanelSetUnitManager (state : StateId) : Call :=
  Call.rebind (RebindCall.unitInfoPanelSetUnitManager state)

/-- The call `windowClose` as a `Call`. -/
@[match_pattern]
abbrev Call.windowClose : Call :=
  Call.input InputCall.windowClose

/-- The call `dialogHandleEvent` as a `Call`. -/
@[match_pattern]
abbrev Call.dialogHandleEvent (e : Event) : Call :=
  Call.input (InputCall.dialogHandleEvent e)

/-- The call `actionPanelHandleEvent` as a `Call`. -/
@[match_pattern]
abbrev Call.actionPanelHandleEvent (e : Event) : Call :=
  Call.input (InputCall.actionPanelHandleEvent e)

/-- The call `minimapHandleEvent` as a `Call`. -/
@[match_pattern]
abbrev Call.minimapHandleEvent (e : Event) : Call :=
  Call.input (InputCall.minimapHandleEvent e)

/-- The call `unitInfoPanelHandleEvent` as a `Call`. -/
@[match_pattern]
abbrev Call.unitInfoPanelHandleEvent (e : Event) : Call :=
  Call.input (InputCall.unitInfoPanelHandleEvent e)

/-- The call `stateHandleEvent` as a `Call`. -/
@[match_pattern]
abbrev Call.stateHandleEvent (state : StateId) (e : Event) : Call :=
  Call.input (InputCall.stateHandleEvent state e)

/-- The call `buttonOnMousePressed` as a `Call`. -/
@[match_pattern]
abbrev Call.buttonOnMousePressed (i : Nat) (p : ScreenPos) : Call :=
  Call.input (InputCall.buttonOnMousePressed i p)

/-- The call `buttonOnMouseReleased` as a `Call`. -/
@[match_pattern]
abbrev Call.buttonOnMouseReleased (i : Nat) (p : ScreenPos) : Call :=
  Call.input (InputCall.buttonOnMouseReleased i p)

/-- The call `onLeftClick` as a `Call`. -/
@[match_pattern]
abbrev Call.onLeftClick (state : StateId) (p : ScreenPos) (camera : MapPos) : Call :=
  Call.input (InputCall.onLeftClick state p camera)

/-- The call `onMouseRelease` as a `Call`. -/
@[match_pattern]
abbrev Call.onMouseRelease (state : StateId) : Call :=
  Call.input (InputCall.onMouseRelease state)

/-- The call `onMouseMove` as a `Call`. -/
@[match_pattern]
abbrev Call.onMouseMove (state : StateId) (p : MapPos) : Call :=
  Call.input (InputCall.onMouseMove state p)

/-- The call `selectUnits` as a `Call`. -/
@[match_pattern]
abbrev Call.selectUnits (state : StateId) (r : ScreenRect) (camera : MapPos) : Call :=
  Call.input (InputCall.selectUnits state r camera)

/-- The call `onRightClick` as a `Call`. -/
@[match_pattern]
abbrev Call.onRightClick (state : StateId) (p : ScreenPos) (camera : MapPos) : Call :=
  Call.input (InputCall.onRightClick state p camera)

/-- The call `getUIFile` as a `Call`. -/
@[match_pattern]
abbrev Call.getUIFile (name : String) : Call :=
  Call.input (InputCall.getUIFile name)

/-- The call `getSlp` as a `Call`. -/
@[match_pattern]
abbrev Call.getSlp : Call :=
  Call.input InputCall.getSlp

/-- The call `dialogLoadBackground` as a `Call`. -/
@[match_pattern]
abbrev Call.dialogLoadBackground : Call :=
  Call.input InputCall.dialogLoadBackground

/-- The call `cursorSetPosition` as a `Call`. -/
@[match_pattern]
abbrev Call.cursorSetPosition (p : ScreenPos) : Call :=
  Call.update (UpdateCall.cursorSetPosition p)

/-- The call `cursorUpdate` as a `Call`. -/
@[match_pattern]
abbrev Call.cursorUpdate (state : StateId) : Call :=
  Call.update (UpdateCall.cursorUpdate state)

/-- The call `labelSetValue` as a `Call`. -/
@[match_pattern]
abbrev Call.labelSetValue (l : Label) (v : Int) : Call :=
  Call.update (UpdateCall.labelSetValue l v)

/-- The call `labelSetMaxValue` as a `Call`. -/
@[match_pattern]
abbrev Call.labelSetMaxValue (l : Label) (v : Int) : Call :=
  Call.update (UpdateCall.labelSetMaxValue l v)

/-- The call `mapRendererUpdate` as a `Call`. -/
@[match_pattern]
abbrev Call.mapRendererUpdate (time : Int) : Call :=
  Call.update (UpdateCall.mapRendererUpdate time)

/-- The call `minimapUpdate` as a `Call`. -/
@[match_pattern]
abbrev Call.minimapUpdate (dt : Int) : Call :=
  Call.update (UpdateCall.minimapUpdate dt)

/-- The call `actionPanelUpdate` as a `Call`. -/
@[match_pattern]
abbrev Call.actionPanelUpdate (dt : Int) : Call :=
  Call.update (UpdateCall.actionPanelUpdate dt)

/-- The call `unitInfoPanelUpdate` as a `Call`. -/
@[match_pattern]
abbrev Call.unitInfoPanelUpdate (dt : Int) : Call :=
  Call.update (UpdateCall.unitInfoPanelUpdate dt)

/-- The call `clear` as a `Call`. -/
@[match_pattern]
abbrev Call.clear : Call :=
  Call.render RenderCall.clear

/-- The call `mapRendererDisplay` as a `Call`. -/
@[match_pattern]
abbrev Call.mapRendererDisplay : Call :=
  Call.render RenderCall.mapRendererDisplay

/-- The call `entitiesBetween` as a `Call`. -/
@[match_pattern]
abbrev Call.entitiesBetween (state : StateId) : Call :=
  Call.render (RenderCall.entitiesBetween state)

/-- The call `unitManagerRender` as a `Call`. -/
@[match_pattern]
abbrev Call.unitManagerRender (state : StateId) : Call :=
  Call.render (RenderCall.unitManagerRender state)

/-- The call `stateDraw` as a `Call`. -/
@[match_pattern]
abbrev Call.stateDraw (state : StateId) : Call :=
  Call.render (RenderCall.stateDraw state)

/-- The call `dialogRender` as a `Call`. -/
@[match_pattern]
abbrev Call.dialogRender : Call :=
  Call.render RenderCall.dialogRender

/-- The call `drawResultOverlay` as a `Call`. -/
@[match_pattern]
abbrev Call.drawResultOverlay (text : String) (pos : Vector2f) : Call :=
  Call.render (RenderCall.drawResultOverlay text pos)

/-- The call `drawSelectionRect` as a `Call`. -/
@[match_pattern]
abbrev Call.drawSelectionRect (r : ScreenRect) : Call :=
  Call.render (RenderCall.drawSelectionRect r)

/-- The call `drawUiOverlay` as a `Call`. -/
@[match_pattern]
abbrev Call.drawUiOverlay : Call :=
  Call.render RenderCall.drawUiOverlay

/-- The call `buttonRender` as a `Call`. -/
@[match_pattern]
abbrev Call.buttonRender (i : Nat) : Call :=
  Call.render (RenderCall.buttonRender i)

/-- The call `minimapDraw` as a `Call`. -/
@[match_pattern]
abbrev Call.minimapDraw : Call :=
  Call.render RenderCall.minimapDraw

/-- The call `actionPanelDraw` as a `Call`. -/
@[match_pattern]
abbrev Call.actionPanelDraw : Call :=
  Call.render RenderCall.actionPanelDraw

/-- The call `unitInfoPanelDraw` as a `Call`. -/
@[match_pattern]
abbrev Call.unitInfoPanelDraw : Call :=
  Call.render RenderCall.unitInfoPanelDraw

/-- The call `labelRender` as a `Call`. -/
@[match_pattern]
abbrev Call.labelRender (l : Label) : Call :=
  Call.render (RenderCall.labelRender l)

/-- The call `drawFpsLabel` as a `Call`. -/
@[match_pattern]
abbrev Call.drawFpsLabel (text : String) : Call :=
  Call.render (RenderCall.drawFpsLabel text)

/-- The call `drawMessageLine` as a `Call`. -/
@[match_pattern]
abbrev Call.drawMessageLine (i : Nat) (text : String) : Call :=
  Call.render (RenderCall.drawMessageLine i text)

/-- The call `cursorRender` as a `Call`. -/
@[match_pattern]
abbrev Call.cursorRender : Call :=
  Call.render RenderCall.cursorRender

/-- The calls issued so far, oldest first. -/
abbrev History := List Call

/-- The collaborators of the engine.  `boolOf h c` is what call `c` returns when it is
issued after history `h`; the other fields are getters read after a history, pure
coordinate conversions, and constants declared in headers that are not among the
sources. -/
structure Env where
  boolOf : History → Call → Bool
  choiceOf : History → Event → Choice
  clock : History → Int
  activeState : History → StateId
  result : History → StateId → Result
  mapPixelSize : History → StateId → Size
  resourcesAvailable : History → StateId → ResourceType → Int
  resourcesUsed : History → StateId → ResourceType → Int
  targetSize : History → Size
  windowSize : History → Size
  rectOf : ScreenPos → ScreenPos → ScreenRect
  toScreen : MapPos → ScreenPos
  toMap : ScreenPos → MapPos
  clamped : MapPos → Size → MapPos
  absoluteMapPos : MapPos → ScreenPos → MapPos
  localBounds : String → FloatRect
  numMessagesLines : Nat
  messageTimeout : Int

/-- One line of the message log. -/
structure MessageLine where
  string : String
  endTime : Int
deriving DecidableEq, Repr

/-- The fields of `Engine` together with the locals of `Engine::start` that live across
frames (`state`, `mousePos`, `fpsSamples`), the camera target held by the render
target's camera, the open flag of the window, and the call history. -/
structure Engine where
  log : History
  windowOpen : Bool
  currentDialog : Bool
  cameraTarget : MapPos
  cameraDeltaX : Int
  cameraDeltaY : Int
  selecting : Bool
  selectionStart : ScreenPos
  selectionCurr : ScreenPos
  selectionRect : ScreenRect
  lastUpdate : Int
  visibleText : List MessageLine
  buttons : List IconButtonType
  resultOverlayString : String
  resultOverlayPos : Vector2f
  fpsLabel : String
  fpsSamples : Nat
  state : Option StateId
  mousePos : ScreenPos
deriving Repr

/-- `MOUSE_MOVE_EDGE_SIZE`. -/
def MOUSE_MOVE_EDGE_SIZE : Int := 10

/-- `CAMERA_SPEED`. -/
def CAMERA_SPEED : Int := 1

/-- Issue a call to a collaborator: it is appended to the history. -/
def Engine.call (s : Engine) (c : Call) : Engine := { s with log := s.log ++ [c] }

/-- The engine with its history replaced. -/
def Engine.withLog (s : Engine) (l : History) : Engine := { s with log := l }

/-- Issue a call that returns a boolean. -/
def callB (env : Env) (s : Engine) (c : Call) : Bool × Engine :=
  (env.boolOf s.log c, s.call c)

/-- Read the game clock: `GameClock.getElapsedTime().asMilliseconds()`. -/
def readClock (env : Env) (s : Engine) : Int × Engine :=
  (env.clock s.log, s.call Call.clock)

/-- Close the window: `renderWindow_->close()`. -/
def Engine.closeWindow (s : Engine) : Engine :=
  { s.call Call.windowClose with windowOpen := false }

/-! ## Message log -/

/-- One round of the loop of `addMessage`: line `i` takes over text and expiry of line
`i + 1`. -/
def shiftLine (vt : List MessageLine) (i : Nat) : List MessageLine :=
  vt.set i (vt.getD (i + 1) ⟨"", 0⟩)

/-- `Engine::addMessage`: every line but the last takes over text and expiry of its
successor (in index order, in place), then the last line receives the new message. -/
def addMessage (env : Env) (s : Engine) (message : String) : Engine :=
  let shifted := (List.range (env.numMessagesLines - 1)).foldl shiftLine s.visibleText
  let now := readClock env s
  { now.2 with visibleText :=
      shifted.set (env.numMessagesLines - 1) ⟨message, now.1 + env.messageTimeout⟩ }

/-! ## Input dispatch -/

/-- `Engine::showMenu`: open the game menu dialog unless its assets fail to load. -/
def showMenu (env : Env) (s : Engine) : Engine :=
  let uiFile := callB env s (Call.getUIFile "dlg_men.sin")
  if !uiFile.1 then uiFile.2
  else
    let backgroundSlp := callB env uiFile.2 Call.getSlp
    if !backgroundSlp.1 then backgroundSlp.2
    else
      let s1 := { backgroundSlp.2 with currentDialog := true }
      (callB env s1 Call.dialogLoadBackground).2

/-- `Engine::handleKeyEvent`: the arrow keys nudge the camera target by 20 screen units. -/
def handleKeyEvent (env : Env) (s : Engine) (key : Key) (state : StateId) : Bool × Engine :=
  let cameraScreenPos := env.toScreen s.cameraTarget
  let moved : Option ScreenPos :=
    match key with
    | Key.Left => some { cameraScreenPos with x := cameraScreenPos.x - 20 }
    | Key.Right => some { cameraScreenPos with x := cameraScreenPos.x + 20 }
    | Key.Down => some { cameraScreenPos with y := cameraScreenPos.y - 20 }
    | Key.Up => some { cameraScreenPos with y := cameraScreenPos.y + 20 }
    | Key.Other _ => none
  match moved with
  | none => (false, s)
  | some pos =>
    let cameraMapPos := env.clamped (env.toMap pos) (env.mapPixelSize s.log state)
    (true, { s with cameraTarget := cameraMapPos })

/-- `Engine::handleMouseMove`: edge-scroll velocities, then drag update or hover. -/
def handleMouseMove (env : Env) (s : Engine) (position : ScreenPos) (state : StateId) :
    Bool × Engine :=
  let hx : Bool × Int :=
    if position.x < MOUSE_MOVE_EDGE_SIZE then (true, -1)
    else if position.x > (env.targetSize s.log).width - MOUSE_MOVE_EDGE_SIZE then (true, 1)
    else (false, 0)
  let hy : Bool × Int :=
    if position.y < MOUSE_MOVE_EDGE_SIZE then (true, 1)
    else if position.y > (env.targetSize s.log).height - MOUSE_MOVE_EDGE_SIZE then (true, -1)
    else (hx.1, 0)
  let s1 := { s with cameraDeltaX := hx.2, cameraDeltaY := hy.2 }
  if position.y < 800 then
    if s1.selecting then
      (true, { s1 with selectionCurr := position })
    else
      (hy.1, s1.call (Call.onMouseMove state (env.absoluteMapPos s1.cameraTarget position)))
  else (hy.1, s1)

/-- One round of the loop of `handleMousePress`: button `i` is asked, its answer is
or-ed into `updated`. -/
def pressStep (env : Env) (position : ScreenPos) (acc : Bool × Engine) (i : Nat) :
    Bool × Engine :=
  ((callB env acc.2 (Call.buttonOnMousePressed i position)).1 || acc.1,
    (callB env acc.2 (Call.buttonOnMousePressed i position)).2)

/-- The loop of `handleMousePress` over the icon buttons: every button is asked. -/
def pressButtons (env : Env) (s : Engine) (position : ScreenPos) : Bool × Engine :=
  (List.range s.buttons.length).foldl (pressStep env position) (false, s)

/-- `Engine::handleMousePress`. -/
def handleMousePress (env : Env) (s : Engine) (position : ScreenPos) (button : MouseButton)
    (state : StateId) : Bool × Engine :=
  let pressed := pressButtons env s position
  if pressed.1 then (true, pressed.2)
  else if position.y < 800 ∧ button = MouseButton.LeftButton then
    let click := callB env pressed.2 (Call.onLeftClick state position pressed.2.cameraTarget)
    if click.1 then (true, click.2)
    else
      (true, { click.2 with
        selectionStart := position
        selectionCurr := position.add ⟨1, 1⟩
        selecting := true })
  else (true, pressed.2)

/-- One round of the loop of `handleMouseRelease`: button `i` is asked; when it claims
the release its type becomes `clickedButton`. -/
def releaseStep (env : Env) (position : ScreenPos) (acc : IconButtonType × Engine) (i : Nat) :
    IconButtonType × Engine :=
  (if (callB env acc.2 (Call.buttonOnMouseReleased i position)).1 then
      acc.2.buttons.getD i IconButtonType.Invalid
    else acc.1,
    (callB env acc.2 (Call.buttonOnMouseReleased i position)).2)

/-- The loop of `handleMouseRelease` over the icon buttons: every button is asked, the
type of the last one that claims the release is kept. -/
def releaseButtons (env : Env) (s : Engine) (position : ScreenPos) :
    IconButtonType × Engine :=
  (List.range s.buttons.length).foldl (releaseStep env position) (IconButtonType.Invalid, s)

/-- `Engine::handleMouseRelease`. -/
def handleMouseRelease (env : Env) (s : Engine) (position : ScreenPos) (button : MouseButton)
    (state : StateId) : Bool × Engine :=
  let unit : Bool × Engine :=
    if position.y < 800 ∧ button = MouseButton.LeftButton then
      callB env s (Call.onMouseRelease state)
    else (false, s)
  if unit.1 then (true, unit.2)
  else
    let clicked := releaseButtons env unit.2 position
    let s1 := if clicked.1 = IconButtonType.GameMenu then showMenu env clicked.2 else clicked.2
    if clicked.1 ≠ IconButtonType.Invalid then (true, s1)
    else if s1.selecting ∧ button = MouseButton.LeftButton then
      let s2 := s1.call (Call.selectUnits state s1.selectionRect s1.cameraTarget)
      (true, { s2 with selectionRect := ScreenRect.empty, selecting := false })
    else if button = MouseButton.RightButton then
      (false, s1.call (Call.onRightClick state position s1.cameraTarget))
    else (false, s1)

/-- `Engine::handleEvent`: the fixed-priority dispatch chain. -/
def handleEvent (env : Env) (s : Engine) (event : Event) (state : StateId) : Bool × Engine :=
  if s.currentDialog then
    let choice := env.choiceOf s.log event
    let s1 := s.call (Call.dialogHandleEvent event)
    if choice = Choice.Cancel then (true, { s1 with currentDialog := false })
    else if choice = Choice.Quit then (true, s1.closeWindow)
    else (true, s1)
  else
    let actionPanel := callB env s (Call.actionPanelHandleEvent event)
    if actionPanel.1 then (true, actionPanel.2)
    else
      let minimap := callB env actionPanel.2 (Call.minimapHandleEvent event)
      if minimap.1 then (true, minimap.2)
      else
        let unitInfo := callB env minimap.2 (Call.unitInfoPanelHandleEvent event)
        if unitInfo.1 then (true, unitInfo.2)
        else
          match event with
          | Event.keyboard _ key => handleKeyEvent env unitInfo.2 key state
          | Event.mouse EventType.MousePressed position button =>
            handleMousePress env unitInfo.2 position button state
          | Event.mouse EventType.MouseReleased position button =>
            handleMouseRelease env unitInfo.2 position button state
          | Event.mouse EventType.MouseMoved position _ =>
            handleMouseMove env unitInfo.2 position state
          | Event.mouse _ _ _ => (false, unitInfo.2)
          | Event.basic _ => (false, unitInfo.2)

/-! ## Widget update and camera -/

/-- `Engine::updateCamera`: apply the edge-scroll velocity to the camera target, clamp it
to the map, and shift the start of an active drag. -/
def updateCamera (env : Env) (s : Engine) (state : StateId) : Bool × Engine :=
  if s.cameraDeltaX = 0 ∧ s.cameraDeltaY = 0 then (false, s)
  else
    let cameraScreenPos := env.toScreen s.cameraTarget
    let now := readClock env s
    let deltaTime := now.1 - s.lastUpdate
    let moved : ScreenPos :=
      ⟨cameraScreenPos.x + s.cameraDeltaX * deltaTime * CAMERA_SPEED,
       cameraScreenPos.y + s.cameraDeltaY * deltaTime * CAMERA_SPEED⟩
    let cameraMapPos := env.clamped (env.toMap moved) (env.mapPixelSize now.2.log state)
    let s1 := { now.2 with cameraTarget := cameraMapPos }
    if s1.selecting then
      let start : ScreenPos :=
        ⟨s1.selectionStart.x - s1.cameraDeltaX * deltaTime * CAMERA_SPEED,
         s1.selectionStart.y + s1.cameraDeltaY * deltaTime * CAMERA_SPEED⟩
      (true, { s1 with
        selectionStart := start
        selectionRect := env.rectOf start s1.selectionCurr })
    else (true, s1)

/-- `Engine::updateUi`: refresh every widget; each refresh is performed, the results are
or-ed together. -/
def updateUi (env : Env) (s : Engine) (state : StateId) : Bool × Engine :=
  let t0 := readClock env s
  let deltaTime := t0.1 - s.lastUpdate
  let wood := callB env t0.2
    (Call.labelSetValue Label.wood (env.resourcesAvailable t0.2.log state ResourceType.WoodStorage))
  let food := callB env wood.2
    (Call.labelSetValue Label.food (env.resourcesAvailable wood.2.log state ResourceType.FoodStorage))
  let gold := callB env food.2
    (Call.labelSetValue Label.gold (env.resourcesAvailable food.2.log state ResourceType.GoldStorage))
  let stone := callB env gold.2
    (Call.labelSetValue Label.stone
      (env.resourcesAvailable gold.2.log state ResourceType.StoneStorage))
  let pop := callB env stone.2
    (Call.labelSetValue Label.population
      (env.resourcesUsed stone.2.log state ResourceType.PopulationHeadroom))
  let popMax := callB env pop.2
    (Call.labelSetMaxValue Label.population
      (env.resourcesAvailable pop.2.log state ResourceType.PopulationHeadroom))
  let cursor := callB env popMax.2 (Call.cursorUpdate state)
  let t1 := readClock env cursor.2
  let mapRenderer := callB env t1.2 (Call.mapRendererUpdate t1.1)
  let camera := updateCamera env mapRenderer.2 state
  let minimap := callB env camera.2 (Call.minimapUpdate deltaTime)
  let actionPanel := callB env minimap.2 (Call.actionPanelUpdate deltaTime)
  let unitInfo := callB env actionPanel.2 (Call.unitInfoPanelUpdate deltaTime)
  let t2 := readClock env unitInfo.2
  (unitInfo.1 || (actionPanel.1 || (minimap.1 || (camera.1 || (mapRenderer.1 || (cursor.1 ||
      (popMax.1 || (pop.1 || (stone.1 || (gold.1 || (food.1 || (wood.1 || false))))))))))),
    { t2.2 with lastUpdate := t2.1 })

/-! ## Rendering -/

/-- One round of the button loop of `drawUi`. -/
def renderButton (acc : Engine) (i : Nat) : Engine := acc.call (Call.buttonRender i)

/-- One round of the message loop of `drawUi`: a line whose expiry lies before the
current time is skipped, any other line is drawn. -/
def drawMessage (currentTime : Int) (acc : Engine) (line : Nat × MessageLine) : Engine :=
  if line.2.endTime < currentTime then acc
  else acc.call (Call.drawMessageLine line.1 line.2.string)

/-- `Engine::drawUi`: the user-interface overlay, ending with the mouse cursor. -/
def drawUi (env : Env) (s : Engine) : Engine :=
  let s1 := if s.selecting then s.call (Call.drawSelectionRect s.selectionRect) else s
  let s2 := s1.call Call.drawUiOverlay
  let s3 := (List.range s2.buttons.length).foldl renderButton s2
  let s4 := ((s3.call Call.minimapDraw).call Call.actionPanelDraw).call Call.unitInfoPanelDraw
  let s5 := ((((s4.call (Call.labelRender Label.wood)).call (Call.labelRender Label.food)).call
    (Call.labelRender Label.gold)).call (Call.labelRender Label.stone)).call
    (Call.labelRender Label.population)
  let s6 := s5.call (Call.drawFpsLabel s5.fpsLabel)
  let currentTime := readClock env s6
  let s7 := currentTime.2.visibleText.enum.foldl (drawMessage currentTime.1) currentTime.2
  s7.call Call.cursorRender

/-- The first part of the redraw block of `Engine::start`: clear, world layer, visible
entities, state draw, modal dialog (if any), win/loss overlay (if the result is not
`Running`). -/
def drawScene (env : Env) (s : Engine) (state : StateId) : Engine :=
  let s1 := s.call Call.clear
  let s2 := s1.call Call.mapRendererDisplay
  let s3 := s2.call (Call.entitiesBetween state)
  let s4 := s3.call (Call.unitManagerRender state)
  let s5 := s4.call (Call.stateDraw state)
  let s6 := if s5.currentDialog then s5.call Call.dialogRender else s5
  if env.result s6.log state ≠ Result.Running then
    s6.call (Call.drawResultOverlay s6.resultOverlayString s6.resultOverlayPos)
  else s6

/-- The redraw block of `Engine::start` (taken when `updated` holds): the scene, the user
interface, the frame-rate label, present.  The running sum `totalFps`, a diagnostic that
is only printed after the loop, is not kept. -/
def render (env : Env) (s : Engine) (state : StateId) (renderStart : Int) : Engine :=
  let s8 := drawUi env (drawScene env s state)
  let now := readClock env s8
  let renderTime := now.1 - renderStart
  let s9 :=
    if renderTime > 0 then
      { now.2 with
        fpsSamples := now.2.fpsSamples + 1
        fpsLabel := "fps: " ++ toString (Int.tdiv 1000 renderTime) }
    else now.2
  s9.call Call.windowUpdate

/-! ## Frame loop -/

/-- The head of a frame of `Engine::start`: when the active state changed, every dependent
widget is bound to the new state. -/
def rebind (env : Env) (s : Engine) : Engine :=
  let active := env.activeState s.log
  if s.state = some active then s
  else
    let s1 := { s with state := some active }
    (((((((s1.call (Call.minimapSetUnitManager active)).call
      (Call.minimapSetMap active)).call
      (Call.minimapSetVisibilityMap active)).call
      (Call.mapRendererSetVisibilityMap active)).call
      (Call.mapRendererSetMap active)).call
      (Call.actionPanelSetUnitManager active)).call
      (Call.actionPanelSetHumanPlayer active)).call
      (Call.unitInfoPanelSetUnitManager active)

/-- The body of the event loop of `Engine::start` for one polled event. -/
def dispatch (env : Env) (s : Engine) (state : StateId) (event : Event) : Engine :=
  let s1 := if event.type = EventType.Quit then s.closeWindow else s
  let handled := handleEvent env s1 event state
  if !handled.1 then handled.2.call (Call.stateHandleEvent state event) else handled.2

/-- The event loop of `Engine::start`: `events` are the events `pollEvent` hands out in
this frame before it returns null. -/
def drain (env : Env) (s : Engine) (state : StateId) (events : List Event) : Engine :=
  events.foldl (fun acc e => dispatch env acc state e) s

/-- The simulation tick of `Engine::start` with the win/loss overlay set-up. The label is
placed at `windowSize.width / 2 - labelRect.width / 2` (and likewise for the height),
divisions in float coordinates (the window size is a whole number of pixels held in float
fields, the label bounds are those of an `sf::Text`): no rounding to whole pixels takes
place. -/
def tick (env : Env) (s : Engine) (state : StateId) : Bool × Engine :=
  if !s.currentDialog ∧ env.result s.log state = Result.Running then
    let now := readClock env s
    let upd := callB env now.2 (Call.stateUpdate state now.1)
    if env.result upd.2.log state ≠ Result.Running then
      let text := if env.result upd.2.log state = Result.Won then "You won."
        else "You were defeated."
      let labelRect := env.localBounds text
      let windowSize := env.windowSize upd.2.log
      (upd.1, { upd.2 with
        resultOverlayString := text
        resultOverlayPos :=
          ⟨(windowSize.width : ℚ) / 2 - labelRect.width / 2,
           (windowSize.height : ℚ) / 2 - labelRect.height / 2⟩ })
    else upd
  else (false, s)

/-- The selection rectangle step of `Engine::start`: while a drag is active the rectangle
is recomputed from the start and current points. -/
def refreshSelection (env : Env) (s : Engine) : Bool × Engine :=
  if s.selecting then
    let selectionRect := env.rectOf s.selectionStart s.selectionCurr
    if selectionRect ≠ s.selectionRect then (true, { s with selectionRect := selectionRect })
    else (false, s)
  else (false, s)

/-- A frame of `Engine::start` after the simulation tick: cursor and widget updates,
selection rectangle, then either the redraw or the idle sleep.  `updated` is the flag as
it stands after the tick, `renderStart` the clock value read at the head of the frame. -/
def frameTail (env : Env) (s : Engine) (state : StateId) (renderStart : Int) (updated : Bool) :
    Engine :=
  let cursor := callB env s (Call.cursorSetPosition s.mousePos)
  let ui := updateUi env cursor.2 state
  let sel := refreshSelection env ui.2
  if sel.1 || (ui.1 || (cursor.1 || updated)) then
    render env sel.2 state renderStart
  else sel.2.call (Call.sleep (Int.tdiv 1000 60))

/-- A frame of `Engine::start` after the event loop: the simulation tick, then the rest.
`polled` tells whether the event loop saw an event. -/
def frameRest (env : Env) (s : Engine) (state : StateId) (renderStart : Int) (polled : Bool) :
    Engine :=
  let ticked := tick env s state
  frameTail env ticked.2 state renderStart (ticked.1 || polled)

/-- One iteration of the loop of `Engine::start`. -/
def frame (env : Env) (s : Engine) (events : List Event) : Engine :=
  let state := env.activeState s.log
  let start := readClock env (rebind env s)
  frameRest env (drain env start.2 state events) state start.1 (!events.isEmpty)

/-- The loop of `Engine::start`: one frame per list of polled events, as long as the
window is open. -/
def run (env : Env) (s : Engine) : List (List Event) → Engine
  | [] => s
  | events :: rest => if s.windowOpen then run env (frame env s events) rest else s

/-! ## A concrete environment and engine -/

/-- The corner-to-corner rectangle: top-left corner, non-negative extent. -/
def spanRect (a b : ScreenPos) : ScreenRect :=
  ⟨if a.x ≤ b.x then a.x else b.x, if a.y ≤ b.y then a.y else b.y,
   if a.x ≤ b.x then b.x - a.x else a.x - b.x, if a.y ≤ b.y then b.y - a.y else a.y - b.y⟩

/-- Clamp one coordinate into `[0, size]`. -/
def clampAxis (v size : Int) : Int := if v < 0 then 0 else if size < v then size else v

/-- A quiet environment: no collaborator ever claims an event or reports a change, the
game keeps running, the clock advances by one millisecond per call, the map is 4800 by
4800 and the window 1280 by 1024. -/
def quietEnv : Env where
  boolOf := fun _ _ => false
  choiceOf := fun _ _ => Choice.Other 0
  clock := fun h => (h.length : Int)
  activeState := fun _ => 0
  result := fun _ _ => Result.Running
  mapPixelSize := fun _ _ => ⟨4800, 4800⟩
  resourcesAvailable := fun _ _ _ => 200
  resourcesUsed := fun _ _ _ => 5
  targetSize := fun _ => ⟨1280, 1024⟩
  windowSize := fun _ => ⟨1280, 1024⟩
  rectOf := spanRect
  toScreen := fun p => ⟨p.x, p.y⟩
  toMap := fun p => ⟨p.x, p.y, 0⟩
  clamped := fun p size => ⟨clampAxis p.x size.width, clampAxis p.y size.height, p.z⟩
  absoluteMapPos := fun camera p => ⟨camera.x + p.x, camera.y + p.y, 0⟩
  localBounds := fun text => ⟨0, 0, 12 * (text.length : ℚ), 25⟩
  numMessagesLines := 3
  messageTimeout := 5000

/-- An engine at rest: window open, no dialog, no drag, camera still, two icon buttons,
three empty message lines. -/
def idleEngine : Engine where
  log := []
  windowOpen := true
  currentDialog := false
  cameraTarget := ⟨2400, 2400, 0⟩
  cameraDeltaX := 0
  cameraDeltaY := 0
  selecting := false
  selectionStart := ⟨0, 0⟩
  selectionCurr := ⟨0, 0⟩
  selectionRect := ScreenRect.empty
  lastUpdate := 0
  visibleText := [⟨"", 0⟩, ⟨"", 0⟩, ⟨"", 0⟩]
  buttons := [IconButtonType.GameMenu, IconButtonType.Other 1]
  resultOverlayString := ""
  resultOverlayPos := ⟨0, 0⟩
  fpsLabel := ""
  fpsSamples := 0
  state := none
  mousePos := ⟨0, 0⟩

/-- The calls `pressButtons` issues for the first `n` buttons. -/
def pressCalls (p : ScreenPos) (n : Nat) : List Call :=
  (List.range n).map (fun j => Call.buttonOnMousePressed j p)

/-- The calls `releaseButtons` issues for the first `n` buttons. -/
def releaseCalls (p : ScreenPos) (n : Nat) : List Call :=
  (List.range n).map (fun j => Call.buttonOnMouseReleased j p)

/-- An environment in which the unit layer claims every mouse release. -/
def unitClaimsReleaseEnv : Env :=
  { quietEnv with
    boolOf := fun _ c => match c with
      | Call.onMouseRelease _ => true
      | _ => false }

/-- An engine in the middle of a drag from (100,100) to (150,140). -/
def draggingEngine : Engine :=
  { idleEngine with
    selecting := true
    selectionStart := ⟨100, 100⟩
    selectionCurr := ⟨150, 140⟩
    selectionRect := ⟨100, 100, 50, 40⟩ }

/-- The lines pushing the messages `ms` one after the other produces: message `j` expires
`messageTimeout` after the clock value read by its `addMessage`. -/
def stamp (env : Env) : History → List String → List MessageLine
  | _, [] => []
  | log, m :: ms => ⟨m, env.clock log + env.messageTimeout⟩ :: stamp env (log ++ [Call.clock]) ms


/-- The stage of a frame a call belongs to. -/
inductive Phase where
  | rebind
  | clock
  | input
  | tick
  | update
  | render
  | present
  | idle
deriving DecidableEq, Repr

/-- The stage of the frame in which the engine issues a call: rebinding at the head of the
frame, clock reads, event dispatch, simulation tick, widget update, drawing, presenting
the frame, idle sleep. -/
def Call.phase : Call → Phase
  | Call.clock => Phase.clock
  | Call.rebind _ => Phase.rebind
  | Call.input _ => Phase.input
  | Call.stateUpdate _ _ => Phase.tick
  | Call.update _ => Phase.update
  | Call.render _ => Phase.render
  | Call.windowUpdate => Phase.present
  | Call.sleep _ => Phase.idle

/-- History `l2` extends history `l1` by calls that all satisfy `P`. -/
def Ext (P : Call → Prop) (l1 l2 : History) : Prop :=
  ∃ d, l2 = l1 ++ d ∧ ∀ c ∈ d, P c

/-- Calls of the event dispatch stage. -/
def isInput (c : Call) : Prop := c.phase = Phase.input

/-- Calls of the widget update stage, clock reads included. -/
def isUpdate (c : Call) : Prop := c.phase = Phase.update ∨ c.phase = Phase.clock

/-- Calls of the redraw block, clock reads and the final present included. -/
def isDraw (c : Call) : Prop :=
  c.phase = Phase.render ∨ c.phase = Phase.clock ∨ c.phase = Phase.present

/-- The calls of the button loop of `drawUi` for `n` buttons. -/
def buttonRenderCalls (n : Nat) : List Call := (List.range n).map Call.buttonRender

/-- The calls of the message loop of `drawUi`: one draw per line whose expiry is not
before `currentTime`, in slot order. -/
def messageCalls (currentTime : Int) (lines : List (Nat × MessageLine)) : List Call :=
  (lines.filter (fun line => !decide (line.2.endTime < currentTime))).map
    (fun line => Call.drawMessageLine line.1 line.2.string)

/-- The calls `drawUi` issues before it reads the clock for the message log, in order. -/
def drawUiCalls (s : Engine) : List Call :=
  (if s.selecting then [Call.drawSelectionRect s.selectionRect] else []) ++
  [Call.drawUiOverlay] ++ buttonRenderCalls s.buttons.length ++
  [Call.minimapDraw, Call.actionPanelDraw, Call.unitInfoPanelDraw,
    Call.labelRender Label.wood, Call.labelRender Label.food, Call.labelRender Label.gold,
    Call.labelRender Label.stone, Call.labelRender Label.population,
    Call.drawFpsLabel s.fpsLabel]

/-- The calls of the redraw block up to the modal dialog. -/
def sceneCalls (s : Engine) (state : StateId) : List Call :=
  [Call.clear, Call.mapRendererDisplay, Call.entitiesBetween state,
    Call.unitManagerRender state, Call.stateDraw state] ++
  (if s.currentDialog then [Call.dialogRender] else [])

/-- The win/loss overlay call of the redraw block: issued when the result read after the
scene calls is not `Running`. -/
def overlayCalls (env : Env) (s : Engine) (state : StateId) : List Call :=
  if env.result (s.log ++ sceneCalls s state) state ≠ Result.Running then
    [Call.drawResultOverlay s.resultOverlayString s.resultOverlayPos]
  else []

/-- Everything `drawUi` adds to the history. -/
def drawUiLog (env : Env) (s : Engine) : List Call :=
  drawUiCalls s ++ [Call.clock] ++
    messageCalls (env.clock (s.log ++ drawUiCalls s)) s.visibleText.enum ++ [Call.cursorRender]

/-- Everything the redraw block adds to the history. -/
def renderLog (env : Env) (s : Engine) (state : StateId) : List Call :=
  sceneCalls s state ++ overlayCalls env s state ++
    drawUiLog env (s.withLog (s.log ++ sceneCalls s state ++ overlayCalls env s state)) ++
    [Call.clock, Call.windowUpdate]

/-- The parts of the engine that steer input dispatch, camera and selection drag. -/
structure Core where
  windowOpen : Bool
  currentDialog : Bool
  cameraTarget : MapPos
  cameraDeltaX : Int
  cameraDeltaY : Int
  selecting : Bool
  selectionStart : ScreenPos
  selectionCurr : ScreenPos
  selectionRect : ScreenRect
  buttons : List IconButtonType

/-- The steering part of an engine. -/
def Engine.core (s : Engine) : Core :=
  ⟨s.windowOpen, s.currentDialog, s.cameraTarget, s.cameraDeltaX, s.cameraDeltaY, s.selecting,
    s.selectionStart, s.selectionCurr, s.selectionRect, s.buttons⟩

/-- The rectangle of the drag as the frame loop recomputes it: spanned by the start and
current points while a drag is active, the stored rectangle otherwise. -/
def dragRect (env : Env) (s : Engine) : ScreenRect :=
  if s.selecting then env.rectOf s.selectionStart s.selectionCurr else s.selectionRect

/-- Replace the selection rectangle of a steering part. -/
def Core.setRect (k : Core) (r : ScreenRect) : Core := { k with selectionRect := r }

/-- A map position lies on the map of the given pixel size. -/
def MapPos.onMap (p : MapPos) (size : Size) : Prop :=
  0 ≤ p.x ∧ p.x ≤ size.width ∧ 0 ≤ p.y ∧ p.y ≤ size.height

/-- The contract of `MapPos::clamped`: for a non-negative size the result lies in
`[0, width] x [0, height]`. -/
def ClampContract (env : Env) : Prop :=
  ∀ (p : MapPos) (size : Size), 0 ≤ size.width → 0 ≤ size.height →
    (env.clamped p size).onMap size

/-- The map has a non-negative pixel size, whenever it is read. -/
def MapSizeNonneg (env : Env) (state : StateId) : Prop :=
  ∀ h : History, 0 ≤ (env.mapPixelSize h state).width ∧ 0 ≤ (env.mapPixelSize h state).height

/-- An engine whose cursor rests on the left and top edge: the camera scrolls. -/
def scrollingEngine : Engine :=
  { idleEngine with cameraDeltaX := -1, cameraDeltaY := 1, lastUpdate := -100000 }


/-- A call that draws on the render target or presents the frame. -/
def Call.drawsOrPresents (c : Call) : Bool :=
  decide (c.phase = Phase.render ∨ c.phase = Phase.present)

/-- The calls `rebind` issues for a newly active state. -/
def rebindCalls (active : StateId) : List Call :=
  [Call.minimapSetUnitManager active, Call.minimapSetMap active,
    Call.minimapSetVisibilityMap active, Call.mapRendererSetVisibilityMap active,
    Call.mapRendererSetMap active, Call.actionPanelSetUnitManager active,
    Call.actionPanelSetHumanPlayer active, Call.unitInfoPanelSetUnitManager active]

/-- Calls issued by a frame before the simulation tick: rebinding, clock, dispatch. -/
def isEarly (c : Call) : Prop :=
  c.phase = Phase.rebind ∨ c.phase = Phase.clock ∨ c.phase = Phase.input

/-- Calls issued by a frame after the simulation tick: widget updates, clock reads,
drawing, presenting, sleeping. -/
def isLate (c : Call) : Prop :=
  c.phase = Phase.update ∨ c.phase = Phase.clock ∨ c.phase = Phase.render ∨
    c.phase = Phase.present ∨ c.phase = Phase.idle

/-- A call of the simulation's `update`. -/
def Call.isStateUpdate : Call → Bool
  | Call.stateUpdate _ _ => true
  | _ => false

/-- A call of the simulation's `update` on the state `target`. -/
def Call.isUpdateOf (target : StateId) : Call → Bool
  | Call.stateUpdate state _ => decide (state = target)
  | _ => false

/-- Modelled from the spec: the contract of the game state, which is not among the
sources: a result other than `Running` is terminal for that state, whatever calls
follow. -/
def ResultTerminal (env : Env) : Prop :=
  ∀ (h : History) (c : Call) (state : StateId),
    env.result h state ≠ Result.Running → env.result (h ++ [c]) state ≠ Result.Running

/-- An environment in which the game is won by the first simulation tick: the result is
`Running` until `update` has been called once and `Won` ever after; `update` asks for a
redraw. -/
def winningEnv : Env :=
  { quietEnv with
    boolOf := fun _ c => c.isStateUpdate
    result := fun h _ => if h.any Call.isStateUpdate then Result.Won else Result.Running }

/-- The engine with its history and steering part replaced, everything else kept. -/
def Engine.withCore (s : Engine) (l : History) (k : Core) : Engine :=
  { s with
    log := l
    windowOpen := k.windowOpen
    currentDialog := k.currentDialog
    cameraTarget := k.cameraTarget
    cameraDeltaX := k.cameraDeltaX
    cameraDeltaY := k.cameraDeltaY
    selecting := k.selecting
    selectionStart := k.selectionStart
    selectionCurr := k.selectionCurr
    selectionRect := k.selectionRect
    buttons := k.buttons }

/-- The win/loss overlay label: its text and position. -/
def Engine.overlay (s : Engine) : String × Vector2f :=
  (s.resultOverlayString, s.resultOverlayPos)

/-- A draw of the win/loss overlay. -/
def Call.isOverlayDraw : Call → Bool
  | Call.drawResultOverlay _ _ => true
  | _ => false

/-- The present call that ends a redraw. -/
def Call.isPresent : Call → Bool
  | Call.windowUpdate => true
  | _ => false

/-- A call that neither draws the win/loss overlay nor presents the frame. -/
def plainCall (c : Call) : Prop := c.isOverlayDraw = false ∧ c.isPresent = false


/-- A call of the unit layer's `selectUnits`. -/
def Call.isSelectUnits : Call → Bool
  | Call.selectUnits _ _ _ => true
  | _ => false

/-- A left-button press at `p`. -/
def pressAt (p : ScreenPos) : Event := Event.mouse EventType.MousePressed p MouseButton.LeftButton

/-- A mouse move to `q` (with whatever button the event reports). -/
def moveTo (q : ScreenPos) (b : MouseButton) : Event := Event.mouse EventType.MouseMoved q b

/-- A left-button release at `r`. -/
def releaseAt (r : ScreenPos) : Event :=
  Event.mouse EventType.MouseReleased r MouseButton.LeftButton

/-- No widget (action panel, minimap, unit-info panel) ever claims the event. -/
def Unclaimed (env : Env) (e : Event) : Prop :=
  ∀ h : History, env.boolOf h (Call.actionPanelHandleEvent e) = false ∧
    env.boolOf h (Call.minimapHandleEvent e) = false ∧
    env.boolOf h (Call.unitInfoPanelHandleEvent e) = false

/-- The collaborators leave a drag from `p` over `q` to a release at `r` alone: no widget
claims one of the three events, no icon button claims the press or the release, and the
unit layer refuses the left click and the release. -/
def QuietDrag (env : Env) (p q r : ScreenPos) (b : MouseButton) : Prop :=
  Unclaimed env (pressAt p) ∧ Unclaimed env (moveTo q b) ∧ Unclaimed env (releaseAt r) ∧
  (∀ (h : History) (i : Nat), env.boolOf h (Call.buttonOnMousePressed i p) = false) ∧
  (∀ (h : History) (i : Nat), env.boolOf h (Call.buttonOnMouseReleased i r) = false) ∧
  (∀ (h : History) (state : StateId) (camera : MapPos),
    env.boolOf h (Call.onLeftClick state p camera) = false) ∧
  (∀ (h : History) (state : StateId), env.boolOf h (Call.onMouseRelease state) = false)

/-- The position is outside the edge-scroll margins of the render target, whenever its
size is read. -/
def OffEdges (env : Env) (q : ScreenPos) : Prop :=
  ∀ h : History, MOUSE_MOVE_EDGE_SIZE ≤ q.x ∧
    q.x ≤ (env.targetSize h).width - MOUSE_MOVE_EDGE_SIZE ∧
    MOUSE_MOVE_EDGE_SIZE ≤ q.y ∧ q.y ≤ (env.targetSize h).height - MOUSE_MOVE_EDGE_SIZE

/-- The engine is in the middle of a drag from `start` to `curr`, with the window open, no
dialog and the camera at rest. -/
def Dragging (s : Engine) (start curr : ScreenPos) : Prop :=
  s.windowOpen = true ∧ s.currentDialog = false ∧ s.selecting = true ∧
  s.selectionStart = start ∧ s.selectionCurr = curr ∧
  s.cameraDeltaX = 0 ∧ s.cameraDeltaY = 0

/-- The engine is ready for a drag: window open, no dialog, no drag, camera at rest. -/
def Resting (s : Engine) : Prop :=
  s.windowOpen = true ∧ s.currentDialog = false ∧ s.selecting = false ∧
  s.cameraDeltaX = 0 ∧ s.cameraDeltaY = 0

/-- The outcome of a completed drag from `p` to `q` that started in engine `s`: the drag
is cleared and exactly one `selectUnits` call was added, with the rectangle spanned by
`p` and `q`. -/
def DragSelected (env : Env) (s : Engine) (p q : ScreenPos) (final : Engine) : Prop :=
  final.selecting = false ∧ final.selectionRect = ScreenRect.empty ∧
  ∃ (state : StateId) (camera : MapPos),
    final.log.filter Call.isSelectUnits =
      s.log.filter Call.isSelectUnits ++ [Call.selectUnits state (env.rectOf p q) camera]

/-- An environment in which the minimap claims every event and nothing else does. -/
def minimapClaimsEnv : Env :=
  { quietEnv with
    boolOf := fun _ c => match c with
      | Call.minimapHandleEvent _ => true
      | _ => false }

/-- An environment in which the dialog answers `Cancel` to every event. -/
def cancellingEnv : Env :=
  { quietEnv with choiceOf := fun _ _ => Choice.Cancel }

/-- An environment in which the second icon button claims every mouse press. -/
def buttonClaimsPressEnv : Env :=
  { quietEnv with
    boolOf := fun _ c => match c with
      | Call.buttonOnMousePressed 1 _ => true
      | _ => false }

/-- A draw of a line of the message log. -/
def Call.isMessageDraw : Call → Bool
  | Call.drawMessageLine _ _ => true
  | _ => false

/-- An engine whose message log holds an expired line in slot 0 and a live line in slot 1
(for a clock that reads less than 100000). -/
def staleLineEngine : Engine :=
  { idleEngine with visibleText := [⟨"old", 0⟩, ⟨"new", 100000⟩, ⟨"", 0⟩] }

/-- A context command to the unit layer: `onRightClick`. -/
def Call.isRightClick : Call → Bool
  | Call.onRightClick _ _ _ => true
  | _ => false

/-- An environment in which the second icon button claims every mouse release. -/
def buttonClaimsReleaseEnv : Env :=
  { quietEnv with
    boolOf := fun _ c => match c with
      | Call.buttonOnMouseReleased 1 _ => true
      | _ => false }

/-- A call that neither finalises a drag (`selectUnits`) nor issues a context command
(`onRightClick`). -/
def neitherSelectNorCommand (c : Call) : Prop := c.isSelectUnits = false ∧ c.isRightClick = false

/-- A drag in progress while the camera target sits on the left map edge (x = 0) and the
cursor rests in the left scroll margin; the last widget update was 16 ms ago. -/
def edgeDragEngine : Engine :=
  { draggingEngine with cameraTarget := ⟨0, 2400, 0⟩, cameraDeltaX := -1, lastUpdate := -16 }

/-- The selection rectangle invariant: while no drag is active the stored selection
rectangle is the empty (default) rectangle. -/
def RectInvariant (s : Engine) : Prop :=
  s.selecting = false → s.selectionRect = ScreenRect.empty

/-! ## UI overlay and setup -/

/-- Modelled from the spec: the overlay resolutions of the asset layer
(`AssetManager::UiResolution`). -/
inductive UiResolution where
  | Ui1280x1024
  | Ui1024x768
  | Ui800x600
deriving DecidableEq, Repr

/-- Modelled from the spec: the numeric values of the civ enumerators of
`AssetManager::UiCiv` named by `loadUiOverlay`; the civ variants are the values from
`briton` to `korean`. -/
structure UiCivs where
  briton : Nat
  viking : Nat
  korean : Nat

/-- The asset layer's answer to `getUiOverlay(resolution, civ)`: the size of the overlay
image, or `none` when there is no such overlay. -/
abbrev OverlayAssets := UiResolution → Nat → Option Size

/-- The do-while loop of `Engine::loadUiOverlay`, entered with `attemptedResolution` and
`attemptedCiv`: the civ is advanced first; past `Korean` the resolution is relaxed (or the
loop is left when none remains) and the civ restarts at `Briton`; then the overlay is
requested, and the loop repeats while there is none. The result is the overlay file the
loop ends with (`some none`: the loop was left without one); `none` means the fuel ran
out. -/
def fallbackLoop (civs : UiCivs) (assets : OverlayAssets) :
    Nat → UiResolution → Nat → Option (Option Size)
  | 0, _, _ => none
  | fuel + 1, attemptedResolution, attemptedCiv =>
    if attemptedCiv + 1 > civs.korean then
      match attemptedResolution with
      | UiResolution.Ui1280x1024 =>
        match assets UiResolution.Ui1024x768 civs.briton with
        | some overlay => some (some overlay)
        | none => fallbackLoop civs assets fuel UiResolution.Ui1024x768 civs.briton
      | UiResolution.Ui1024x768 =>
        match assets UiResolution.Ui800x600 civs.briton with
        | some overlay => some (some overlay)
        | none => fallbackLoop civs assets fuel UiResolution.Ui800x600 civs.briton
      | UiResolution.Ui800x600 => some none
    else
      match assets attemptedResolution (attemptedCiv + 1) with
      | some overlay => some (some overlay)
      | none => fallbackLoop civs assets fuel attemptedResolution (attemptedCiv + 1)

/-- Fuel that always suffices for the loop of `loadUiOverlay`: at most `korean + 2` rounds
per resolution. -/
def fallbackFuel (civs : UiCivs) : Nat := 3 * (civs.korean + 2)

/-- `Engine::loadUiOverlay`: the value of `m_uiOverlay` afterwards, given its value
before. The overlay for (1280x1024, Viking) is tried first; failing that the loop searches
the fallbacks; when nothing is found the overlay is left as it was. `none` means the loop
did not end within `fallbackFuel`. -/
def loadUiOverlay (civs : UiCivs) (assets : OverlayAssets) (uiOverlay : Option Size) :
    Option (Option Size) :=
  match assets UiResolution.Ui1280x1024 civs.viking with
  | some overlay => some (some overlay)
  | none =>
    match fallbackLoop civs assets (fallbackFuel civs) UiResolution.Ui1280x1024 civs.briton with
    | none => none
    | some (some overlay) => some (some overlay)
    | some none => some uiOverlay

/-- The usual numbering of the civ enumerators: `Briton` = 1, `Viking` = 11, `Korean` = 18. -/
def civNumbers : UiCivs := ⟨1, 11, 18⟩

/-- An asset layer whose only overlay is the one for (1280x1024, Briton). -/
def britonOnlyAssets (civs : UiCivs) : OverlayAssets :=
  fun resolution civ =>
    if resolution = UiResolution.Ui1280x1024 ∧ civ = civs.briton then some ⟨1280, 1024⟩ else none

/-- The number of rounds the loop of `loadUiOverlay` can still make from a given
resolution and civ: the civs left at this resolution, the round that relaxes it, and
`korean + 2` rounds for every resolution after it. -/
def fallbackRounds (civs : UiCivs) : UiResolution → Nat → Nat
  | UiResolution.Ui1280x1024, civ => (civs.korean + 1 - civ) + 1 + 2 * (civs.korean + 2)
  | UiResolution.Ui1024x768, civ => (civs.korean + 1 - civ) + 1 + (civs.korean + 2)
  | UiResolution.Ui800x600, civ => (civs.korean + 1 - civ) + 1

/-- The order in which `loadUiOverlay` relaxes the resolution. -/
def UiResolution.rank : UiResolution → Nat
  | UiResolution.Ui1280x1024 => 0
  | UiResolution.Ui1024x768 => 1
  | UiResolution.Ui800x600 => 2

/-- The combinations the loop of `loadUiOverlay` has still ahead of it at a given
resolution and civ: the later civs of this resolution and every civ of the later
resolutions. -/
def Ahead (civs : UiCivs) (resolution : UiResolution) (civ : Nat) (r : UiResolution)
    (c : Nat) : Prop :=
  (r = resolution ∧ civ < c ∧ c ≤ civs.korean) ∨
  (resolution.rank < r.rank ∧ civs.briton ≤ c ∧ c ≤ civs.korean)

/-- The answers of the collaborators that steer `Engine::setup`: the asset layer's
overlays, the state manager's answer to `addActiveState`, and `Size::isValid`. -/
structure SetupEnv where
  civs : UiCivs
  assets : OverlayAssets
  addActiveState : Bool
  isValid : Size → Bool

/-- How a run of `Engine::setup` ends: it returns a result, leaving the window at some
size, or it dereferences the unset `m_uiOverlay`. -/
inductive SetupEnd where
  | returned (result : Bool) (windowSize : Size)
  | nullDereference
deriving DecidableEq, Repr

/-- `Engine::setup`, reduced to what decides its outcome: the window is created at
1280x1024; a refusal of the initial game state by the state manager returns false; then
the overlay is loaded (it is unset before), its size is read through `m_uiOverlay`, an
invalid size is replaced by 640x480, window and render target take that size and true is
returned. The widget set-up in between only logs warnings. `none` means the loop of
`loadUiOverlay` did not end. -/
def setup (env : SetupEnv) : Option SetupEnd :=
  if !env.addActiveState then some (SetupEnd.returned false ⟨1280, 1024⟩)
  else
    match loadUiOverlay env.civs env.assets none with
    | none => none
    | some none => some SetupEnd.nullDereference
    | some (some overlay) =>
      let uiSize : Size := if !env.isValid overlay then ⟨640, 480⟩ else overlay
      some (SetupEnd.returned true uiSize)

/-- An asset layer without any overlay, a state manager that accepts the game state. -/
def noOverlayEnv : SetupEnv where
  civs := civNumbers
  assets := fun _ _ => none
  addActiveState := true
  isValid := fun size => decide (0 < size.width ∧ 0 < size.height)

/-- An asset layer whose overlays all have the size 0x0. -/
def emptyOverlayEnv : SetupEnv :=
  { noOverlayEnv with assets := fun _ _ => some ⟨0, 0⟩ }

/-! ## History screen -/

/-- A line of the history text: `HistoryScreen::TextLine` without its style flags, which
only the tag stripping at the end of `loadFile` sets. -/
structure TextLine where
  text : List Char
  width : Int
deriving DecidableEq, Repr

/-- The variables of the read loop of `HistoryScreen::loadFile`. -/
structure WrapState where
  textLines : List TextLine
  currentLine : TextLine
  currentWord : List Char
  currentWordWidth : Int
deriving DecidableEq, Repr

/-- What `file.get()` yields at the end of the file: `EOF` converted to `char`. -/
def eofChar : Char := Char.ofNat 255

/-- One round of the read loop of `loadFile` for the character read. A line that has been
pushed (moved from) is left with an empty text. -/
def readChar (advance : Char → Int) (textWidth : Int) (st : WrapState) (character : Char) :
    WrapState :=
  if character = '\r' then st
  else if character ≠ ' ' ∧ character ≠ '\n' then
    { st with
      currentWord := st.currentWord ++ [character]
      currentWordWidth := st.currentWordWidth + advance character }
  else if character = '\n' then
    if st.currentLine.width + st.currentWordWidth > textWidth then
      { textLines := st.textLines ++ [st.currentLine] ++ [⟨st.currentWord, st.currentLine.width⟩]
        currentLine := ⟨[], 0⟩
        currentWord := []
        currentWordWidth := 0 }
    else
      { textLines := st.textLines ++
          [⟨st.currentLine.text ++ st.currentWord, st.currentLine.width⟩]
        currentLine := ⟨[], 0⟩
        currentWord := []
        currentWordWidth := 0 }
  else
    if st.currentLine.width + st.currentWordWidth > textWidth then
      { textLines := st.textLines ++ [st.currentLine]
        currentLine := ⟨st.currentWord ++ [' '], 0 + (st.currentWordWidth + advance ' ')⟩
        currentWord := []
        currentWordWidth := 0 }
    else
      { textLines := st.textLines
        currentLine := ⟨st.currentLine.text ++ (st.currentWord ++ [' ']),
          st.currentLine.width + (st.currentWordWidth + advance ' ')⟩
        currentWord := []
        currentWordWidth := 0 }

/-- The state of the read loop of `loadFile` when it ends: `while (!file.eof())` runs once
per character of the file and once more for the failed read at the end. -/
def readAll (advance : Char → Int) (textWidth : Int) (content : List Char) : WrapState :=
  (content ++ [eofChar]).foldl (readChar advance textWidth) ⟨[], ⟨[], 0⟩, [], 0⟩

/-- The lines `HistoryScreen::loadFile` builds from an opened file, before the tag
stripping: the lines pushed by the read loop, and the current line if it is not empty. -/
def loadLines (advance : Char → Int) (textWidth : Int) (content : List Char) : List TextLine :=
  let st := readAll advance textWidth content
  if st.currentLine.text ≠ [] then st.textLines ++ [st.currentLine] else st.textLines

/-- Modelled from the spec: the elements of the history screen (`HistoryScreen::UiElements`)
that `handleMouseEvent` names. -/
inductive UiElement where
  | TitlesScrollbar
  | TitlesPositionIndicator
  | TitlesUpButton
  | TitlesDownButton
  | TextScrolllbar
  | TextPositionIndicator
  | TextUpButton
  | TextDownButton
  | MainScreenButton
  | InvalidUiElement
deriving DecidableEq, Repr

/-- What the history screen takes from outside: the two slot counts, the geometry of the
scrollbar elements, the hit tests, the files of the entries and the font metrics. -/
structure HistoryEnv where
  /-- The constant `s_numListEntries`. -/
  numListEntries : Int
  /-- The constant `s_numVisibleTextLines`. -/
  numVisibleTextLines : Int
  /-- The value of `m_uiElements[TitlesUpButton].rect.bottom()`. -/
  titlesUpBottom : Int
  /-- The value of `m_uiElements[TitlesDownButton].rect.y`. -/
  titlesDownY : Int
  /-- The value of `m_uiElements[TitlesPositionIndicator].rect.height`. -/
  titlesIndicatorHeight : Int
  /-- The value of `m_uiElements[TextUpButton].rect.bottom()`. -/
  textUpBottom : Int
  /-- The value of `m_uiElements[TextDownButton].rect.y`. -/
  textDownY : Int
  /-- The value of `m_uiElements[TextPositionIndicator].rect.height`. -/
  textIndicatorHeight : Int
  /-- The hit test `m_textRect.contains`. -/
  textRectContains : ScreenPos → Bool
  /-- The first slot `i` whose `m_visibleTitles[i].rect` contains the position. -/
  titleAt : ScreenPos → Option Int
  /-- The elements whose rectangle contains the position, from the last to the first. -/
  elementsAt : ScreenPos → List UiElement
  /-- The content of the file of an entry; `none` when it cannot be opened. -/
  fileContent : Int → Option (List Char)
  /-- The advance of a glyph at `s_mainTextSize`. -/
  advance : Char → Int
  /-- The constant `s_textWidth`. -/
  textWidth : Int
  /-- The value a conversion from float to `int` produces for a float that `int` cannot
  hold (infinity and NaN included); C++ leaves it undefined. -/
  outOfRangeInt : Int

/-- The part of a `HistoryScreen` the handlers steer by: the two scroll offsets, the sizes
of `m_textLines` and `m_historyEntries`, the selected entry, the pressed element and the
vertical positions of the two position indicators. -/
structure HistoryScreen where
  textScrollOffset : Int
  titleScrollOffset : Int
  lineCount : Nat
  entryCount : Nat
  currentEntry : Int
  pressedUiElement : UiElement
  textIndicatorY : Int
  titlesIndicatorY : Int
deriving DecidableEq, Repr

/-- `HistoryScreen::updateVisibleText`: the position indicator is placed at
`bottom + maxY * offset / int(lines - visible lines)`. `none`: the integer division is by
zero. -/
def HistoryScreen.updateVisibleText (env : HistoryEnv) (s : HistoryScreen) :
    Option HistoryScreen :=
  let maxY := env.textDownY - env.textUpBottom - env.textIndicatorHeight
  let divisor := (s.lineCount : Int) - env.numVisibleTextLines
  if divisor = 0 then none
  else some { s with
    textIndicatorY := env.textUpBottom + Int.tdiv (maxY * s.textScrollOffset) divisor }

/-- `HistoryScreen::updateVisibleTitles`: the position indicator is placed at
`bottom + maxY * offset / int(entries - list slots)`. `none`: the integer division is by
zero. -/
def HistoryScreen.updateVisibleTitles (env : HistoryEnv) (s : HistoryScreen) :
    Option HistoryScreen :=
  let maxY := env.titlesDownY - env.titlesUpBottom - env.titlesIndicatorHeight
  let divisor := (s.entryCount : Int) - env.numListEntries
  if divisor = 0 then none
  else some { s with
    titlesIndicatorY := env.titlesUpBottom + Int.tdiv (maxY * s.titleScrollOffset) divisor }

/-- `HistoryScreen::handleKeyEvent`: Up and Down scroll the text by one line. -/
def HistoryScreen.handleKeyEvent (env : HistoryEnv) (s : HistoryScreen) (key : Key) :
    Option HistoryScreen :=
  match key with
  | Key.Up =>
    if s.textScrollOffset > 0 then
      HistoryScreen.updateVisibleText env { s with textScrollOffset := s.textScrollOffset - 1 }
    else some s
  | Key.Down =>
    if s.textScrollOffset < (s.lineCount : Int) - env.numVisibleTextLines then
      HistoryScreen.updateVisibleText env { s with textScrollOffset := s.textScrollOffset + 1 }
    else some s
  | _ => some s

/-- The first half of `HistoryScreen::handleScrollEvent`: the wheel over the title list. -/
def HistoryScreen.scrollTitles (env : HistoryEnv) (s : HistoryScreen) (position : ScreenPos)
    (deltaY : Int) : Option HistoryScreen :=
  if position.x > 22 ∧ position.x < 220 ∧ position.y > 25 ∧ position.y < 375 then
    if deltaY < 0 then
      if s.titleScrollOffset < (s.entryCount : Int) - env.numListEntries then
        HistoryScreen.updateVisibleTitles env
          { s with titleScrollOffset := s.titleScrollOffset + 1 }
      else some s
    else
      if s.titleScrollOffset > 0 then
        HistoryScreen.updateVisibleTitles env
          { s with titleScrollOffset := s.titleScrollOffset - 1 }
      else some s
  else some s

/-- The second half of `HistoryScreen::handleScrollEvent`: the wheel over the text. -/
def HistoryScreen.scrollText (env : HistoryEnv) (s : HistoryScreen) (position : ScreenPos)
    (deltaY : Int) : Option HistoryScreen :=
  if env.textRectContains position then
    if deltaY < 0 then
      if s.textScrollOffset < (s.lineCount : Int) - env.numVisibleTextLines then
        HistoryScreen.updateVisibleText env
          { s with textScrollOffset := s.textScrollOffset + 1 }
      else some s
    else
      if s.textScrollOffset > 0 then
        HistoryScreen.updateVisibleText env
          { s with textScrollOffset := s.textScrollOffset - 1 }
      else some s
  else some s

/-- `HistoryScreen::handleScrollEvent`. -/
def HistoryScreen.handleScrollEvent (env : HistoryEnv) (s : HistoryScreen)
    (position : ScreenPos) (deltaY : Int) : Option HistoryScreen :=
  (HistoryScreen.scrollTitles env s position deltaY).bind
    (fun s1 => HistoryScreen.scrollText env s1 position deltaY)

/-- The scroll bounds of the history screen: each offset lies between 0 and the number of
items beyond the visible slots (0 when everything fits). -/
def ScrollBounds (env : HistoryEnv) (s : HistoryScreen) : Prop :=
  0 ≤ s.textScrollOffset ∧
  s.textScrollOffset ≤ max 0 ((s.lineCount : Int) - env.numVisibleTextLines) ∧
  0 ≤ s.titleScrollOffset ∧
  s.titleScrollOffset ≤ max 0 ((s.entryCount : Int) - env.numListEntries)

/-- Two states of the history screen whose offsets differ by at most one step each and
whose line and entry counts agree. -/
def OneStep (s t : HistoryScreen) : Prop :=
  t.lineCount = s.lineCount ∧ t.entryCount = s.entryCount ∧
  s.textScrollOffset - 1 ≤ t.textScrollOffset ∧ t.textScrollOffset ≤ s.textScrollOffset + 1 ∧
  s.titleScrollOffset - 1 ≤ t.titleScrollOffset ∧ t.titleScrollOffset ≤ s.titleScrollOffset + 1

/-- A history screen geometry: 10 list slots, 12 visible text lines, the title scrollbar
between y = 41 and y = 369 with an indicator 20 high, the text scrollbar between y = 287
and y = 510 with an indicator 20 high; the text rectangle is (317, 275, 400, 255) and a
press hits the elements given by `hits`. -/
def sampleHistoryEnv (hits : ScreenPos → List UiElement) : HistoryEnv where
  numListEntries := 10
  numVisibleTextLines := 12
  titlesUpBottom := 41
  titlesDownY := 369
  titlesIndicatorHeight := 20
  textUpBottom := 287
  textDownY := 510
  textIndicatorHeight := 20
  textRectContains := fun p => decide (317 ≤ p.x ∧ p.x ≤ 717 ∧ 275 ≤ p.y ∧ p.y ≤ 530)
  titleAt := fun _ => none
  elementsAt := hits
  fileContent := fun _ => none
  advance := fun _ => 8
  textWidth := 400
  outOfRangeInt := -2147483648

/-- A history screen with 100 entries and 40 text lines, scrolled to the top. -/
def sampleHistoryScreen : HistoryScreen where
  textScrollOffset := 0
  titleScrollOffset := 0
  lineCount := 40
  entryCount := 100
  currentEntry := 0
  pressedUiElement := UiElement.InvalidUiElement
  textIndicatorY := 287
  titlesIndicatorY := 41

/-- The scrollbar formula of `HistoryScreen::handleMouseEvent`,
`(size - slots) * (y - bottom) / maxY` stored in an `int`: the difference is taken in
`size_t` (modulo 2^64), product and quotient are float operations, and the float is
converted to `int` by truncation; a quotient that `int` cannot hold, a division by zero
included, converts to `outOfRange`. The float operations are kept exact: for coordinates
below 2^24 the converted value is the same while the product stays below 2^24, and a
wrapped difference times a non-zero distance is out of range either way. -/
def scrollTarget (outOfRange : Int) (count : Nat) (slots y upBottom maxY : Int) : Int :=
  if maxY = 0 then outOfRange
  else if -2 ^ 31 ≤ Int.tdiv ((((count : Int) - slots) % 2 ^ 64) * (y - upBottom)) maxY ∧
      Int.tdiv ((((count : Int) - slots) % 2 ^ 64) * (y - upBottom)) maxY < 2 ^ 31 then
    Int.tdiv ((((count : Int) - slots) % 2 ^ 64) * (y - upBottom)) maxY
  else outOfRange

/-- The travel of a position indicator as `handleMouseEvent` computes it:
`down.y - up.bottom() - indicator.height / 2`, a float expression stored in an `int`. -/
def scrollTravel (downY upBottom indicatorHeight : Int) : Int :=
  Int.tdiv (2 * (downY - upBottom) - indicatorHeight) 2

/-- `HistoryScreen::loadFile` for the file of entry `index`, as far as the steering part
goes: the lines are cleared; an unopenable file ends it there; otherwise the text offset
is reset, the lines are rebuilt and `updateVisibleText` runs. -/
def HistoryScreen.loadFile (env : HistoryEnv) (s : HistoryScreen) (index : Int) :
    Option HistoryScreen :=
  match env.fileContent index with
  | none => some { s with lineCount := 0 }
  | some content =>
    HistoryScreen.updateVisibleText env
      { s with
        lineCount := (loadLines env.advance env.textWidth content).length
        textScrollOffset := 0 }

/-- The loop of the press branch of `handleMouseEvent` over the elements under the
cursor: the element becomes the pressed one; the buttons step the offsets, a scrollbar
sets its offset from the cursor position and hands the press to the position indicator;
any other element lets the loop go on. -/
def HistoryScreen.pressElements (env : HistoryEnv) (position : ScreenPos) :
    HistoryScreen → List UiElement → Option (Bool × HistoryScreen)
  | s, [] => some (false, s)
  | s, element :: rest =>
    let s1 := { s with pressedUiElement := element }
    match element with
    | UiElement.TitlesUpButton =>
      if s1.titleScrollOffset > 0 then
        (HistoryScreen.updateVisibleTitles env
          { s1 with titleScrollOffset := s1.titleScrollOffset - 1 }).map (fun t => (false, t))
      else some (false, s1)
    | UiElement.TitlesDownButton =>
      if s1.titleScrollOffset < (s1.entryCount : Int) - env.numListEntries then
        (HistoryScreen.updateVisibleTitles env
          { s1 with titleScrollOffset := s1.titleScrollOffset + 1 }).map (fun t => (false, t))
      else some (false, s1)
    | UiElement.TitlesScrollbar =>
      let maxY := scrollTravel env.titlesDownY env.titlesUpBottom env.titlesIndicatorHeight
      let offset := scrollTarget env.outOfRangeInt s1.entryCount env.numListEntries
        position.y env.titlesUpBottom maxY
      (HistoryScreen.updateVisibleTitles env { s1 with titleScrollOffset := offset }).map
        (fun t => (false, { t with pressedUiElement := UiElement.TitlesPositionIndicator }))
    | UiElement.TextUpButton =>
      if s1.textScrollOffset > 0 then
        (HistoryScreen.updateVisibleText env
          { s1 with textScrollOffset := s1.textScrollOffset - 1 }).map (fun t => (false, t))
      else some (false, s1)
    | UiElement.TextDownButton =>
      if s1.textScrollOffset < (s1.lineCount : Int) - env.numVisibleTextLines then
        (HistoryScreen.updateVisibleText env
          { s1 with textScrollOffset := s1.textScrollOffset + 1 }).map (fun t => (false, t))
      else some (false, s1)
    | UiElement.TextScrolllbar =>
      let maxY := scrollTravel env.textDownY env.textUpBottom env.textIndicatorHeight
      let offset := scrollTarget env.outOfRangeInt s1.lineCount env.numListEntries
        position.y env.textUpBottom maxY
      (HistoryScreen.updateVisibleText env { s1 with textScrollOffset := offset }).map
        (fun t => (false, { t with pressedUiElement := UiElement.TextPositionIndicator }))
    | _ => HistoryScreen.pressElements env position s1 rest

/-- `HistoryScreen::handleMouseEvent`. `none`: an integer division by zero in the
indicator computation, or the press on a title slot beyond the entries. The hovered
element, which only `render` reads, is not kept. -/
def HistoryScreen.handleMouseEvent (env : HistoryEnv) (s : HistoryScreen) (type : EventType)
    (position : ScreenPos) : Option (Bool × HistoryScreen) :=
  match type with
  | EventType.MouseMoved =>
    if s.pressedUiElement = UiElement.TitlesPositionIndicator then
      let maxY := scrollTravel env.titlesDownY env.titlesUpBottom env.titlesIndicatorHeight
      let offset := scrollTarget env.outOfRangeInt s.entryCount env.numListEntries
        position.y env.titlesUpBottom maxY
      (HistoryScreen.updateVisibleTitles env
        { s with titleScrollOffset :=
            (max (min offset ((s.entryCount : Int) - env.numListEntries)) 0) }).map
        (fun t => (false, t))
    else if s.pressedUiElement = UiElement.TextPositionIndicator then
      let maxY := scrollTravel env.textDownY env.textUpBottom env.textIndicatorHeight
      let offset := scrollTarget env.outOfRangeInt s.lineCount env.numListEntries
        position.y env.textUpBottom maxY
      (HistoryScreen.updateVisibleText env
        { s with textScrollOffset :=
            (max (min offset ((s.lineCount : Int) - env.numVisibleTextLines)) 0) }).map
        (fun t => (false, t))
    else some (false, s)
  | EventType.MousePressed =>
    let s0 := { s with pressedUiElement := UiElement.InvalidUiElement }
    match env.titleAt position with
    | some i =>
      let index := i + s0.titleScrollOffset
      if index < 0 ∨ (s0.entryCount : Int) ≤ index then none
      else
        ((HistoryScreen.loadFile env { s0 with currentEntry := index } index).bind
          (HistoryScreen.updateVisibleTitles env)).map (fun t => (false, t))
    | none => HistoryScreen.pressElements env position s0 (env.elementsAt position)
  | EventType.MouseReleased =>
    if s.pressedUiElement = UiElement.MainScreenButton ∧
        UiElement.MainScreenButton ∈ env.elementsAt position then
      some (true, s)
    else some (false, { s with pressedUiElement := UiElement.InvalidUiElement })
  | _ => some (false, s)

/-- The characters the read loop of `loadFile` puts into words and lines: all but carriage
return and newline. -/
def keptChar (c : Char) : Bool := c ≠ '\r' && c ≠ '\n'

/-- All the text a state of the read loop holds, in reading order: the pushed lines, the
current line, the current word. -/
def WrapState.flat (st : WrapState) : List Char :=
  (st.textLines.map TextLine.text).flatten ++ st.currentLine.text ++ st.currentWord

/-! ## Logger -/

/-- `std::string_view::find(c)`: the index of the first occurrence of `c`; `none` stands
for `npos`. -/
def findFirst (c : Char) : List Char → Option Nat
  | [] => none
  | x :: xs => if x = c then some 0 else (findFirst c xs).map (fun i => i + 1)

/-- The index of the last character of a string that satisfies `p`; `none` stands for
`npos`. -/
def findLast (p : Char → Bool) : List Char → Option Nat
  | [] => none
  | x :: xs =>
    match findLast p xs with
    | some i => some (i + 1)
    | none => if p x then some 0 else none

/-- `std::string_view::find_last_of(chars, pos)`: the index of the last character at or
before `pos` that is one of `chars`. -/
def findLastOf (s : List Char) (chars : List Char) (pos : Nat) : Option Nat :=
  findLast (fun c => decide (c ∈ chars)) (s.take (pos + 1))

/-- `LogPrinter::extractClassName`: the text between the last space and the last colon
before the first opening parenthesis. `npos + 1` wraps to 0, and `length` (the source's
`end`) is computed in `size_t`, modulo 2^64. -/
def extractClassName (prettyFunction : List Char) : List Char :=
  match findFirst '(' prettyFunction with
  | none => []
  | some argumentsStart =>
    match findLastOf prettyFunction [':', ':'] argumentsStart with
    | none => [':', ':']
    | some colons =>
      if colons = 0 then [':', ':']
      else
        let begin :=
          match findLastOf prettyFunction [' '] argumentsStart with
          | none => 0
          | some i => i + 1
        let length := (colons + 2 ^ 64 - begin - 1) % 2 ^ 64
        (prettyFunction.drop begin).take length

/-! ## Theorems -/

/-! ### The button loops -/

theorem pressCalls_succ (p : ScreenPos) (n : Nat) :
    pressCalls p (n + 1) = pressCalls p n ++ [Call.buttonOnMousePressed n p] := by
  simp [pressCalls, List.range_succ]

theorem releaseCalls_succ (p : ScreenPos) (n : Nat) :
    releaseCalls p (n + 1) = releaseCalls p n ++ [Call.buttonOnMouseReleased n p] := by
  simp [releaseCalls, List.range_succ]

/-- The press loop changes nothing but the history, to which it adds one call per button. -/
theorem pressFold_snd (env : Env) (s : Engine) (p : ScreenPos) (n : Nat) :
    ((List.range n).foldl (pressStep env p) (false, s)).2 = s.withLog (s.log ++ pressCalls p n) := by
  induction n with
  | zero => simp [pressCalls, Engine.withLog]
  | succ n ih =>
    rw [List.range_succ, List.foldl_append]
    simp only [List.foldl_cons, List.foldl_nil, pressStep, callB, ih, pressCalls_succ]
    simp [Engine.call, Engine.withLog]

/-- The press loop reports a claim exactly when some button answered true. -/
theorem pressFold_fst (env : Env) (s : Engine) (p : ScreenPos) (n : Nat) :
    ((List.range n).foldl (pressStep env p) (false, s)).1 = true ↔
      ∃ i, i < n ∧ env.boolOf (s.log ++ pressCalls p i) (Call.buttonOnMousePressed i p) = true := by
  induction n with
  | zero => simp
  | succ n ih =>
    rw [List.range_succ, List.foldl_append]
    simp only [List.foldl_cons, List.foldl_nil, pressStep, callB, Bool.or_eq_true, ih,
      pressFold_snd]
    constructor
    · rintro (h | ⟨i, hi, h⟩)
      · exact ⟨n, Nat.lt_succ_self n, h⟩
      · exact ⟨i, Nat.lt_succ_of_lt hi, h⟩
    · rintro ⟨i, hi, h⟩
      rcases Nat.lt_succ_iff_lt_or_eq.mp hi with hlt | rfl
      · exact Or.inr ⟨i, hlt, h⟩
      · exact Or.inl h

/-- The release loop changes nothing but the history. -/
theorem releaseFold_snd (env : Env) (s : Engine) (p : ScreenPos) (n : Nat) :
    ((List.range n).foldl (releaseStep env p) (IconButtonType.Invalid, s)).2 =
      s.withLog (s.log ++ releaseCalls p n) := by
  induction n with
  | zero => simp [releaseCalls, Engine.withLog]
  | succ n ih =>
    rw [List.range_succ, List.foldl_append]
    simp only [List.foldl_cons, List.foldl_nil, releaseStep, callB, ih, releaseCalls_succ]
    simp [Engine.call, Engine.withLog]

/-- When no button claims the release, `clickedButton` stays `Invalid`. -/
theorem releaseFold_fst_of_unclaimed (env : Env) (s : Engine) (p : ScreenPos) (n : Nat)
    (h : ∀ i, i < n →
      env.boolOf (s.log ++ releaseCalls p i) (Call.buttonOnMouseReleased i p) = false) :
    ((List.range n).foldl (releaseStep env p) (IconButtonType.Invalid, s)).1 =
      IconButtonType.Invalid := by
  induction n with
  | zero => simp
  | succ n ih =>
    rw [List.range_succ, List.foldl_append]
    have ih2 := ih (fun i hi => h i (Nat.lt_succ_of_lt hi))
    have hn := h n (Nat.lt_succ_self n)
    simp only [List.foldl_cons, List.foldl_nil, releaseStep, callB, releaseFold_snd, ih2]
    simp [Engine.withLog, hn]

/-! ### Modal dialog -/

/-- C1: when a modal dialog is present, `handleEvent` returns true for every event and
every engine state, and all it does is pass the event to the dialog: the engine it leaves
is the engine it found with the dialog's `handleEvent` appended to the history, the dialog
cleared on a `Cancel` answer and the window closed on a `Quit` answer. So no widget, key
or mouse handler runs: camera target, camera velocity and drag are as before. The frame
loop's dispatch of the event does the same after the window close of a `Quit` event, and
does not forward the event to the simulation state. -/
theorem dialog_claims_every_event (env : Env) (s : Engine) (event : Event) (state : StateId)
    (hd : s.currentDialog = true) :
    (handleEvent env s event state).1 = true ∧
    (handleEvent env s event state).2.log =
      s.log ++ Call.dialogHandleEvent event ::
        (if env.choiceOf s.log event = Choice.Quit then [Call.windowClose] else []) ∧
    (dispatch env s state event).log =
      (s.log ++ if event.type = EventType.Quit then [Call.windowClose] else []) ++
        Call.dialogHandleEvent event ::
          (if env.choiceOf (s.log ++ if event.type = EventType.Quit then [Call.windowClose]
              else []) event = Choice.Quit
            then [Call.windowClose] else []) ∧
    handleEvent env s event state =
      (true,
        if env.choiceOf s.log event = Choice.Cancel then
          { s.call (Call.dialogHandleEvent event) with currentDialog := false }
        else if env.choiceOf s.log event = Choice.Quit then
          (s.call (Call.dialogHandleEvent event)).closeWindow
        else s.call (Call.dialogHandleEvent event)) ∧
    dispatch env s state event =
      (handleEvent env (if event.type = EventType.Quit then s.closeWindow else s)
        event state).2 ∧
    ((handleEvent env s event state).2.cameraTarget = s.cameraTarget ∧
      (handleEvent env s event state).2.cameraDeltaX = s.cameraDeltaX ∧
      (handleEvent env s event state).2.cameraDeltaY = s.cameraDeltaY ∧
      (handleEvent env s event state).2.selecting = s.selecting ∧
      (handleEvent env s event state).2.selectionStart = s.selectionStart ∧
      (handleEvent env s event state).2.selectionCurr = s.selectionCurr ∧
      (handleEvent env s event state).2.selectionRect = s.selectionRect) ∧
    ((dispatch env s state event).cameraTarget = s.cameraTarget ∧
      (dispatch env s state event).cameraDeltaX = s.cameraDeltaX ∧
      (dispatch env s state event).cameraDeltaY = s.cameraDeltaY ∧
      (dispatch env s state event).selecting = s.selecting ∧
      (dispatch env s state event).selectionStart = s.selectionStart ∧
      (dispatch env s state event).selectionCurr = s.selectionCurr ∧
      (dispatch env s state event).selectionRect = s.selectionRect) := by
  have hfull : ∀ u : Engine, u.currentDialog = true → handleEvent env u event state =
      (true,
        if env.choiceOf u.log event = Choice.Cancel then
          { u.call (Call.dialogHandleEvent event) with currentDialog := false }
        else if env.choiceOf u.log event = Choice.Quit then
          (u.call (Call.dialogHandleEvent event)).closeWindow
        else u.call (Call.dialogHandleEvent event)) := by
    intro u hu
    simp only [handleEvent, hu, if_true]
    split_ifs <;> rfl
  have hkeep : ∀ u : Engine, u.currentDialog = true →
      (handleEvent env u event state).2.cameraTarget = u.cameraTarget ∧
      (handleEvent env u event state).2.cameraDeltaX = u.cameraDeltaX ∧
      (handleEvent env u event state).2.cameraDeltaY = u.cameraDeltaY ∧
      (handleEvent env u event state).2.selecting = u.selecting ∧
      (handleEvent env u event state).2.selectionStart = u.selectionStart ∧
      (handleEvent env u event state).2.selectionCurr = u.selectionCurr ∧
      (handleEvent env u event state).2.selectionRect = u.selectionRect := by
    intro u hu
    rw [hfull u hu]
    dsimp only
    split_ifs <;> exact ⟨rfl, rfl, rfl, rfl, rfl, rfl, rfl⟩
  have hdisp : dispatch env s state event =
      (handleEvent env (if event.type = EventType.Quit then s.closeWindow else s)
        event state).2 := by
    have hu : (if event.type = EventType.Quit then s.closeWindow else s).currentDialog =
        true := by
      split_ifs
      · exact hd
      · exact hd
    have h1 := congrArg Prod.fst
      (hfull (if event.type = EventType.Quit then s.closeWindow else s) hu)
    simp only [dispatch]
    rw [h1]
    rfl
  refine ⟨?_, ?_, ?_, hfull s hd, hdisp, hkeep s hd, ?_⟩
  · simp only [handleEvent, hd, if_true]
    split_ifs <;> rfl
  · simp only [handleEvent, hd, if_true]
    split_ifs <;> simp_all [Engine.call, Engine.closeWindow]
  · simp only [dispatch]
    by_cases hq : event.type = EventType.Quit
    · simp only [hq, if_true, handleEvent, Engine.closeWindow, Engine.call, hd]
      split_ifs <;> simp_all
    · simp only [hq, if_false, handleEvent, hd, if_true]
      split_ifs <;> simp_all [Engine.call, Engine.closeWindow]
  · rw [hdisp]
    by_cases hq : event.type = EventType.Quit
    · rw [if_pos hq]
      exact hkeep s.closeWindow hd
    · rw [if_neg hq]
      exact hkeep s hd

/-- Witness for C1: a left press while a dialog is open is claimed, the dispatch issues the
dialog call only, and an Up key under the dialog leaves the camera target where it was. -/
theorem dialog_claims_every_event_witness :
    (handleEvent quietEnv { idleEngine with currentDialog := true }
      (Event.mouse EventType.MousePressed ⟨100, 100⟩ MouseButton.LeftButton) 0).1 = true ∧
    (dispatch quietEnv { idleEngine with currentDialog := true } 0
      (Event.mouse EventType.MousePressed ⟨100, 100⟩ MouseButton.LeftButton)).log =
      [Call.dialogHandleEvent
        (Event.mouse EventType.MousePressed ⟨100, 100⟩ MouseButton.LeftButton)] ∧
    (dispatch quietEnv { idleEngine with currentDialog := true } 0
      (Event.keyboard EventType.KeyPressed Key.Up)).cameraTarget = ⟨2400, 2400, 0⟩ :=
  ⟨(dialog_claims_every_event quietEnv { idleEngine with currentDialog := true }
      (Event.mouse EventType.MousePressed ⟨100, 100⟩ MouseButton.LeftButton) 0 rfl).1,
    (dialog_claims_every_event quietEnv { idleEngine with currentDialog := true }
      (Event.mouse EventType.MousePressed ⟨100, 100⟩ MouseButton.LeftButton) 0 rfl).2.2.1,
    (dialog_claims_every_event quietEnv { idleEngine with currentDialog := true }
      (Event.keyboard EventType.KeyPressed Key.Up) 0 rfl).2.2.2.2.2.2.1⟩

/-! ### Selection drag -/

/-- C2: a left-button press at `p` with `p.y < 800` that no icon button claims and that the
unit layer's `onLeftClick` refuses makes the drag active with start `p` and current point
`p + (1,1)`. -/
theorem press_starts_drag (env : Env) (s : Engine) (p : ScreenPos) (state : StateId)
    (hy : p.y < 800)
    (hbuttons : ∀ i, i < s.buttons.length →
      env.boolOf (s.log ++ pressCalls p i) (Call.buttonOnMousePressed i p) = false)
    (hunit : env.boolOf (s.log ++ pressCalls p s.buttons.length)
      (Call.onLeftClick state p s.cameraTarget) = false) :
    (handleMousePress env s p MouseButton.LeftButton state).2.selecting = true ∧
    (handleMousePress env s p MouseButton.LeftButton state).2.selectionStart = p ∧
    (handleMousePress env s p MouseButton.LeftButton state).2.selectionCurr =
      ⟨p.x + 1, p.y + 1⟩ := by
  have h1 : (pressButtons env s p).1 = false := by
    rw [Bool.eq_false_iff]
    intro hc
    obtain ⟨i, hi, h⟩ := (pressFold_fst env s p s.buttons.length).mp hc
    rw [hbuttons i hi] at h
    exact Bool.false_ne_true h
  have h2 : (pressButtons env s p).2 = s.withLog (s.log ++ pressCalls p s.buttons.length) :=
    pressFold_snd env s p s.buttons.length
  simp [handleMousePress, h1, h2, hy, callB, Engine.withLog, hunit, Engine.call, ScreenPos.add]

/-- Witness for C2: a refused left press at (100,100) in the quiet environment. -/
theorem press_starts_drag_witness :
    (handleMousePress quietEnv idleEngine ⟨100, 100⟩ MouseButton.LeftButton 0).2.selecting = true ∧
    (handleMousePress quietEnv idleEngine ⟨100, 100⟩ MouseButton.LeftButton 0).2.selectionStart =
      ⟨100, 100⟩ ∧
    (handleMousePress quietEnv idleEngine ⟨100, 100⟩ MouseButton.LeftButton 0).2.selectionCurr =
      ⟨100 + 1, 100 + 1⟩ :=
  press_starts_drag quietEnv idleEngine ⟨100, 100⟩ 0 (by decide) (fun _ _ => rfl) rfl

/-- C3 as stated fails: during an active drag a mouse move to (150,900), below the world
viewport band `y < 800`, does not set the current point to the event position. -/
theorem move_below_viewport_keeps_current :
    ¬ ∀ (env : Env) (s : Engine) (pos : ScreenPos) (state : StateId), s.selecting = true →
      (handleMouseMove env s pos state).2.selectionCurr = pos := by
  intro h
  have h1 := h quietEnv draggingEngine ⟨150, 900⟩ 0 rfl
  revert h1
  decide

/-- C3 amended: while a drag is active, a mouse move to a position with `y < 800` sets the
current point to that position, and a move with `y >= 800` leaves the current point as it
was. -/
theorem move_updates_current_in_viewport (env : Env) (s : Engine) (pos : ScreenPos)
    (state : StateId) (hs : s.selecting = true) :
    (pos.y < 800 → (handleMouseMove env s pos state).2.selectionCurr = pos) ∧
    (¬ pos.y < 800 → (handleMouseMove env s pos state).2.selectionCurr = s.selectionCurr) := by
  constructor
  · intro hy
    simp [handleMouseMove, hy, hs]
  · intro hy
    simp [handleMouseMove, hy]

/-- Witness for C3 amended: a move to (160,170) during the drag. -/
theorem move_updates_current_in_viewport_witness :
    (handleMouseMove quietEnv draggingEngine ⟨160, 170⟩ 0).2.selectionCurr = ⟨160, 170⟩ :=
  (move_updates_current_in_viewport quietEnv draggingEngine ⟨160, 170⟩ 0 rfl).1 (by decide)

/-- C4 as stated fails: when the unit layer's `onMouseRelease` claims a left release, the
active drag stays active (and `selectUnits` is not called). -/
theorem release_claimed_by_unit_layer_keeps_drag :
    ¬ ∀ (env : Env) (s : Engine) (pos : ScreenPos) (state : StateId), s.selecting = true →
      (Call.selectUnits state s.selectionRect s.cameraTarget ∈
          (handleMouseRelease env s pos MouseButton.LeftButton state).2.log ∧
        (handleMouseRelease env s pos MouseButton.LeftButton state).2.selecting = false ∧
        (handleMouseRelease env s pos MouseButton.LeftButton state).2.selectionRect =
          ScreenRect.empty) := by
  intro h
  have h1 := (h unitClaimsReleaseEnv draggingEngine ⟨150, 140⟩ 0 rfl).2.1
  revert h1
  decide

/-- C4 amended: when a drag is active and a left release is claimed neither by the unit
layer's `onMouseRelease` (asked when `y < 800`) nor by an icon button, `handleMouseRelease`
returns true, its last call is `selectUnits` with the stored drag rectangle, and it leaves
the drag inactive with the stored rectangle cleared. -/
theorem unclaimed_release_finalises_drag (env : Env) (s : Engine) (pos : ScreenPos)
    (state : StateId) (hs : s.selecting = true)
    (hunit : pos.y < 800 → env.boolOf s.log (Call.onMouseRelease state) = false)
    (hbuttons : ∀ i, i < s.buttons.length →
      env.boolOf ((s.log ++ if pos.y < 800 then [Call.onMouseRelease state] else []) ++
        releaseCalls pos i) (Call.buttonOnMouseReleased i pos) = false) :
    (handleMouseRelease env s pos MouseButton.LeftButton state).1 = true ∧
    (handleMouseRelease env s pos MouseButton.LeftButton state).2.log =
      (s.log ++ if pos.y < 800 then [Call.onMouseRelease state] else []) ++
        releaseCalls pos s.buttons.length ++
        [Call.selectUnits state s.selectionRect s.cameraTarget] ∧
    (handleMouseRelease env s pos MouseButton.LeftButton state).2.selecting = false ∧
    (handleMouseRelease env s pos MouseButton.LeftButton state).2.selectionRect =
      ScreenRect.empty := by
  by_cases hy : pos.y < 800
  · have hu := hunit hy
    simp only [hy, if_true] at hbuttons
    have h1 := releaseFold_fst_of_unclaimed env (s.call (Call.onMouseRelease state)) pos
      s.buttons.length hbuttons
    have h2 := releaseFold_snd env (s.call (Call.onMouseRelease state)) pos s.buttons.length
    have hb : (s.call (Call.onMouseRelease state)).buttons = s.buttons := rfl
    simp only [handleMouseRelease, hy, callB, hu, releaseButtons, hb, h1, h2, true_and, if_true]
    simp [Engine.withLog, Engine.call, hs]
  · simp only [hy, if_false, List.append_nil] at hbuttons
    have h1 := releaseFold_fst_of_unclaimed env s pos s.buttons.length hbuttons
    have h2 := releaseFold_snd env s pos s.buttons.length
    simp only [handleMouseRelease, hy, releaseButtons, h1, h2, false_and, if_false]
    simp [Engine.withLog, Engine.call, hs]

/-- Witness for C4 amended: an unclaimed left release at (150,140) during the drag. -/
theorem unclaimed_release_finalises_drag_witness :
    (handleMouseRelease quietEnv draggingEngine ⟨150, 140⟩ MouseButton.LeftButton 0).2.selecting =
      false ∧
    Call.selectUnits 0 ⟨100, 100, 50, 40⟩ ⟨2400, 2400, 0⟩ ∈
      (handleMouseRelease quietEnv draggingEngine ⟨150, 140⟩ MouseButton.LeftButton 0).2.log :=
  ⟨(unclaimed_release_finalises_drag quietEnv draggingEngine ⟨150, 140⟩ 0 rfl
    (fun _ => rfl) (fun _ _ => rfl)).2.2.1, by decide⟩

/-! ### Message log -/

theorem shiftFold_length (vt : List MessageLine) (k : Nat) :
    ((List.range k).foldl shiftLine vt).length = vt.length := by
  induction k with
  | zero => simp
  | succ k ih => simp [List.range_succ, List.foldl_append, shiftLine, ih]

theorem shiftFold_getElem_opt (vt : List MessageLine) (k : Nat) (hk : k + 1 ≤ vt.length) :
    ∀ j, ((List.range k).foldl shiftLine vt)[j]? = if j < k then vt[j + 1]? else vt[j]? := by
  induction k with
  | zero => simp
  | succ k ih =>
    intro j
    have ihk := ih (Nat.le_of_succ_le hk)
    have hlen := shiftFold_length vt k
    have ha : vt[k + 1]? = some (vt.get ⟨k + 1, hk⟩) := List.getElem?_eq_getElem hk
    have hnext : ((List.range k).foldl shiftLine vt)[k + 1]? = some (vt.get ⟨k + 1, hk⟩) := by
      rw [ihk (k + 1), ← ha]
      simp
    simp only [List.range_succ, List.foldl_append, List.foldl_cons, List.foldl_nil, shiftLine,
      List.getD_eq_getElem?_getD, hnext, Option.getD_some, List.getElem?_set, hlen]
    by_cases hjk : k = j
    · subst hjk
      have : k < vt.length := by omega
      simp [this, ha]
    · simp only [hjk, if_false, ihk j]
      by_cases h1 : j < k
      · have : j < k + 1 := by omega
        simp [h1, this]
      · have : ¬ j < k + 1 := by omega
        simp [h1, this]

theorem addMessage_visibleText (env : Env) (s : Engine) (m : String)
    (hN : 0 < env.numMessagesLines) (hlen : s.visibleText.length = env.numMessagesLines) :
    (addMessage env s m).visibleText =
      s.visibleText.tail ++ [⟨m, env.clock s.log + env.messageTimeout⟩] := by
  apply List.ext_getElem?
  intro j
  have hk : env.numMessagesLines - 1 + 1 ≤ s.visibleText.length := by omega
  simp only [addMessage, readClock, List.getElem?_set, shiftFold_length,
    shiftFold_getElem_opt s.visibleText _ hk]
  by_cases hj : env.numMessagesLines - 1 = j
  · subst hj
    have h1 : env.numMessagesLines - 1 < s.visibleText.length := by omega
    have h2 : s.visibleText.tail.length = env.numMessagesLines - 1 := by simp [hlen]
    simp [h1, List.getElem?_append_right, h2]
  · simp only [hj, if_false]
    by_cases h1 : j < env.numMessagesLines - 1
    · have h2 : j < s.visibleText.tail.length := by simp [hlen]; omega
      simp [h1, List.getElem?_append_left h2]
    · have h2 : s.visibleText.tail.length + 1 ≤ j := by simp [hlen]; omega
      have h3 : s.visibleText.length ≤ j := by omega
      simp only [h1, if_false]
      rw [List.getElem?_eq_none h3, List.getElem?_eq_none]
      simp; omega

theorem addMessage_log (env : Env) (s : Engine) (m : String) :
    (addMessage env s m).log = s.log ++ [Call.clock] := by
  simp [addMessage, readClock, Engine.call]

theorem stamp_length (env : Env) (log : History) (ms : List String) :
    (stamp env log ms).length = ms.length := by
  induction ms generalizing log with
  | nil => rfl
  | cons m ms ih => simp [stamp, ih]

theorem stamp_strings (env : Env) (log : History) (ms : List String) :
    (stamp env log ms).map MessageLine.string = ms := by
  induction ms generalizing log with
  | nil => rfl
  | cons m ms ih => simp [stamp, ih]

/-- Pushing the messages `ms` keeps the last `N` of the old lines followed by the new ones. -/
theorem pushAll_visibleText (env : Env) (ms : List String) (hN : 0 < env.numMessagesLines) :
    ∀ s : Engine, s.visibleText.length = env.numMessagesLines →
      (ms.foldl (addMessage env) s).visibleText =
        (s.visibleText ++ stamp env s.log ms).drop ms.length := by
  induction ms with
  | nil => intro s _; simp [stamp]
  | cons m ms ih =>
    intro s hlen
    have h1 := addMessage_visibleText env s m hN hlen
    have hlen1 : (addMessage env s m).visibleText.length = env.numMessagesLines := by
      rw [h1]; simp [hlen]; omega
    rw [List.foldl_cons, ih _ hlen1, h1, addMessage_log]
    obtain ⟨a, vt, hvt⟩ : ∃ a vt, s.visibleText = a :: vt := by
      cases hs : s.visibleText with
      | nil => rw [hs] at hlen; simp at hlen; omega
      | cons a vt => exact ⟨a, vt, rfl⟩
    simp [hvt, stamp]

theorem stamp_getElem_opt (env : Env) (ms : List String) :
    ∀ (log : History) (j : Nat), (stamp env log ms)[j]? =
      ms[j]?.map (fun m => ⟨m, env.clock (log ++ List.replicate j Call.clock) +
        env.messageTimeout⟩) := by
  induction ms with
  | nil => intro log j; simp [stamp]
  | cons m ms ih =>
    intro log j
    cases j with
    | zero => simp [stamp]
    | succ j => simp [stamp, ih, List.replicate_succ]

/-- C8: in a log of `N >= 1` lines, `addMessage m` leaves line `i < N - 1` with the text and
expiry line `i + 1` had before and line `N - 1` with text `m` and expiry `now + timeout`;
hence after pushing `N + 1` messages the slots hold exactly the last `N` pushes in order:
the first pushed message is in no slot (none at all when its text differs from the later
ones) and the last pushed one is in slot `N - 1` with its own expiry. -/
theorem addMessage_shifts_log (env : Env) (s : Engine) (hN : 0 < env.numMessagesLines)
    (hlen : s.visibleText.length = env.numMessagesLines) :
    (∀ (m : String) (i : Nat), i + 1 < env.numMessagesLines →
      (addMessage env s m).visibleText[i]? = s.visibleText[i + 1]?) ∧
    (∀ m : String, (addMessage env s m).visibleText[env.numMessagesLines - 1]? =
      some ⟨m, env.clock s.log + env.messageTimeout⟩) ∧
    (∀ ms : List String, ms.length = env.numMessagesLines + 1 →
      (ms.foldl (addMessage env) s).visibleText = (stamp env s.log ms).tail ∧
      (ms.foldl (addMessage env) s).visibleText.map MessageLine.string = ms.tail ∧
      (∀ first, ms.head? = some first → first ∉ ms.tail →
        ∀ line ∈ (ms.foldl (addMessage env) s).visibleText, line.string ≠ first) ∧
      (∀ last, ms.getLast? = some last →
        (ms.foldl (addMessage env) s).visibleText[env.numMessagesLines - 1]? =
          some ⟨last, env.clock (s.log ++ List.replicate env.numMessagesLines Call.clock) +
            env.messageTimeout⟩)) := by
  have hstep := addMessage_visibleText env s
  refine ⟨?_, ?_, ?_⟩
  · intro m i hi
    rw [hstep m hN hlen]
    have h2 : i < s.visibleText.tail.length := by simp [hlen]; omega
    rw [List.getElem?_append_left h2]
    simp
  · intro m
    rw [hstep m hN hlen]
    have h2 : s.visibleText.tail.length = env.numMessagesLines - 1 := by simp [hlen]
    rw [List.getElem?_append_right h2.le, h2]
    simp
  · intro ms hms
    have hall : (ms.foldl (addMessage env) s).visibleText = (stamp env s.log ms).tail := by
      rw [pushAll_visibleText env ms hN s hlen, hms, ← hlen, List.drop_append]
      simp
    have hstr : (ms.foldl (addMessage env) s).visibleText.map MessageLine.string = ms.tail := by
      rw [hall, List.map_tail, stamp_strings]
    refine ⟨hall, hstr, ?_, ?_⟩
    · intro first _ hnot line hline heq
      apply hnot
      rw [← hstr, ← heq]
      exact List.mem_map_of_mem _ hline
    · intro last hlast
      rw [hall, List.getElem?_tail, stamp_getElem_opt]
      have h1 : env.numMessagesLines - 1 + 1 = env.numMessagesLines := by omega
      have h2 : ms[env.numMessagesLines]? = some last := by
        rw [← hlast, List.getLast?_eq_getElem?, hms]
        simp
      rw [h1, h2]
      simp

/-- Witness for C8: four messages pushed into the three-line log of the idle engine. -/
theorem addMessage_shifts_log_witness :
    (["a", "b", "c", "d"].foldl (addMessage quietEnv) idleEngine).visibleText.map
      MessageLine.string = ["b", "c", "d"] :=
  ((addMessage_shifts_log quietEnv idleEngine (by decide) rfl).2.2 ["a", "b", "c", "d"] rfl).2.1

/-! ### Histories -/

theorem Ext.refl (P : Call → Prop) (l : History) : Ext P l l := ⟨[], by simp, by simp⟩

theorem Ext.trans {P : Call → Prop} {l1 l2 l3 : History} (h1 : Ext P l1 l2) (h2 : Ext P l2 l3) :
    Ext P l1 l3 := by
  obtain ⟨d1, rfl, hd1⟩ := h1
  obtain ⟨d2, rfl, hd2⟩ := h2
  refine ⟨d1 ++ d2, by simp, ?_⟩
  intro c hc
  rcases List.mem_append.mp hc with h | h
  · exact hd1 c h
  · exact hd2 c h

theorem Ext.append {P : Call → Prop} {l1 l2 : History} (h : Ext P l1 l2) {d : List Call}
    (hd : ∀ c ∈ d, P c) : Ext P l1 (l2 ++ d) :=
  h.trans ⟨d, rfl, hd⟩

theorem Ext.mono {P Q : Call → Prop} {l1 l2 : History} (h : Ext P l1 l2)
    (hpq : ∀ c, P c → Q c) : Ext Q l1 l2 := by
  obtain ⟨d, rfl, hd⟩ := h
  exact ⟨d, rfl, fun c hc => hpq c (hd c hc)⟩

theorem Ext.filter_eq {P : Call → Prop} {l1 l2 : History} (h : Ext P l1 l2) (f : Call → Bool)
    (hf : ∀ c, P c → f c = false) : l2.filter f = l1.filter f := by
  obtain ⟨d, rfl, hd⟩ := h
  rw [List.filter_append]
  have : d.filter f = [] := by
    rw [List.filter_eq_nil_iff]
    intro c hc
    simp [hf c (hd c hc)]
  simp [this]

theorem ext_call {P : Call → Prop} {l : History} {s : Engine} {c : Call}
    (h : Ext P l s.log) (hc : P c) : Ext P l (s.call c).log :=
  h.append (by simpa using hc)

theorem ext_ite {P : Call → Prop} {l : History} {p : Prop} [Decidable p] {a b : Engine}
    (ha : Ext P l a.log) (hb : Ext P l b.log) : Ext P l (if p then a else b).log := by
  split_ifs
  · exact ha
  · exact hb

/-! ### What each operation adds to the history -/

theorem showMenu_ext {l : History} (env : Env) (s : Engine) (h : Ext isInput l s.log) :
    Ext isInput l (showMenu env s).log := by
  unfold showMenu
  simp only [callB]
  split_ifs <;> repeat' first | exact h | rfl | apply ext_call

theorem handleKeyEvent_log (env : Env) (s : Engine) (key : Key) (state : StateId) :
    (handleKeyEvent env s key state).2.log = s.log := by
  cases key <;> rfl

theorem handleMouseMove_ext {l : History} (env : Env) (s : Engine) (p : ScreenPos)
    (state : StateId) (h : Ext isInput l s.log) :
    Ext isInput l (handleMouseMove env s p state).2.log := by
  unfold handleMouseMove
  dsimp only
  split_ifs <;> (try dsimp only) <;> repeat' first | exact h | rfl | apply ext_call

theorem pressCalls_phase (p : ScreenPos) (n : Nat) : ∀ c ∈ pressCalls p n, isInput c := by
  intro c hc
  simp only [pressCalls, List.mem_map] at hc
  obtain ⟨j, _, rfl⟩ := hc
  rfl

theorem releaseCalls_phase (p : ScreenPos) (n : Nat) : ∀ c ∈ releaseCalls p n, isInput c := by
  intro c hc
  simp only [releaseCalls, List.mem_map] at hc
  obtain ⟨j, _, rfl⟩ := hc
  rfl

theorem pressButtons_ext {l : History} (env : Env) (s : Engine) (p : ScreenPos)
    (h : Ext isInput l s.log) : Ext isInput l (pressButtons env s p).2.log := by
  have h2 : (pressButtons env s p).2 = s.withLog (s.log ++ pressCalls p s.buttons.length) :=
    pressFold_snd env s p s.buttons.length
  rw [h2]
  exact h.append (pressCalls_phase p _)

theorem releaseButtons_ext {l : History} (env : Env) (s : Engine) (p : ScreenPos)
    (h : Ext isInput l s.log) : Ext isInput l (releaseButtons env s p).2.log := by
  have h2 : (releaseButtons env s p).2 = s.withLog (s.log ++ releaseCalls p s.buttons.length) :=
    releaseFold_snd env s p s.buttons.length
  rw [h2]
  exact h.append (releaseCalls_phase p _)

theorem handleMousePress_ext {l : History} (env : Env) (s : Engine) (p : ScreenPos)
    (b : MouseButton) (state : StateId) (h : Ext isInput l s.log) :
    Ext isInput l (handleMousePress env s p b state).2.log := by
  unfold handleMousePress
  simp only [callB]
  split_ifs <;> (try dsimp only) <;>
    repeat' first | exact h | rfl | apply ext_call | apply pressButtons_ext

theorem handleMouseRelease_ext {l : History} (env : Env) (s : Engine) (p : ScreenPos)
    (b : MouseButton) (state : StateId) (h : Ext isInput l s.log) :
    Ext isInput l (handleMouseRelease env s p b state).2.log := by
  unfold handleMouseRelease
  simp only [callB]
  split_ifs <;> (try dsimp only) <;>
    repeat' first
      | exact h | rfl | apply ext_call | apply releaseButtons_ext | apply showMenu_ext

theorem handleEvent_ext {l : History} (env : Env) (s : Engine) (e : Event)
    (state : StateId) (h : Ext isInput l s.log) :
    Ext isInput l (handleEvent env s e state).2.log := by
  unfold handleEvent
  simp only [callB, Engine.closeWindow]
  split_ifs <;> (try dsimp only) <;> try split
  all_goals
    repeat' first
      | exact h | rfl | apply ext_call | apply handleMouseRelease_ext
      | apply handleMousePress_ext | apply handleMouseMove_ext
      | rw [handleKeyEvent_log]

theorem dispatch_ext {l : History} (env : Env) (s : Engine) (state : StateId) (e : Event)
    (h : Ext isInput l s.log) : Ext isInput l (dispatch env s state e).log := by
  unfold dispatch
  simp only [Engine.closeWindow]
  split_ifs <;>
    repeat' first | exact h | rfl | apply ext_call | apply handleEvent_ext

theorem drain_ext {l : History} (env : Env) (state : StateId) (events : List Event) :
    ∀ s : Engine, Ext isInput l s.log → Ext isInput l (drain env s state events).log := by
  induction events with
  | nil => intro s h; exact h
  | cons e es ih =>
    intro s h
    exact ih _ (dispatch_ext env s state e h)

theorem tick_log (env : Env) (s : Engine) (state : StateId) :
    (tick env s state).2.log = s.log ++
      (if !s.currentDialog ∧ env.result s.log state = Result.Running then
        [Call.clock, Call.stateUpdate state (env.clock s.log)] else []) := by
  unfold tick
  simp only [callB, readClock, Engine.call]
  split_ifs <;> simp

theorem updateCamera_log (env : Env) (s : Engine) (state : StateId) :
    (updateCamera env s state).2.log = s.log ++
      (if s.cameraDeltaX = 0 ∧ s.cameraDeltaY = 0 then [] else [Call.clock]) := by
  unfold updateCamera
  simp only [readClock, Engine.call]
  split_ifs <;> simp

theorem updateCamera_ext {l : History} (env : Env) (s : Engine) (state : StateId)
    (h : Ext isUpdate l s.log) : Ext isUpdate l (updateCamera env s state).2.log := by
  rw [updateCamera_log]
  apply h.append
  intro c hc
  split_ifs at hc
  · simp at hc
  · simp only [List.mem_singleton] at hc
    subst hc
    exact Or.inr rfl

theorem updateUi_ext {l : History} (env : Env) (s : Engine) (state : StateId)
    (h : Ext isUpdate l s.log) : Ext isUpdate l (updateUi env s state).2.log := by
  unfold updateUi
  simp only [callB, readClock]
  repeat' first
    | exact h | exact Or.inl rfl | exact Or.inr rfl | apply ext_call | apply updateCamera_ext

theorem refreshSelection_log (env : Env) (s : Engine) :
    (refreshSelection env s).2.log = s.log := by
  unfold refreshSelection
  dsimp only
  split_ifs <;> rfl

theorem renderButton_fold (s : Engine) (n : Nat) :
    (List.range n).foldl renderButton s = s.withLog (s.log ++ buttonRenderCalls n) := by
  induction n with
  | zero => simp [buttonRenderCalls, Engine.withLog]
  | succ n ih =>
    rw [List.range_succ, List.foldl_append, ih]
    simp [renderButton, Engine.call, Engine.withLog, buttonRenderCalls, List.range_succ]

theorem drawMessage_fold (t : Int) (lines : List (Nat × MessageLine)) :
    ∀ s : Engine, lines.foldl (drawMessage t) s = s.withLog (s.log ++ messageCalls t lines) := by
  induction lines with
  | nil => intro s; simp [messageCalls, Engine.withLog]
  | cons line lines ih =>
    intro s
    rw [List.foldl_cons, ih]
    by_cases h : line.2.endTime < t
    · simp [drawMessage, h, messageCalls]
    · simp [drawMessage, h, messageCalls, Engine.call, Engine.withLog]

theorem drawUi_eq (env : Env) (s : Engine) :
    drawUi env s = s.withLog (s.log ++ drawUiLog env s) := by
  unfold drawUi drawUiLog drawUiCalls
  simp only [renderButton_fold, drawMessage_fold, readClock]
  by_cases h : s.selecting = true
  · simp [h, Engine.call, Engine.withLog]
  · simp [h, Engine.call, Engine.withLog]

theorem drawScene_eq (env : Env) (s : Engine) (state : StateId) :
    drawScene env s state =
      s.withLog (s.log ++ sceneCalls s state ++ overlayCalls env s state) := by
  unfold drawScene overlayCalls sceneCalls
  by_cases hd : s.currentDialog = true
  · simp only [hd, Engine.call, if_true]
    split_ifs <;> simp_all [Engine.withLog]
  · simp only [hd, Engine.call]
    split_ifs <;> simp_all [Engine.withLog]

theorem render_log (env : Env) (s : Engine) (state : StateId) (t : Int) :
    (render env s state t).log = s.log ++ renderLog env s state := by
  unfold render renderLog
  simp only [drawScene_eq, drawUi_eq, readClock, Engine.call]
  split_ifs <;> simp [Engine.withLog]

/-! ### Effect of the frame stages on the steering part -/

theorem core_ite {c : Prop} [Decidable c] {a b : Engine} {k : Core}
    (ha : a.core = k) (hb : b.core = k) : (if c then a else b).core = k := by
  split_ifs
  · exact ha
  · exact hb

theorem tick_core (env : Env) (s : Engine) (state : StateId) :
    (tick env s state).2.core = s.core := by
  unfold tick
  simp only [callB, readClock, Engine.call]
  split_ifs <;> rfl

theorem updateUi_core (env : Env) (s : Engine) (state : StateId)
    (hx : s.cameraDeltaX = 0) (hy : s.cameraDeltaY = 0) :
    (updateUi env s state).2.core = s.core := by
  unfold updateUi
  simp only [Engine.core, callB, readClock, Engine.call, updateCamera, hx, hy, and_self, if_true]

theorem refreshSelection_core (env : Env) (s : Engine) :
    (refreshSelection env s).2.core = s.core.setRect (dragRect env s) := by
  unfold refreshSelection dragRect
  dsimp only
  by_cases h1 : s.selecting = true
  · by_cases h2 : env.rectOf s.selectionStart s.selectionCurr = s.selectionRect
    · simp [h1, h2, Engine.core, Core.setRect]
    · simp [h1, h2, Engine.core, Core.setRect]
  · simp [h1, Engine.core, Core.setRect]

theorem render_core (env : Env) (s : Engine) (state : StateId) (t : Int) :
    (render env s state t).core = s.core := by
  unfold render
  simp only [drawScene_eq, drawUi_eq, readClock, Engine.call]
  split_ifs <;> rfl

theorem rebind_core (env : Env) (s : Engine) : (rebind env s).core = s.core := by
  unfold rebind
  dsimp only
  split_ifs <;> rfl

theorem dragRect_congr (env : Env) {s1 s2 : Engine} (h : s1.core = s2.core) :
    dragRect env s1 = dragRect env s2 := by
  have hsel := congrArg Core.selecting h
  have hstart := congrArg Core.selectionStart h
  have hcurr := congrArg Core.selectionCurr h
  have hrect := congrArg Core.selectionRect h
  simp only [Engine.core] at hsel hstart hcurr hrect
  simp [dragRect, hsel, hstart, hcurr, hrect]

theorem frameRest_core (env : Env) (s : Engine) (state : StateId) (t : Int) (polled : Bool)
    (hx : s.cameraDeltaX = 0) (hy : s.cameraDeltaY = 0) :
    (frameRest env s state t polled).core = s.core.setRect (dragRect env s) := by
  have h1 := tick_core env s state
  have h2 : (callB env (tick env s state).2
      (Call.cursorSetPosition (tick env s state).2.mousePos)).2.core = s.core := h1
  have hx2 : (callB env (tick env s state).2
      (Call.cursorSetPosition (tick env s state).2.mousePos)).2.cameraDeltaX = 0 := by
    have := congrArg Core.cameraDeltaX h2
    simpa [Engine.core, hx] using this
  have hy2 : (callB env (tick env s state).2
      (Call.cursorSetPosition (tick env s state).2.mousePos)).2.cameraDeltaY = 0 := by
    have := congrArg Core.cameraDeltaY h2
    simpa [Engine.core, hy] using this
  have h3 := (updateUi_core env _ state hx2 hy2).trans h2
  have h4 := refreshSelection_core env (updateUi env (callB env (tick env s state).2
      (Call.cursorSetPosition (tick env s state).2.mousePos)).2 state).2
  rw [h3, dragRect_congr env h3] at h4
  unfold frameRest frameTail
  dsimp only
  exact core_ite ((render_core _ _ _ _).trans h4) h4

/-! ### Camera clamp -/

theorem clampAxis_bounds (v size : Int) (h : 0 ≤ size) :
    0 ≤ clampAxis v size ∧ clampAxis v size ≤ size := by
  unfold clampAxis
  split_ifs <;> constructor <;> omega

theorem quietEnv_clampContract : ClampContract quietEnv := by
  intro p size hw hh
  exact ⟨(clampAxis_bounds p.x size.width hw).1, (clampAxis_bounds p.x size.width hw).2,
    (clampAxis_bounds p.y size.height hh).1, (clampAxis_bounds p.y size.height hh).2⟩

theorem quietEnv_mapSizeNonneg (state : StateId) : MapSizeNonneg quietEnv state := by
  intro h
  constructor <;> simp [quietEnv]

/-- C6: given that `MapPos::clamped` clamps each axis into `[0, size]` (and the map's
pixel size is non-negative), every camera-position mutation of the engine leaves the camera
target on the map: the arrow-key nudge of `handleKeyEvent` (which returns true exactly
when it moved the camera) and the edge-scroll step of `updateCamera`, for every prior
target, velocity and elapsed time; when they return false the target is untouched. -/
theorem camera_target_clamped (env : Env) (s : Engine) (state : StateId)
    (hclamp : ClampContract env) (hsize : MapSizeNonneg env state) :
    (∀ key : Key,
      ((handleKeyEvent env s key state).1 = true →
        (handleKeyEvent env s key state).2.cameraTarget.onMap (env.mapPixelSize s.log state)) ∧
      ((handleKeyEvent env s key state).1 = false →
        (handleKeyEvent env s key state).2.cameraTarget = s.cameraTarget)) ∧
    ((updateCamera env s state).1 = true →
      (updateCamera env s state).2.cameraTarget.onMap
        (env.mapPixelSize (s.log ++ [Call.clock]) state)) ∧
    ((updateCamera env s state).1 = false →
      (updateCamera env s state).2.cameraTarget = s.cameraTarget) := by
  refine ⟨?_, ?_, ?_⟩
  · intro key
    have hk := fun p => hclamp p (env.mapPixelSize s.log state) (hsize s.log).1 (hsize s.log).2
    cases key <;> simp [handleKeyEvent, hk]
  · intro h
    have hk := fun p => hclamp p (env.mapPixelSize (s.log ++ [Call.clock]) state)
      (hsize _).1 (hsize _).2
    by_cases hz : s.cameraDeltaX = 0 ∧ s.cameraDeltaY = 0
    · simp [updateCamera, hz] at h
    · by_cases hsel : s.selecting = true
      · simp only [updateCamera, hz, hsel, readClock, Engine.call, if_true, if_false]
        exact hk _
      · simp only [updateCamera, hz, hsel, readClock, Engine.call, if_false]
        exact hk _
  · intro h
    by_cases hz : s.cameraDeltaX = 0 ∧ s.cameraDeltaY = 0
    · simp [updateCamera, hz]
    · by_cases hsel : s.selecting = true
      · simp [updateCamera, hz, hsel, readClock, Engine.call] at h
      · simp [updateCamera, hz, hsel, readClock, Engine.call] at h

/-- Witness for C6: a left-arrow nudge, and an edge scroll far beyond the map corner that
ends clamped at (0, 4800). -/
theorem camera_target_clamped_witness :
    (handleKeyEvent quietEnv idleEngine Key.Left 0).2.cameraTarget.onMap ⟨4800, 4800⟩ ∧
    (updateCamera quietEnv scrollingEngine 0).2.cameraTarget = ⟨0, 4800, 0⟩ ∧
    (updateCamera quietEnv scrollingEngine 0).2.cameraTarget.onMap ⟨4800, 4800⟩ :=
  ⟨((camera_target_clamped quietEnv idleEngine 0 quietEnv_clampContract
      (quietEnv_mapSizeNonneg 0)).1 Key.Left).1 rfl,
    by decide,
    (camera_target_clamped quietEnv scrollingEngine 0 quietEnv_clampContract
      (quietEnv_mapSizeNonneg 0)).2.1 rfl⟩

/-! ### Frame loop -/

theorem rebind_log (env : Env) (s : Engine) :
    (rebind env s).log = s.log ++
      (if s.state = some (env.activeState s.log) then [] else rebindCalls (env.activeState s.log)) := by
  unfold rebind rebindCalls
  dsimp only
  split_ifs <;> simp [Engine.call]

theorem refreshSelection_fst (env : Env) (s : Engine) :
    (refreshSelection env s).1 = false ↔
      (refreshSelection env s).2.selectionRect = s.selectionRect := by
  unfold refreshSelection
  dsimp only
  by_cases h1 : s.selecting = true
  · by_cases h2 : env.rectOf s.selectionStart s.selectionCurr = s.selectionRect
    · simp [h1, h2]
    · simp [h1, h2]
  · simp [h1]

theorem buttonRenderCalls_isDraw (n : Nat) : ∀ c ∈ buttonRenderCalls n, isDraw c := by
  intro c hc
  simp only [buttonRenderCalls, List.mem_map] at hc
  obtain ⟨i, _, rfl⟩ := hc
  exact Or.inl rfl

theorem messageCalls_isDraw (t : Int) (lines : List (Nat × MessageLine)) :
    ∀ c ∈ messageCalls t lines, isDraw c := by
  intro c hc
  simp only [messageCalls, List.mem_map] at hc
  obtain ⟨i, _, rfl⟩ := hc
  exact Or.inl rfl

theorem drawUiCalls_isDraw (s : Engine) : ∀ c ∈ drawUiCalls s, isDraw c := by
  unfold drawUiCalls
  simp only [List.forall_mem_append, List.forall_mem_cons]
  refine ⟨⟨⟨?_, ?_⟩, buttonRenderCalls_isDraw _⟩, ?_⟩
  · split_ifs
    · simp only [List.forall_mem_cons]
      exact ⟨Or.inl rfl, by simp⟩
    · simp
  · exact ⟨Or.inl rfl, by simp⟩
  · refine ⟨Or.inl rfl, Or.inl rfl, Or.inl rfl, Or.inl rfl, Or.inl rfl, Or.inl rfl, Or.inl rfl,
      Or.inl rfl, Or.inl rfl, by simp⟩

theorem drawUiLog_isDraw (env : Env) (s : Engine) : ∀ c ∈ drawUiLog env s, isDraw c := by
  unfold drawUiLog
  simp only [List.forall_mem_append, List.forall_mem_cons]
  exact ⟨⟨⟨drawUiCalls_isDraw s, Or.inr (Or.inl rfl), by simp⟩, messageCalls_isDraw _ _⟩,
    Or.inl rfl, by simp⟩

theorem sceneCalls_isDraw (s : Engine) (state : StateId) : ∀ c ∈ sceneCalls s state, isDraw c := by
  unfold sceneCalls
  simp only [List.forall_mem_append, List.forall_mem_cons]
  refine ⟨⟨Or.inl rfl, Or.inl rfl, Or.inl rfl, Or.inl rfl, Or.inl rfl, by simp⟩, ?_⟩
  split_ifs
  · simp only [List.forall_mem_cons]
    exact ⟨Or.inl rfl, by simp⟩
  · simp

theorem overlayCalls_isDraw (env : Env) (s : Engine) (state : StateId) :
    ∀ c ∈ overlayCalls env s state, isDraw c := by
  unfold overlayCalls
  split_ifs
  · simp only [List.forall_mem_cons]
    exact ⟨Or.inl rfl, by simp⟩
  · simp

theorem renderLog_isDraw (env : Env) (s : Engine) (state : StateId) :
    ∀ c ∈ renderLog env s state, isDraw c := by
  unfold renderLog
  simp only [List.forall_mem_append, List.forall_mem_cons]
  exact ⟨⟨⟨sceneCalls_isDraw s state, overlayCalls_isDraw env s state⟩, drawUiLog_isDraw _ _⟩,
    Or.inr (Or.inl rfl), Or.inr (Or.inr rfl), by simp⟩

theorem renderLog_shape (env : Env) (s : Engine) (state : StateId) :
    ∃ mid, renderLog env s state = Call.clear :: (mid ++ [Call.windowUpdate]) := by
  unfold renderLog sceneCalls
  refine ⟨[Call.mapRendererDisplay, Call.entitiesBetween state, Call.unitManagerRender state,
    Call.stateDraw state] ++ (if s.currentDialog then [Call.dialogRender] else []) ++
    overlayCalls env s state ++ drawUiLog env (s.withLog (s.log ++ sceneCalls s state ++
      overlayCalls env s state)) ++ [Call.clock], ?_⟩
  simp [sceneCalls]

theorem tick_ext {P : Call → Prop} {l : History} (env : Env) (s : Engine) (state : StateId)
    (h : Ext P l s.log) (hclock : P Call.clock) (hupd : ∀ t, P (Call.stateUpdate state t)) :
    Ext P l (tick env s state).2.log := by
  rw [tick_log]
  apply h.append
  intro c hc
  split_ifs at hc
  · simp only [List.mem_cons, List.mem_singleton, List.not_mem_nil, or_false] at hc
    rcases hc with rfl | rfl
    · exact hclock
    · exact hupd _
  · simp at hc

theorem rebind_ext {P : Call → Prop} {l : History} (env : Env) (s : Engine)
    (h : Ext P l s.log) (hP : ∀ c : Call, c.phase = Phase.rebind → P c) :
    Ext P l (rebind env s).log := by
  rw [rebind_log]
  apply h.append
  intro c hc
  split_ifs at hc
  · simp at hc
  · apply hP
    simp only [rebindCalls, List.mem_cons, List.mem_singleton, List.not_mem_nil, or_false] at hc
    rcases hc with rfl | rfl | rfl | rfl | rfl | rfl | rfl | rfl <;> rfl

/-- C7: in one frame iteration, if no event was polled, the simulation tick (when run)
returned false, the cursor `setPosition` and `updateUi` returned false and the selection
rectangle did not change, the frame issues no clear, draw or present call and ends with a
sleep of 1000/60 = 16 ms; if any of them reports a change (any polled event included) the
frame runs the redraw block: it clears first, draws the scene and the user interface, and
presents last. -/
theorem redraw_coalescing (env : Env) (s : Engine) (events : List Event) :
    let state := env.activeState s.log
    let start := readClock env (rebind env s)
    let drained := drain env start.2 state events
    let ticked := tick env drained state
    let cursor := callB env ticked.2 (Call.cursorSetPosition ticked.2.mousePos)
    let ui := updateUi env cursor.2 state
    let sel := refreshSelection env ui.2
    ((events = [] ∧ ticked.1 = false ∧ cursor.1 = false ∧ ui.1 = false ∧
        sel.2.selectionRect = ui.2.selectionRect) →
      (frame env s events).log = sel.2.log ++ [Call.sleep 16] ∧
      (frame env s events).log.filter Call.drawsOrPresents =
        s.log.filter Call.drawsOrPresents) ∧
    (¬ (events = [] ∧ ticked.1 = false ∧ cursor.1 = false ∧ ui.1 = false ∧
        sel.2.selectionRect = ui.2.selectionRect) →
      frame env s events = render env sel.2 state start.1 ∧
      (frame env s events).log = sel.2.log ++ renderLog env sel.2 state ∧
      (∃ mid, renderLog env sel.2 state = Call.clear :: (mid ++ [Call.windowUpdate])) ∧
      ∀ c ∈ renderLog env sel.2 state, isDraw c) := by
  intro state start drained ticked cursor ui sel
  have hframe : frame env s events =
      if sel.1 || (ui.1 || (cursor.1 || (ticked.1 || !events.isEmpty))) then
        render env sel.2 state start.1
      else sel.2.call (Call.sleep (Int.tdiv 1000 60)) := rfl
  have hcond : (events = [] ∧ ticked.1 = false ∧ cursor.1 = false ∧ ui.1 = false ∧
        sel.2.selectionRect = ui.2.selectionRect) ↔
      (sel.1 || (ui.1 || (cursor.1 || (ticked.1 || !events.isEmpty)))) = false := by
    rw [← refreshSelection_fst env ui.2]
    simp only [Bool.or_eq_false_iff, Bool.not_eq_false', List.isEmpty_iff]
    tauto
  constructor
  · intro h
    have hc := hcond.mp h
    rw [hframe, hc]
    have h16 : Int.tdiv 1000 60 = 16 := by decide
    simp only [Bool.false_eq_true, if_false, h16]
    refine ⟨rfl, ?_⟩
    have hev : events = [] := h.1
    have hP : ∀ c : Call, isUpdate c → c.drawsOrPresents = false := by
      intro c hc
      rcases hc with h | h <;> simp [Call.drawsOrPresents, h]
    have e0 : Ext (fun c => c.drawsOrPresents = false) s.log (rebind env s).log :=
      rebind_ext env s (Ext.refl _ _) (by intro c hc; simp [Call.drawsOrPresents, hc])
    have e1 : Ext (fun c => c.drawsOrPresents = false) s.log start.2.log :=
      ext_call e0 rfl
    have e2 : Ext (fun c => c.drawsOrPresents = false) s.log drained.log := by
      show Ext _ s.log (drain env start.2 state events).log
      rw [hev]
      exact e1
    have e3 : Ext (fun c => c.drawsOrPresents = false) s.log ticked.2.log :=
      tick_ext env drained state e2 rfl (fun _ => rfl)
    have e4 : Ext (fun c => c.drawsOrPresents = false) s.log cursor.2.log :=
      ext_call e3 rfl
    have e5 : Ext (fun c => c.drawsOrPresents = false) s.log ui.2.log :=
      e4.trans ((updateUi_ext env cursor.2 state (Ext.refl _ _)).mono hP)
    have e6 : Ext (fun c => c.drawsOrPresents = false) s.log sel.2.log := by
      show Ext _ s.log (refreshSelection env ui.2).2.log
      rw [refreshSelection_log]
      exact e5
    have e7 : Ext (fun c => c.drawsOrPresents = false) s.log (sel.2.call (Call.sleep 16)).log :=
      ext_call e6 rfl
    exact e7.filter_eq _ (fun c hc => hc)
  · intro h
    have hc : (sel.1 || (ui.1 || (cursor.1 || (ticked.1 || !events.isEmpty)))) = true := by
      rw [← Bool.not_eq_false]
      exact fun hf => h (hcond.mpr hf)
    rw [hframe, hc]
    simp only [if_true]
    exact ⟨trivial, render_log env sel.2 state start.1, renderLog_shape env sel.2 state,
      renderLog_isDraw env sel.2 state⟩

/-- Witness for C7: an idle frame of the quiet engine draws nothing and sleeps; a frame
with one mouse move ends with the present call. -/
theorem redraw_coalescing_witness :
    (frame quietEnv idleEngine []).log.filter Call.drawsOrPresents = [] ∧
    (frame quietEnv idleEngine []).log.getLast? = some (Call.sleep 16) ∧
    (frame quietEnv idleEngine
      [Event.mouse EventType.MouseMoved ⟨150, 140⟩ MouseButton.NoButton]).log.getLast? =
      some Call.windowUpdate :=
  ⟨((redraw_coalescing quietEnv idleEngine []).1 ⟨rfl, rfl, rfl, rfl, rfl⟩).2,
    by decide, by decide⟩

/-! ### Simulation tick -/

theorem isDraw_isLate (c : Call) (h : isDraw c) : isLate c := by
  rcases h with h | h | h
  · exact Or.inr (Or.inr (Or.inl h))
  · exact Or.inr (Or.inl h)
  · exact Or.inr (Or.inr (Or.inr (Or.inl h)))

theorem isUpdate_isLate (c : Call) (h : isUpdate c) : isLate c := by
  rcases h with h | h
  · exact Or.inl h
  · exact Or.inr (Or.inl h)

/-- Before the tick a frame issues rebinding, clock and dispatch calls only. -/
theorem frame_early_ext (env : Env) (s : Engine) (events : List Event) :
    Ext isEarly s.log
      (drain env (readClock env (rebind env s)).2 (env.activeState s.log) events).log := by
  have e0 : Ext isEarly s.log (rebind env s).log :=
    rebind_ext env s (Ext.refl _ _) (fun c hc => Or.inl hc)
  have e1 : Ext isEarly s.log (readClock env (rebind env s)).2.log :=
    ext_call e0 (Or.inr (Or.inl rfl))
  exact e1.trans ((drain_ext env _ events _ (Ext.refl _ _)).mono
    (fun c hc => Or.inr (Or.inr hc)))

/-- After the tick a frame issues update, clock, draw, present and sleep calls only. -/
theorem frameRest_late_ext (env : Env) (s : Engine) (state : StateId) (t : Int)
    (polled : Bool) :
    Ext isLate (tick env s state).2.log (frameRest env s state t polled).log := by
  have e1 : Ext isLate (tick env s state).2.log
      (callB env (tick env s state).2
        (Call.cursorSetPosition (tick env s state).2.mousePos)).2.log :=
    ext_call (Ext.refl _ _) (Or.inl rfl)
  have e2 := e1.trans ((updateUi_ext env (callB env (tick env s state).2
        (Call.cursorSetPosition (tick env s state).2.mousePos)).2 state
          (Ext.refl _ _)).mono isUpdate_isLate)
  have e3 : Ext isLate (tick env s state).2.log
      (refreshSelection env (updateUi env (callB env (tick env s state).2
        (Call.cursorSetPosition (tick env s state).2.mousePos)).2 state).2).2.log := by
    rw [refreshSelection_log]
    exact e2
  unfold frameRest frameTail
  dsimp only
  split_ifs
  · rw [render_log]
    exact e3.append (fun c hc => isDraw_isLate c (renderLog_isDraw _ _ _ c hc))
  · exact ext_call e3 (Or.inr (Or.inr (Or.inr (Or.inr rfl))))

theorem terminal_ext {P : Call → Prop} (env : Env) (hterm : ResultTerminal env)
    (state : StateId) {l1 l2 : History} (h : Ext P l1 l2)
    (hres : env.result l1 state ≠ Result.Running) : env.result l2 state ≠ Result.Running := by
  obtain ⟨d, rfl, _⟩ := h
  clear * - hterm hres
  induction d generalizing l1 with
  | nil => simpa using hres
  | cons c d ih =>
    have := @ih (l1 ++ [c]) (hterm l1 c state hres)
    simpa using this

/-- The `update` calls of one frame: exactly one, on the bound state, when after the event
loop no dialog is present and the result is `Running`; none otherwise. -/
theorem frame_stateUpdates (env : Env) (s : Engine) (events : List Event) :
    (frame env s events).log.filter Call.isStateUpdate =
      s.log.filter Call.isStateUpdate ++
        (if (drain env (readClock env (rebind env s)).2 (env.activeState s.log)
              events).currentDialog = false ∧
            env.result (drain env (readClock env (rebind env s)).2 (env.activeState s.log)
              events).log (env.activeState s.log) = Result.Running then
          [Call.stateUpdate (env.activeState s.log)
            (env.clock (drain env (readClock env (rebind env s)).2 (env.activeState s.log)
              events).log)]
        else []) := by
  have hpre := (frame_early_ext env s events).filter_eq Call.isStateUpdate (by
    intro c hc
    cases c <;> first | rfl | (rcases hc with h | h | h <;> cases h))
  have hpost := (frameRest_late_ext env
    (drain env (readClock env (rebind env s)).2 (env.activeState s.log) events)
    (env.activeState s.log) (readClock env (rebind env s)).1 (!events.isEmpty)).filter_eq
      Call.isStateUpdate (by
    intro c hc
    cases c <;> first | rfl | (rcases hc with h | h | h | h | h <;> cases h))
  have hframe : frame env s events = frameRest env
    (drain env (readClock env (rebind env s)).2 (env.activeState s.log) events)
    (env.activeState s.log) (readClock env (rebind env s)).1 (!events.isEmpty) := rfl
  rw [hframe, hpost, tick_log, List.filter_append, hpre]
  congr 1
  by_cases hd : (drain env (readClock env (rebind env s)).2 (env.activeState s.log)
      events).currentDialog = true
  · simp [hd]
  · simp only [Bool.not_eq_true] at hd
    simp only [hd, Bool.not_false, true_and]
    split_ifs <;> simp [Call.isStateUpdate]

/-- A frame extends the history. -/
theorem frame_ext (env : Env) (s : Engine) (events : List Event) :
    Ext (fun _ => True) s.log (frame env s events).log := by
  have h1 := (frame_early_ext env s events).mono (Q := fun _ => True) (fun _ _ => trivial)
  have h2 : Ext (fun _ => True)
      (drain env (readClock env (rebind env s)).2 (env.activeState s.log) events).log
      (tick env (drain env (readClock env (rebind env s)).2 (env.activeState s.log) events)
        (env.activeState s.log)).2.log :=
    tick_ext env _ _ (Ext.refl _ _) trivial (fun _ => trivial)
  have h3 := (frameRest_late_ext env
    (drain env (readClock env (rebind env s)).2 (env.activeState s.log) events)
    (env.activeState s.log) (readClock env (rebind env s)).1 (!events.isEmpty)).mono
      (Q := fun _ => True) (fun _ _ => trivial)
  exact (h1.trans h2).trans h3

/-- Once the result of a state is not `Running`, a frame never calls its `update`. -/
theorem frame_no_update_of_terminal (env : Env) (hterm : ResultTerminal env) (s : Engine)
    (events : List Event) (target : StateId) (hres : env.result s.log target ≠ Result.Running) :
    (frame env s events).log.filter (Call.isUpdateOf target) =
      s.log.filter (Call.isUpdateOf target) := by
  have hearly := frame_early_ext env s events
  have hpre := hearly.filter_eq (Call.isUpdateOf target) (by
    intro c hc
    cases c <;> first | rfl | (rcases hc with h | h | h <;> cases h))
  have hres1 := terminal_ext env hterm target hearly hres
  have hpost := (frameRest_late_ext env
    (drain env (readClock env (rebind env s)).2 (env.activeState s.log) events)
    (env.activeState s.log) (readClock env (rebind env s)).1 (!events.isEmpty)).filter_eq
      (Call.isUpdateOf target) (by
    intro c hc
    cases c <;> first | rfl | (rcases hc with h | h | h | h | h <;> cases h))
  have hframe : frame env s events = frameRest env
    (drain env (readClock env (rebind env s)).2 (env.activeState s.log) events)
    (env.activeState s.log) (readClock env (rebind env s)).1 (!events.isEmpty) := rfl
  rw [hframe, hpost, tick_log, List.filter_append, hpre]
  by_cases hst : env.activeState s.log = target
  · rw [hst] at hres1 ⊢
    have hnot : ¬ ((!(drain env (readClock env (rebind env s)).2 target events).currentDialog) = true ∧
        env.result (drain env (readClock env (rebind env s)).2 target events).log target =
          Result.Running) := fun h => hres1 h.2
    rw [if_neg hnot]
    simp
  · split_ifs <;> simp [Call.isUpdateOf, hst]

/-- C9: in every frame iteration the simulation's `update` is called exactly once when,
after the event loop, no modal dialog is present and the bound state's result is
`Running`, and not at all otherwise; and, the result of a state being terminal once it is
not `Running` (the contract of the game state), `update` is never called on that state
again in any later frame. -/
theorem tick_gating (env : Env) :
    (∀ (s : Engine) (events : List Event),
      (frame env s events).log.filter Call.isStateUpdate =
        s.log.filter Call.isStateUpdate ++
          (if (drain env (readClock env (rebind env s)).2 (env.activeState s.log)
                events).currentDialog = false ∧
              env.result (drain env (readClock env (rebind env s)).2 (env.activeState s.log)
                events).log (env.activeState s.log) = Result.Running then
            [Call.stateUpdate (env.activeState s.log)
              (env.clock (drain env (readClock env (rebind env s)).2 (env.activeState s.log)
                events).log)]
          else [])) ∧
    (ResultTerminal env →
      ∀ (schedule : List (List Event)) (s : Engine) (target : StateId),
        env.result s.log target ≠ Result.Running →
        (run env s schedule).log.filter (Call.isUpdateOf target) =
          s.log.filter (Call.isUpdateOf target)) := by
  refine ⟨frame_stateUpdates env, ?_⟩
  intro hterm schedule
  induction schedule with
  | nil => intro s target _; rfl
  | cons events rest ih =>
    intro s target hres
    unfold run
    split_ifs
    · rw [ih (frame env s events) target
        (terminal_ext env hterm target (frame_ext env s events) hres),
        frame_no_update_of_terminal env hterm s events target hres]
    · rfl

theorem winningEnv_terminal : ResultTerminal winningEnv := by
  intro h c state hres
  simp only [winningEnv, ne_eq, ite_eq_right_iff, Classical.not_imp] at hres ⊢
  refine ⟨?_, by simp⟩
  rw [List.any_append, hres.1]
  rfl

/-- Witness for C9: in the winning environment the first frame ticks once and the game is
won; three further frames issue no further `update`. -/
theorem tick_gating_witness :
    (run winningEnv (frame winningEnv idleEngine [])
      [[], [Event.keyboard EventType.KeyPressed Key.Left], []]).log.filter (Call.isUpdateOf 0) =
      (frame winningEnv idleEngine []).log.filter (Call.isUpdateOf 0) :=
  (tick_gating winningEnv).2 winningEnv_terminal
    [[], [Event.keyboard EventType.KeyPressed Key.Left], []] (frame winningEnv idleEngine []) 0
    (by decide)

/-! ### Event dispatch changes the history and the steering part only -/

theorem showMenu_withCore (env : Env) (s : Engine) :
    showMenu env s = s.withCore (showMenu env s).log (showMenu env s).core := by
  unfold showMenu
  simp only [callB]
  split_ifs <;> rfl

theorem handleKeyEvent_withCore (env : Env) (s : Engine) (key : Key) (state : StateId) :
    (handleKeyEvent env s key state).2 =
      s.withCore (handleKeyEvent env s key state).2.log (handleKeyEvent env s key state).2.core := by
  cases key <;> rfl

theorem handleMouseMove_withCore (env : Env) (s : Engine) (p : ScreenPos) (state : StateId) :
    (handleMouseMove env s p state).2 =
      s.withCore (handleMouseMove env s p state).2.log (handleMouseMove env s p state).2.core := by
  unfold handleMouseMove
  dsimp only
  split_ifs <;> rfl

theorem handleMousePress_withCore (env : Env) (s : Engine) (p : ScreenPos) (b : MouseButton)
    (state : StateId) :
    (handleMousePress env s p b state).2 =
      s.withCore (handleMousePress env s p b state).2.log
        (handleMousePress env s p b state).2.core := by
  have h2 : (pressButtons env s p).2 = s.withLog (s.log ++ pressCalls p s.buttons.length) :=
    pressFold_snd env s p s.buttons.length
  unfold handleMousePress
  simp only [callB, h2]
  split_ifs <;> rfl

theorem handleMouseRelease_withCore (env : Env) (s : Engine) (p : ScreenPos) (b : MouseButton)
    (state : StateId) :
    (handleMouseRelease env s p b state).2 =
      s.withCore (handleMouseRelease env s p b state).2.log
        (handleMouseRelease env s p b state).2.core := by
  have h2 : ∀ s1 : Engine, (releaseButtons env s1 p).2 =
      s1.withLog (s1.log ++ releaseCalls p s1.buttons.length) :=
    fun s1 => releaseFold_snd env s1 p s1.buttons.length
  unfold handleMouseRelease
  simp only [callB, h2]
  split_ifs <;> first
    | rfl
    | exact (showMenu_withCore env _).trans rfl
    | (rw [showMenu_withCore]; rfl)

theorem handleEvent_withCore (env : Env) (s : Engine) (e : Event) (state : StateId) :
    (handleEvent env s e state).2 =
      s.withCore (handleEvent env s e state).2.log (handleEvent env s e state).2.core := by
  unfold handleEvent
  simp only [callB, Engine.closeWindow]
  split_ifs <;> (try dsimp only) <;> try split
  all_goals first
    | rfl
    | exact (handleKeyEvent_withCore env _ _ _).trans rfl
    | exact (handleMousePress_withCore env _ _ _ _).trans rfl
    | exact (handleMouseRelease_withCore env _ _ _ _).trans rfl
    | exact (handleMouseMove_withCore env _ _ _).trans rfl

theorem dispatch_withCore (env : Env) (s : Engine) (state : StateId) (e : Event) :
    dispatch env s state e =
      s.withCore (dispatch env s state e).log (dispatch env s state e).core := by
  unfold dispatch
  simp only [Engine.closeWindow]
  split_ifs <;> first
    | exact (handleEvent_withCore env _ _ _).trans rfl
    | (rw [handleEvent_withCore]; rfl)

theorem drain_withCore (env : Env) (state : StateId) (events : List Event) :
    ∀ s : Engine, drain env s state events =
      s.withCore (drain env s state events).log (drain env s state events).core := by
  induction events with
  | nil => intro s; rfl
  | cons e es ih =>
    intro s
    have h1 := ih (dispatch env s state e)
    have h2 := dispatch_withCore env s state e
    have h3 : ∀ (l : History) (k : Core),
        (dispatch env s state e).withCore l k = s.withCore l k := by
      intro l k
      rw [h2]
      rfl
    exact h1.trans (h3 _ _)

/-! ### The win/loss overlay -/

theorem drain_overlay (env : Env) (state : StateId) (events : List Event) (s : Engine) :
    (drain env s state events).overlay = s.overlay := by
  rw [drain_withCore]
  rfl

theorem updateCamera_overlay (env : Env) (s : Engine) (state : StateId) :
    (updateCamera env s state).2.overlay = s.overlay := by
  unfold updateCamera
  simp only [readClock]
  split_ifs <;> rfl

theorem updateUi_overlay (env : Env) (s : Engine) (state : StateId) :
    (updateUi env s state).2.overlay = s.overlay := by
  unfold updateUi
  simp only [callB, readClock]
  exact updateCamera_overlay env _ state

theorem refreshSelection_overlay (env : Env) (s : Engine) :
    (refreshSelection env s).2.overlay = s.overlay := by
  unfold refreshSelection
  dsimp only
  split_ifs <;> rfl

theorem render_overlay (env : Env) (s : Engine) (state : StateId) (t : Int) :
    (render env s state t).overlay = s.overlay := by
  unfold render
  simp only [drawScene_eq, drawUi_eq, readClock, Engine.call]
  split_ifs <;> rfl

theorem rebind_overlay (env : Env) (s : Engine) : (rebind env s).overlay = s.overlay := by
  unfold rebind
  dsimp only
  split_ifs <;> rfl

theorem tick_idle (env : Env) (s : Engine) (state : StateId)
    (h : env.result s.log state ≠ Result.Running) : tick env s state = (false, s) := by
  unfold tick
  simp [h]

theorem drawUiCalls_plain (s : Engine) : ∀ c ∈ drawUiCalls s, plainCall c := by
  unfold drawUiCalls
  simp only [List.forall_mem_append, List.forall_mem_cons]
  refine ⟨⟨⟨?_, ?_⟩, ?_⟩, ?_⟩
  · split_ifs
    · simp only [List.forall_mem_cons]
      exact ⟨⟨rfl, rfl⟩, by simp⟩
    · simp
  · exact ⟨⟨rfl, rfl⟩, by simp⟩
  · intro c hc
    simp only [buttonRenderCalls, List.mem_map] at hc
    obtain ⟨i, _, rfl⟩ := hc
    exact ⟨rfl, rfl⟩
  · refine ⟨⟨rfl, rfl⟩, ⟨rfl, rfl⟩, ⟨rfl, rfl⟩, ⟨rfl, rfl⟩, ⟨rfl, rfl⟩, ⟨rfl, rfl⟩, ⟨rfl, rfl⟩,
      ⟨rfl, rfl⟩, ⟨rfl, rfl⟩, by simp⟩

theorem drawUiLog_plain (env : Env) (s : Engine) : ∀ c ∈ drawUiLog env s, plainCall c := by
  unfold drawUiLog
  simp only [List.forall_mem_append, List.forall_mem_cons]
  refine ⟨⟨⟨drawUiCalls_plain s, ⟨rfl, rfl⟩, by simp⟩, ?_⟩, ⟨rfl, rfl⟩, by simp⟩
  intro c hc
  simp only [messageCalls, List.mem_map] at hc
  obtain ⟨i, _, rfl⟩ := hc
  exact ⟨rfl, rfl⟩

theorem sceneCalls_plain (s : Engine) (state : StateId) :
    ∀ c ∈ sceneCalls s state, plainCall c := by
  unfold sceneCalls
  simp only [List.forall_mem_append, List.forall_mem_cons]
  refine ⟨⟨⟨rfl, rfl⟩, ⟨rfl, rfl⟩, ⟨rfl, rfl⟩, ⟨rfl, rfl⟩, ⟨rfl, rfl⟩, by simp⟩, ?_⟩
  split_ifs
  · simp only [List.forall_mem_cons]
    exact ⟨⟨rfl, rfl⟩, by simp⟩
  · simp

theorem filter_nil_of_forall {f : Call → Bool} {l : List Call} (h : ∀ c ∈ l, f c = false) :
    l.filter f = [] := by
  rw [List.filter_eq_nil_iff]
  intro c hc
  simp [h c hc]

/-- The overlay draws and presents of the redraw block while the result is not `Running`:
exactly one of each. -/
theorem renderLog_overlay (env : Env) (s : Engine) (state : StateId)
    (hres : env.result (s.log ++ sceneCalls s state) state ≠ Result.Running) :
    (renderLog env s state).filter Call.isOverlayDraw =
        [Call.drawResultOverlay s.resultOverlayString s.resultOverlayPos] ∧
      (renderLog env s state).filter Call.isPresent = [Call.windowUpdate] := by
  have h1 := fun f hf => filter_nil_of_forall (f := f) (l := sceneCalls s state) hf
  have h2 := fun f hf => filter_nil_of_forall (f := f)
    (l := drawUiLog env (s.withLog (s.log ++ sceneCalls s state ++ overlayCalls env s state))) hf
  have ho : overlayCalls env s state =
      [Call.drawResultOverlay s.resultOverlayString s.resultOverlayPos] := by
    unfold overlayCalls
    rw [if_pos hres]
  unfold renderLog
  constructor
  · rw [List.filter_append, List.filter_append, List.filter_append,
      h1 _ (fun c hc => (sceneCalls_plain s state c hc).1),
      h2 _ (fun c hc => (drawUiLog_plain env _ c hc).1), ho]
    rfl
  · rw [List.filter_append, List.filter_append, List.filter_append,
      h1 _ (fun c hc => (sceneCalls_plain s state c hc).2),
      h2 _ (fun c hc => (drawUiLog_plain env _ c hc).2), ho]
    rfl

theorem isUpdate_plain (c : Call) (h : isUpdate c) : plainCall c := by
  cases c <;> first | exact ⟨rfl, rfl⟩ | (rcases h with h | h <;> cases h)

theorem isEarly_plain (c : Call) (h : isEarly c) : plainCall c := by
  cases c <;> first | exact ⟨rfl, rfl⟩ | (rcases h with h | h | h <;> cases h)

/-- After the tick, while the result is not `Running`, the rest of a frame keeps the overlay
label and draws it once for each present. -/
theorem frameTail_overlay (env : Env) (hterm : ResultTerminal env) (s : Engine)
    (state : StateId) (t : Int) (u : Bool) (hres : env.result s.log state ≠ Result.Running) :
    (frameTail env s state t u).overlay = s.overlay ∧
    ∃ k, (frameTail env s state t u).log.filter Call.isOverlayDraw =
        s.log.filter Call.isOverlayDraw ++
          List.replicate k (Call.drawResultOverlay s.resultOverlayString s.resultOverlayPos) ∧
      (frameTail env s state t u).log.filter Call.isPresent =
        s.log.filter Call.isPresent ++ List.replicate k Call.windowUpdate := by
  have e1 : Ext isUpdate s.log (callB env s (Call.cursorSetPosition s.mousePos)).2.log :=
    ext_call (Ext.refl _ _) (Or.inl rfl)
  have e2 := updateUi_ext env (callB env s (Call.cursorSetPosition s.mousePos)).2 state e1
  have e3 : Ext isUpdate s.log (refreshSelection env (updateUi env
      (callB env s (Call.cursorSetPosition s.mousePos)).2 state).2).2.log := by
    rw [refreshSelection_log]
    exact e2
  have ho : (refreshSelection env (updateUi env
      (callB env s (Call.cursorSetPosition s.mousePos)).2 state).2).2.overlay = s.overlay :=
    (refreshSelection_overlay env _).trans (updateUi_overlay env _ state)
  have hf1 := e3.filter_eq Call.isOverlayDraw (fun c hc => (isUpdate_plain c hc).1)
  have hf2 := e3.filter_eq Call.isPresent (fun c hc => (isUpdate_plain c hc).2)
  have hov := congrArg Prod.fst ho
  have hpos := congrArg Prod.snd ho
  simp only [Engine.overlay] at hov hpos
  unfold frameTail
  dsimp only
  split_ifs
  · have hres2 := terminal_ext env hterm state
      ((e3.mono (Q := fun _ => True) (fun _ _ => trivial)).append
        (d := sceneCalls (refreshSelection env (updateUi env
          (callB env s (Call.cursorSetPosition s.mousePos)).2 state).2).2 state)
        (fun _ _ => trivial)) hres
    have hr := renderLog_overlay env _ state hres2
    refine ⟨(render_overlay env _ state t).trans ho, 1, ?_, ?_⟩
    · rw [render_log, List.filter_append, hf1, hr.1, hov, hpos]
      rfl
    · rw [render_log, List.filter_append, hf2, hr.2]
      rfl
  · refine ⟨ho, 0, ?_, ?_⟩
    · simp only [Engine.call, List.filter_append, hf1]
      rfl
    · simp only [Engine.call, List.filter_append, hf2]
      rfl

/-- A frame that starts while the result of the active state is not `Running` keeps the
overlay label and draws it once for each present. -/
theorem frame_overlay (env : Env) (hterm : ResultTerminal env) (s : Engine)
    (events : List Event) (hres : env.result s.log (env.activeState s.log) ≠ Result.Running) :
    (frame env s events).overlay = s.overlay ∧
    ∃ k, (frame env s events).log.filter Call.isOverlayDraw =
        s.log.filter Call.isOverlayDraw ++
          List.replicate k (Call.drawResultOverlay s.resultOverlayString s.resultOverlayPos) ∧
      (frame env s events).log.filter Call.isPresent =
        s.log.filter Call.isPresent ++ List.replicate k Call.windowUpdate := by
  have hearly := frame_early_ext env s events
  have hres1 := terminal_ext env hterm (env.activeState s.log) hearly hres
  have ho : (drain env (readClock env (rebind env s)).2 (env.activeState s.log) events).overlay =
      s.overlay := (drain_overlay env _ events _).trans (rebind_overlay env s)
  have hf1 := hearly.filter_eq Call.isOverlayDraw (fun c hc => (isEarly_plain c hc).1)
  have hf2 := hearly.filter_eq Call.isPresent (fun c hc => (isEarly_plain c hc).2)
  have hframe : frame env s events = frameTail env
      (drain env (readClock env (rebind env s)).2 (env.activeState s.log) events)
      (env.activeState s.log) (readClock env (rebind env s)).1 (false || !events.isEmpty) := by
    show frameRest env _ _ _ _ = _
    unfold frameRest
    rw [tick_idle env _ _ hres1]
  obtain ⟨h1, k, h2, h3⟩ := frameTail_overlay env hterm
    (drain env (readClock env (rebind env s)).2 (env.activeState s.log) events)
    (env.activeState s.log) (readClock env (rebind env s)).1 (false || !events.isEmpty) hres1
  have hov := congrArg Prod.fst ho
  have hpos := congrArg Prod.snd ho
  simp only [Engine.overlay] at hov hpos
  rw [hframe]
  refine ⟨h1.trans ho, k, ?_, ?_⟩
  · rw [h2, hf1, hov, hpos]
  · rw [h3, hf2]

/-- C10: when a tick changes the result from `Running` to `Won` the overlay text is set to
"You won." (to "You were defeated." for `Lost`) and its position to
(windowWidth/2 - labelWidth/2, windowHeight/2 - labelHeight/2), the divisions being exact
(float coordinates), so that the centre of the label is the centre of the window; every
run of the redraw block while the result is not `Running` draws the overlay with its
current text and position; and, the result being terminal (the contract of the game
state), the frame of the transition and all later frames keep that text and position and
draw the overlay once for each frame they present, so the next render performed draws
it. -/
theorem result_overlay (env : Env) :
    (∀ (s : Engine) (state : StateId), s.currentDialog = false →
      env.result s.log state = Result.Running →
      (env.result (s.log ++ [Call.clock, Call.stateUpdate state (env.clock s.log)]) state =
          Result.Won →
        (tick env s state).2.resultOverlayString = "You won.") ∧
      (env.result (s.log ++ [Call.clock, Call.stateUpdate state (env.clock s.log)]) state =
          Result.Lost →
        (tick env s state).2.resultOverlayString = "You were defeated.") ∧
      (env.result (s.log ++ [Call.clock, Call.stateUpdate state (env.clock s.log)]) state ≠
          Result.Running →
        (tick env s state).2.resultOverlayPos =
          ⟨((env.windowSize (s.log ++
                [Call.clock, Call.stateUpdate state (env.clock s.log)])).width : ℚ) / 2 -
              (env.localBounds (tick env s state).2.resultOverlayString).width / 2,
            ((env.windowSize (s.log ++
                [Call.clock, Call.stateUpdate state (env.clock s.log)])).height : ℚ) / 2 -
              (env.localBounds (tick env s state).2.resultOverlayString).height / 2⟩) ∧
      (env.result (s.log ++ [Call.clock, Call.stateUpdate state (env.clock s.log)]) state ≠
          Result.Running →
        (tick env s state).2.resultOverlayPos.x +
            (env.localBounds (tick env s state).2.resultOverlayString).width / 2 =
          ((env.windowSize (s.log ++
            [Call.clock, Call.stateUpdate state (env.clock s.log)])).width : ℚ) / 2 ∧
        (tick env s state).2.resultOverlayPos.y +
            (env.localBounds (tick env s state).2.resultOverlayString).height / 2 =
          ((env.windowSize (s.log ++
            [Call.clock, Call.stateUpdate state (env.clock s.log)])).height : ℚ) / 2)) ∧
    (∀ (s : Engine) (state : StateId) (t : Int),
      env.result (s.log ++ sceneCalls s state) state ≠ Result.Running →
      (render env s state t).log = s.log ++ renderLog env s state ∧
      (renderLog env s state).filter Call.isOverlayDraw =
        [Call.drawResultOverlay s.resultOverlayString s.resultOverlayPos]) ∧
    (ResultTerminal env →
      (∀ (s : Engine) (state : StateId) (t : Int) (polled : Bool), s.currentDialog = false →
        env.result s.log state = Result.Running →
        env.result (s.log ++ [Call.clock, Call.stateUpdate state (env.clock s.log)]) state ≠
          Result.Running →
        ∃ k, (frameRest env s state t polled).log.filter Call.isOverlayDraw =
            s.log.filter Call.isOverlayDraw ++
              List.replicate k (Call.drawResultOverlay (tick env s state).2.resultOverlayString
                (tick env s state).2.resultOverlayPos) ∧
          (frameRest env s state t polled).log.filter Call.isPresent =
            s.log.filter Call.isPresent ++ List.replicate k Call.windowUpdate) ∧
      (∀ (state : StateId), (∀ h, env.activeState h = state) →
        ∀ (schedule : List (List Event)) (s : Engine),
          env.result s.log state ≠ Result.Running →
          (run env s schedule).overlay = s.overlay ∧
          ∃ k, (run env s schedule).log.filter Call.isOverlayDraw =
              s.log.filter Call.isOverlayDraw ++
                List.replicate k
                  (Call.drawResultOverlay s.resultOverlayString s.resultOverlayPos) ∧
            (run env s schedule).log.filter Call.isPresent =
              s.log.filter Call.isPresent ++ List.replicate k Call.windowUpdate)) := by
  refine ⟨?_, ?_, ?_⟩
  · intro s state hd hrun
    have hlog : (s.log ++ [Call.clock] ++ [Call.stateUpdate state (env.clock s.log)]) =
        s.log ++ [Call.clock, Call.stateUpdate state (env.clock s.log)] := by simp
    have hpos : env.result (s.log ++ [Call.clock, Call.stateUpdate state (env.clock s.log)])
          state ≠ Result.Running →
        (tick env s state).2.resultOverlayPos =
          ⟨((env.windowSize (s.log ++
                [Call.clock, Call.stateUpdate state (env.clock s.log)])).width : ℚ) / 2 -
              (env.localBounds (tick env s state).2.resultOverlayString).width / 2,
            ((env.windowSize (s.log ++
                [Call.clock, Call.stateUpdate state (env.clock s.log)])).height : ℚ) / 2 -
              (env.localBounds (tick env s state).2.resultOverlayString).height / 2⟩ := by
      intro hne
      simp [tick, hd, hrun, callB, readClock, Engine.call, hlog, hne]
    refine ⟨?_, ?_, hpos, ?_⟩
    · intro hwon
      simp [tick, hd, hrun, callB, readClock, Engine.call, hlog, hwon]
    · intro hlost
      simp [tick, hd, hrun, callB, readClock, Engine.call, hlog, hlost]
    · intro hne
      rw [hpos hne]
      constructor <;> ring
  · intro s state t hres
    exact ⟨render_log env s state t, (renderLog_overlay env s state hres).1⟩
  · intro hterm
    constructor
    · intro s state t polled hd hrun hne
      have htl : (tick env s state).2.log =
          s.log ++ [Call.clock, Call.stateUpdate state (env.clock s.log)] := by
        rw [tick_log]
        simp [hd, hrun]
      have hres1 : env.result (tick env s state).2.log state ≠ Result.Running := by
        rw [htl]; exact hne
      obtain ⟨_, k, h2, h3⟩ := frameTail_overlay env hterm (tick env s state).2 state t
        ((tick env s state).1 || polled) hres1
      refine ⟨k, ?_, ?_⟩
      · show (frameTail env _ _ _ _).log.filter _ = _
        rw [h2, htl, List.filter_append]
        simp [Call.isOverlayDraw]
      · show (frameTail env _ _ _ _).log.filter _ = _
        rw [h3, htl, List.filter_append]
        simp [Call.isPresent]
    · intro state hactive schedule
      induction schedule with
      | nil => intro s _; exact ⟨rfl, 0, by simp [run], by simp [run]⟩
      | cons events rest ih =>
        intro s hres
        unfold run
        split_ifs
        · have hres0 : env.result s.log (env.activeState s.log) ≠ Result.Running := by
            rw [hactive]; exact hres
          obtain ⟨h1, k1, h2, h3⟩ := frame_overlay env hterm s events hres0
          have hres1 := terminal_ext env hterm state (frame_ext env s events) hres
          obtain ⟨g1, k2, g2, g3⟩ := ih (frame env s events) hres1
          have hov := congrArg Prod.fst h1
          have hpos := congrArg Prod.snd h1
          simp only [Engine.overlay] at hov hpos
          refine ⟨g1.trans h1, k1 + k2, ?_, ?_⟩
          · rw [g2, h2, hov, hpos, List.replicate_add, List.append_assoc]
          · rw [g3, h3, List.replicate_add, List.append_assoc]
        · exact ⟨rfl, 0, by simp, by simp⟩

/-- Witness for C10: in the winning environment the first tick wins the game; the label
"You won.", 96 by 25, is placed at (592, 499.5), the centre of the 1280 by 1024 window,
and the frame draws it there. -/
theorem result_overlay_witness :
    (tick winningEnv idleEngine 0).2.resultOverlayString = "You won." ∧
    (tick winningEnv idleEngine 0).2.resultOverlayPos = ⟨592, 999 / 2⟩ ∧
    (∃ k, (frameRest winningEnv idleEngine 0 0 false).log.filter Call.isOverlayDraw =
        idleEngine.log.filter Call.isOverlayDraw ++
          List.replicate k
            (Call.drawResultOverlay (tick winningEnv idleEngine 0).2.resultOverlayString
              (tick winningEnv idleEngine 0).2.resultOverlayPos) ∧
      (frameRest winningEnv idleEngine 0 0 false).log.filter Call.isPresent =
        idleEngine.log.filter Call.isPresent ++ List.replicate k Call.windowUpdate) ∧
    (frame winningEnv idleEngine []).log.filter Call.isOverlayDraw =
      [Call.drawResultOverlay "You won." (tick winningEnv idleEngine 0).2.resultOverlayPos] :=
  ⟨((result_overlay winningEnv).1 idleEngine 0 rfl rfl).1 (by decide),
    (((result_overlay winningEnv).1 idleEngine 0 rfl rfl).2.2.1 (by decide)).trans
      (by
        rw [((result_overlay winningEnv).1 idleEngine 0 rfl rfl).1 (by decide)]
        have hlen : "You won.".length = 8 := by decide
        simp only [winningEnv, quietEnv, hlen]
        norm_num),
    ((result_overlay winningEnv).2.2 winningEnv_terminal).1 idleEngine 0 0 false rfl rfl
      (by decide),
    rfl⟩

/-! ### End-to-end drag -/

theorem pressButtons_quiet (env : Env) (s : Engine) (p : ScreenPos)
    (h : ∀ (l : History) (i : Nat), env.boolOf l (Call.buttonOnMousePressed i p) = false) :
    pressButtons env s p = (false, s.withLog (s.log ++ pressCalls p s.buttons.length)) := by
  have h1 : (pressButtons env s p).1 = false := by
    rw [Bool.eq_false_iff]
    intro hc
    obtain ⟨i, _, hi⟩ := (pressFold_fst env s p s.buttons.length).mp hc
    rw [h] at hi
    exact Bool.false_ne_true hi
  have h2 : (pressButtons env s p).2 = s.withLog (s.log ++ pressCalls p s.buttons.length) :=
    pressFold_snd env s p s.buttons.length
  exact Prod.ext h1 h2

theorem releaseButtons_quiet (env : Env) (s : Engine) (r : ScreenPos)
    (h : ∀ (l : History) (i : Nat), env.boolOf l (Call.buttonOnMouseReleased i r) = false) :
    releaseButtons env s r =
      (IconButtonType.Invalid, s.withLog (s.log ++ releaseCalls r s.buttons.length)) :=
  Prod.ext (releaseFold_fst_of_unclaimed env s r s.buttons.length (fun i _ => h _ i))
    (releaseFold_snd env s r s.buttons.length)

theorem pressCalls_noSelect (p : ScreenPos) (n : Nat) :
    (pressCalls p n).filter Call.isSelectUnits = [] := by
  apply filter_nil_of_forall
  intro c hc
  simp only [pressCalls, List.mem_map] at hc
  obtain ⟨i, _, rfl⟩ := hc
  rfl

theorem releaseCalls_noSelect (p : ScreenPos) (n : Nat) :
    (releaseCalls p n).filter Call.isSelectUnits = [] := by
  apply filter_nil_of_forall
  intro c hc
  simp only [releaseCalls, List.mem_map] at hc
  obtain ⟨i, _, rfl⟩ := hc
  rfl

theorem Unclaimed.mouse {env : Env} {ty : EventType} {p : ScreenPos} {b : MouseButton}
    (h : Unclaimed env (Event.mouse ty p b)) :
    (∀ l, env.boolOf l (Call.actionPanelHandleEvent (Event.mouse ty p b)) = false) ∧
    (∀ l, env.boolOf l (Call.minimapHandleEvent (Event.mouse ty p b)) = false) ∧
    (∀ l, env.boolOf l (Call.unitInfoPanelHandleEvent (Event.mouse ty p b)) = false) :=
  ⟨fun l => (h l).1, fun l => (h l).2.1, fun l => (h l).2.2⟩

/-- Dispatch of an unclaimed left press in the world viewport: the drag starts. -/
theorem dispatch_press (env : Env) (s : Engine) (state : StateId) (p q r : ScreenPos)
    (b : MouseButton) (hq : QuietDrag env p q r b) (hy : p.y < 800)
    (hd : s.currentDialog = false) :
    (dispatch env s state (pressAt p)).core =
      { s.core with selectionStart := p, selectionCurr := ⟨p.x + 1, p.y + 1⟩, selecting := true } ∧
    (dispatch env s state (pressAt p)).log.filter Call.isSelectUnits =
      s.log.filter Call.isSelectUnits := by
  obtain ⟨hp, _, _, hbp, _, hl, _⟩ := hq
  obtain ⟨h1, h2, h3⟩ := Unclaimed.mouse hp
  have hpb := fun s1 => pressButtons_quiet env s1 p hbp
  constructor
  · simp [dispatch, pressAt, Event.type, handleEvent, hd, callB, h1, h2, h3,
      handleMousePress, hpb, hy, hl, Engine.withLog, Engine.call, Engine.core, ScreenPos.add]
  · simp [dispatch, pressAt, Event.type, handleEvent, hd, callB, h1, h2, h3,
      handleMousePress, hpb, hy, hl, Engine.withLog, Engine.call,
      List.filter_append, pressCalls_noSelect, Call.isSelectUnits]

/-- Dispatch of an unclaimed move inside the world viewport and off the screen edges,
during a drag: the current point follows, the camera stays at rest. -/
theorem dispatch_move (env : Env) (s : Engine) (state : StateId) (p q r : ScreenPos)
    (b : MouseButton) (hq : QuietDrag env p q r b) (hy : q.y < 800) (hoff : OffEdges env q)
    (hd : s.currentDialog = false) (hsel : s.selecting = true) :
    (dispatch env s state (moveTo q b)).core =
      { s.core with cameraDeltaX := 0, cameraDeltaY := 0, selectionCurr := q } ∧
    (dispatch env s state (moveTo q b)).log.filter Call.isSelectUnits =
      s.log.filter Call.isSelectUnits := by
  obtain ⟨_, hm, _, _, _, _, _⟩ := hq
  obtain ⟨h1, h2, h3⟩ := Unclaimed.mouse hm
  have hx1 : ∀ l : History, ¬ q.x < MOUSE_MOVE_EDGE_SIZE := fun l => not_lt.mpr (hoff l).1
  have hx2 : ∀ l : History, ¬ q.x > (env.targetSize l).width - MOUSE_MOVE_EDGE_SIZE :=
    fun l => not_lt.mpr (hoff l).2.1
  have hy1 : ∀ l : History, ¬ q.y < MOUSE_MOVE_EDGE_SIZE := fun l => not_lt.mpr (hoff l).2.2.1
  have hy2 : ∀ l : History, ¬ q.y > (env.targetSize l).height - MOUSE_MOVE_EDGE_SIZE :=
    fun l => not_lt.mpr (hoff l).2.2.2
  constructor
  · simp [dispatch, moveTo, Event.type, handleEvent, hd, callB, h1, h2, h3,
      handleMouseMove, hy, hsel, hx1 [], hx2, hy1 [], hy2, Engine.call, Engine.core]
  · simp [dispatch, moveTo, Event.type, handleEvent, hd, callB, h1, h2, h3,
      handleMouseMove, hy, hsel, hx1 [], hx2, hy1 [], hy2, Engine.call,
      List.filter_append, Call.isSelectUnits]

/-- Dispatch of an unclaimed left release during a drag: `selectUnits` is called with the
stored rectangle and the drag is cleared. -/
theorem dispatch_release (env : Env) (s : Engine) (state : StateId) (p q r : ScreenPos)
    (b : MouseButton) (hq : QuietDrag env p q r b)
    (hd : s.currentDialog = false) (hsel : s.selecting = true) :
    (dispatch env s state (releaseAt r)).core =
      { s.core with selectionRect := ScreenRect.empty, selecting := false } ∧
    (dispatch env s state (releaseAt r)).log.filter Call.isSelectUnits =
      s.log.filter Call.isSelectUnits ++
        [Call.selectUnits state s.selectionRect s.cameraTarget] := by
  obtain ⟨_, _, hr, _, hbr, _, hu⟩ := hq
  obtain ⟨h1, h2, h3⟩ := Unclaimed.mouse hr
  have hrb := fun s1 => releaseButtons_quiet env s1 r hbr
  constructor
  · by_cases hy : r.y < 800
    · simp [dispatch, releaseAt, Event.type, handleEvent, hd, callB, h1, h2, h3,
        handleMouseRelease, hrb, hy, hu, hsel, Engine.withLog, Engine.call, Engine.core]
    · simp [dispatch, releaseAt, Event.type, handleEvent, hd, callB, h1, h2, h3,
        handleMouseRelease, hrb, hy, hsel, Engine.withLog, Engine.call, Engine.core]
  · by_cases hy : r.y < 800
    · simp [dispatch, releaseAt, Event.type, handleEvent, hd, callB, h1, h2, h3,
        handleMouseRelease, hrb, hy, hu, hsel, Engine.withLog, Engine.call,
        List.filter_append, releaseCalls_noSelect, Call.isSelectUnits]
    · simp [dispatch, releaseAt, Event.type, handleEvent, hd, callB, h1, h2, h3,
        handleMouseRelease, hrb, hy, hsel, Engine.withLog, Engine.call,
        List.filter_append, releaseCalls_noSelect, Call.isSelectUnits]

theorem isLate_noSelect (c : Call) (h : isLate c) : c.isSelectUnits = false := by
  cases c <;> first | rfl | (rcases h with h | h | h | h | h <;> cases h)

/-- The head of a frame (rebinding, clock read) leaves the steering part alone and calls
no `selectUnits`. -/
theorem frame_head (env : Env) (s : Engine) :
    (readClock env (rebind env s)).2.core = s.core ∧
    (readClock env (rebind env s)).2.log.filter Call.isSelectUnits =
      s.log.filter Call.isSelectUnits := by
  refine ⟨rebind_core env s, ?_⟩
  have e0 : Ext (fun c => c.isSelectUnits = false) s.log (rebind env s).log :=
    rebind_ext env s (Ext.refl _ _) (by intro c hc; cases c <;> first | rfl | cases hc)
  have e1 : Ext (fun c => c.isSelectUnits = false) s.log (readClock env (rebind env s)).2.log :=
    ext_call e0 rfl
  exact e1.filter_eq _ (fun c hc => hc)

/-- After the event loop, with the camera at rest, a frame recomputes the selection
rectangle, changes nothing else of the steering part and calls no `selectUnits`. -/
theorem frameRest_drag (env : Env) (s : Engine) (state : StateId) (t : Int) (polled : Bool)
    (hx : s.cameraDeltaX = 0) (hy : s.cameraDeltaY = 0) :
    (frameRest env s state t polled).core = s.core.setRect (dragRect env s) ∧
    (frameRest env s state t polled).log.filter Call.isSelectUnits =
      s.log.filter Call.isSelectUnits := by
  refine ⟨frameRest_core env s state t polled hx hy, ?_⟩
  have e1 : Ext (fun c => c.isSelectUnits = false) s.log (tick env s state).2.log :=
    tick_ext env s state (Ext.refl _ _) rfl (fun _ => rfl)
  have e2 := e1.trans ((frameRest_late_ext env s state t polled).mono isLate_noSelect)
  exact e2.filter_eq _ (fun c hc => hc)

theorem Dragging.of_core {s1 s2 : Engine} {a b : ScreenPos} (h : Dragging s1 a b)
    (hc : s2.core = s1.core) : Dragging s2 a b := by
  obtain ⟨h1, h2, h3, h4, h5, h6, h7⟩ := h
  have e1 := congrArg Core.windowOpen hc
  have e2 := congrArg Core.currentDialog hc
  have e3 := congrArg Core.selecting hc
  have e4 := congrArg Core.selectionStart hc
  have e5 := congrArg Core.selectionCurr hc
  have e6 := congrArg Core.cameraDeltaX hc
  have e7 := congrArg Core.cameraDeltaY hc
  simp only [Engine.core] at e1 e2 e3 e4 e5 e6 e7
  exact ⟨e1.trans h1, e2.trans h2, e3.trans h3, e4.trans h4, e5.trans h5, e6.trans h6,
    e7.trans h7⟩

/-- A frame whose event loop ends in a drag with the camera at rest ends in the same drag,
with the rectangle spanned by its start and current points. -/
theorem frame_of_drained_drag (env : Env) (s : Engine) (events : List Event)
    (a b : ScreenPos)
    (hd : Dragging (drain env (readClock env (rebind env s)).2 (env.activeState s.log) events)
      a b) :
    Dragging (frame env s events) a b ∧
    (frame env s events).selectionRect = env.rectOf a b ∧
    (frame env s events).log.filter Call.isSelectUnits =
      (drain env (readClock env (rebind env s)).2 (env.activeState s.log)
        events).log.filter Call.isSelectUnits := by
  obtain ⟨h1, h2, h3, h4, h5, h6, h7⟩ := hd
  obtain ⟨hc, hl⟩ := frameRest_drag env
    (drain env (readClock env (rebind env s)).2 (env.activeState s.log) events)
    (env.activeState s.log) (readClock env (rebind env s)).1 (!events.isEmpty) h6 h7
  have hframe : frame env s events = frameRest env
    (drain env (readClock env (rebind env s)).2 (env.activeState s.log) events)
    (env.activeState s.log) (readClock env (rebind env s)).1 (!events.isEmpty) := rfl
  rw [hframe]
  have e1 := congrArg Core.windowOpen hc
  have e2 := congrArg Core.currentDialog hc
  have e3 := congrArg Core.selecting hc
  have e4 := congrArg Core.selectionStart hc
  have e5 := congrArg Core.selectionCurr hc
  have e6 := congrArg Core.cameraDeltaX hc
  have e7 := congrArg Core.cameraDeltaY hc
  have e8 := congrArg Core.selectionRect hc
  simp only [Engine.core, Core.setRect, dragRect, h3, if_true, h4, h5] at e1 e2 e3 e4 e5 e6 e7 e8
  exact ⟨⟨e1.trans h1, e2.trans h2, e3, e4, e5, e6.trans h6, e7.trans h7⟩, e8, hl⟩

theorem run_append (env : Env) (fs1 fs2 : List (List Event)) :
    ∀ s : Engine, run env s (fs1 ++ fs2) = run env (run env s fs1) fs2 := by
  induction fs1 with
  | nil => intro s; rfl
  | cons e rest ih =>
    intro s
    by_cases h : s.windowOpen = true
    · simp only [List.cons_append, run, h, if_true]
      exact ih _
    · have hrun : ∀ fs, run env s fs = s := by
        intro fs
        cases fs with
        | nil => rfl
        | cons _ _ => simp [run, h]
      rw [hrun, hrun, hrun]

/-- An idle frame during a drag keeps the drag and calls no `selectUnits`. -/
theorem frame_idle_drag (env : Env) (s : Engine) (a b : ScreenPos) (h : Dragging s a b) :
    Dragging (frame env s []) a b ∧
    (frame env s []).selectionRect = env.rectOf a b ∧
    (frame env s []).log.filter Call.isSelectUnits = s.log.filter Call.isSelectUnits := by
  have hX : Dragging (drain env (readClock env (rebind env s)).2 (env.activeState s.log) [])
      a b := h.of_core (frame_head env s).1
  obtain ⟨h1, h2, h3⟩ := frame_of_drained_drag env s [] a b hX
  exact ⟨h1, h2, h3.trans (frame_head env s).2⟩

/-- Any number of idle frames during a drag keeps the drag, the rectangle spanned by its
points, and calls no `selectUnits`. -/
theorem run_idle_drag (env : Env) (a b : ScreenPos) (n : Nat) :
    ∀ s : Engine, Dragging s a b → s.selectionRect = env.rectOf a b →
      Dragging (run env s (List.replicate n [])) a b ∧
      (run env s (List.replicate n [])).selectionRect = env.rectOf a b ∧
      (run env s (List.replicate n [])).log.filter Call.isSelectUnits =
        s.log.filter Call.isSelectUnits := by
  induction n with
  | zero => intro s h hr; exact ⟨h, hr, rfl⟩
  | succ n ih =>
    intro s h hr
    obtain ⟨h1, h2, h3⟩ := frame_idle_drag env s a b h
    obtain ⟨g1, g2, g3⟩ := ih (frame env s []) h1 h2
    have hopen : s.windowOpen = true := h.1
    simp only [List.replicate_succ, run, hopen, if_true]
    exact ⟨g1, g2, g3.trans h3⟩

/-- The frame that polls the unclaimed press starts the drag. -/
theorem frame_press (env : Env) (s : Engine) (p q r : ScreenPos) (b : MouseButton)
    (hq : QuietDrag env p q r b) (hy : p.y < 800) (hs : Resting s) :
    Dragging (frame env s [pressAt p]) p ⟨p.x + 1, p.y + 1⟩ ∧
    (frame env s [pressAt p]).selectionRect = env.rectOf p ⟨p.x + 1, p.y + 1⟩ ∧
    (frame env s [pressAt p]).log.filter Call.isSelectUnits =
      s.log.filter Call.isSelectUnits := by
  obtain ⟨s1, s2, s3, s4, s5⟩ := hs
  obtain ⟨hc, hl⟩ := frame_head env s
  have c2 := congrArg Core.currentDialog hc
  simp only [Engine.core] at c2
  obtain ⟨dc, dl⟩ := dispatch_press env (readClock env (rebind env s)).2 (env.activeState s.log)
    p q r b hq hy (c2.trans s2)
  rw [hc] at dc
  have hX : Dragging (drain env (readClock env (rebind env s)).2 (env.activeState s.log)
      [pressAt p]) p ⟨p.x + 1, p.y + 1⟩ := by
    have e1 := congrArg Core.windowOpen dc
    have e2 := congrArg Core.currentDialog dc
    have e3 := congrArg Core.selecting dc
    have e4 := congrArg Core.selectionStart dc
    have e5 := congrArg Core.selectionCurr dc
    have e6 := congrArg Core.cameraDeltaX dc
    have e7 := congrArg Core.cameraDeltaY dc
    simp only [Engine.core] at e1 e2 e3 e4 e5 e6 e7
    exact ⟨e1.trans s1, e2.trans s2, e3, e4, e5, e6.trans s4, e7.trans s5⟩
  obtain ⟨h1, h2, h3⟩ := frame_of_drained_drag env s [pressAt p] p ⟨p.x + 1, p.y + 1⟩ hX
  exact ⟨h1, h2, h3.trans (dl.trans hl)⟩

/-- The frame that polls the unclaimed move during a drag moves the current point. -/
theorem frame_move (env : Env) (s : Engine) (p q r a c : ScreenPos) (b : MouseButton)
    (hq : QuietDrag env p q r b) (hy : q.y < 800) (hoff : OffEdges env q)
    (hs : Dragging s a c) :
    Dragging (frame env s [moveTo q b]) a q ∧
    (frame env s [moveTo q b]).selectionRect = env.rectOf a q ∧
    (frame env s [moveTo q b]).log.filter Call.isSelectUnits =
      s.log.filter Call.isSelectUnits := by
  obtain ⟨hc, hl⟩ := frame_head env s
  obtain ⟨x1, x2, x3, x4, x5, x6, x7⟩ := hs.of_core hc
  obtain ⟨dc, dl⟩ := dispatch_move env (readClock env (rebind env s)).2 (env.activeState s.log)
    p q r b hq hy hoff x2 x3
  have hX : Dragging (drain env (readClock env (rebind env s)).2 (env.activeState s.log)
      [moveTo q b]) a q := by
    have e1 := congrArg Core.windowOpen dc
    have e2 := congrArg Core.currentDialog dc
    have e3 := congrArg Core.selecting dc
    have e4 := congrArg Core.selectionStart dc
    have e5 := congrArg Core.selectionCurr dc
    have e6 := congrArg Core.cameraDeltaX dc
    have e7 := congrArg Core.cameraDeltaY dc
    simp only [Engine.core] at e1 e2 e3 e4 e5 e6 e7
    exact ⟨e1.trans x1, e2.trans x2, e3.trans x3, e4.trans x4, e5, e6, e7⟩
  obtain ⟨h1, h2, h3⟩ := frame_of_drained_drag env s [moveTo q b] a q hX
  exact ⟨h1, h2, h3.trans (dl.trans hl)⟩

/-- The frame that polls the unclaimed press and move in one event loop ends in the drag
from `p` to `q`. -/
theorem frame_press_move (env : Env) (s : Engine) (p q r : ScreenPos) (b : MouseButton)
    (hq : QuietDrag env p q r b) (hy : p.y < 800) (hqy : q.y < 800) (hoff : OffEdges env q)
    (hs : Resting s) :
    Dragging (frame env s [pressAt p, moveTo q b]) p q ∧
    (frame env s [pressAt p, moveTo q b]).selectionRect = env.rectOf p q ∧
    (frame env s [pressAt p, moveTo q b]).log.filter Call.isSelectUnits =
      s.log.filter Call.isSelectUnits := by
  obtain ⟨s1, s2, s3, s4, s5⟩ := hs
  obtain ⟨hc, hl⟩ := frame_head env s
  have c2 := congrArg Core.currentDialog hc
  simp only [Engine.core] at c2
  obtain ⟨dc, dl⟩ := dispatch_press env (readClock env (rebind env s)).2 (env.activeState s.log)
    p q r b hq hy (c2.trans s2)
  rw [hc] at dc
  have d2 := congrArg Core.currentDialog dc
  have d3 := congrArg Core.selecting dc
  simp only [Engine.core] at d2 d3
  obtain ⟨mc, ml⟩ := dispatch_move env
    (dispatch env (readClock env (rebind env s)).2 (env.activeState s.log) (pressAt p))
    (env.activeState s.log) p q r b hq hqy hoff (d2.trans s2) d3
  rw [dc] at mc
  have hX : Dragging (drain env (readClock env (rebind env s)).2 (env.activeState s.log)
      [pressAt p, moveTo q b]) p q := by
    have e1 := congrArg Core.windowOpen mc
    have e2 := congrArg Core.currentDialog mc
    have e3 := congrArg Core.selecting mc
    have e4 := congrArg Core.selectionStart mc
    have e5 := congrArg Core.selectionCurr mc
    have e6 := congrArg Core.cameraDeltaX mc
    have e7 := congrArg Core.cameraDeltaY mc
    simp only [Engine.core] at e1 e2 e3 e4 e5 e6 e7
    exact ⟨e1.trans s1, e2.trans s2, e3, e4, e5, e6, e7⟩
  obtain ⟨h1, h2, h3⟩ := frame_of_drained_drag env s [pressAt p, moveTo q b] p q hX
  exact ⟨h1, h2, h3.trans (ml.trans (dl.trans hl))⟩

/-- The frame that polls the unclaimed release during a drag calls `selectUnits` with the
stored rectangle and clears the drag. -/
theorem frame_release (env : Env) (s : Engine) (p q r a c : ScreenPos) (b : MouseButton)
    (hq : QuietDrag env p q r b) (hs : Dragging s a c) :
    (frame env s [releaseAt r]).selecting = false ∧
    (frame env s [releaseAt r]).selectionRect = ScreenRect.empty ∧
    (frame env s [releaseAt r]).log.filter Call.isSelectUnits =
      s.log.filter Call.isSelectUnits ++
        [Call.selectUnits (env.activeState s.log) s.selectionRect s.cameraTarget] := by
  obtain ⟨hc, hl⟩ := frame_head env s
  obtain ⟨x1, x2, x3, x4, x5, x6, x7⟩ := hs.of_core hc
  obtain ⟨dc, dl⟩ := dispatch_release env (readClock env (rebind env s)).2
    (env.activeState s.log) p q r b hq x2 x3
  have r1 := congrArg Core.selectionRect hc
  have r2 := congrArg Core.cameraTarget hc
  simp only [Engine.core] at r1 r2
  rw [r1, r2, hl] at dl
  have e3 := congrArg Core.selecting dc
  have e6 := congrArg Core.cameraDeltaX dc
  have e7 := congrArg Core.cameraDeltaY dc
  have e8 := congrArg Core.selectionRect dc
  simp only [Engine.core] at e3 e6 e7 e8
  obtain ⟨fc, fl⟩ := frameRest_drag env
    (dispatch env (readClock env (rebind env s)).2 (env.activeState s.log) (releaseAt r))
    (env.activeState s.log) (readClock env (rebind env s)).1 (!List.isEmpty [releaseAt r])
    (e6.trans x6) (e7.trans x7)
  have hframe : frame env s [releaseAt r] = frameRest env
    (dispatch env (readClock env (rebind env s)).2 (env.activeState s.log) (releaseAt r))
    (env.activeState s.log) (readClock env (rebind env s)).1 (!List.isEmpty [releaseAt r]) := rfl
  rw [hframe]
  have f3 := congrArg Core.selecting fc
  have f8 := congrArg Core.selectionRect fc
  simp only [Engine.core, Core.setRect, dragRect, e3, e8] at f3 f8
  exact ⟨f3, by simpa using f8, fl.trans dl⟩

/-- C5 amended: starting with the window open, no dialog, no drag and the camera at rest,
for every press position `p` and move position `q` in the world viewport (`y < 800`) with
`q` outside the edge-scroll margins, the sequence left-press at `p`, move to `q`,
left-release, none of them claimed by a widget, an icon button or the unit layer, ends
with exactly one `selectUnits` call, with the rectangle spanned by `p` and `q`, and the
drag cleared, for every way the events are spread over frame iterations in which the
release is polled in a later iteration than the move: press, move and release in frames
of their own with any number of idle frames in between, or press and move in one event
loop. -/
theorem drag_end_to_end (env : Env) (s : Engine) (p q r : ScreenPos) (b : MouseButton)
    (hq : QuietDrag env p q r b) (hp : p.y < 800) (hqy : q.y < 800) (hoff : OffEdges env q)
    (hs : Resting s) :
    (∀ n m : Nat, DragSelected env s p q
      (run env s ([[pressAt p]] ++ List.replicate n [] ++ [[moveTo q b]] ++
        List.replicate m [] ++ [[releaseAt r]]))) ∧
    (∀ m : Nat, DragSelected env s p q
      (run env s ([[pressAt p, moveTo q b]] ++ List.replicate m [] ++ [[releaseAt r]]))) := by
  have hopen : s.windowOpen = true := hs.1
  have hone : ∀ (s0 : Engine) (e : List Event), s0.windowOpen = true →
      run env s0 [e] = frame env s0 e := by
    intro s0 e h0
    simp [run, h0]
  have hfinish : ∀ (s0 : Engine) (m : Nat), Dragging s0 p q → s0.selectionRect = env.rectOf p q →
      s0.log.filter Call.isSelectUnits = s.log.filter Call.isSelectUnits →
      DragSelected env s p q (run env s0 (List.replicate m [] ++ [[releaseAt r]])) := by
    intro s0 m h0 hr hl
    obtain ⟨g1, g2, g3⟩ := run_idle_drag env p q m s0 h0 hr
    obtain ⟨f1, f2, f3⟩ := frame_release env (run env s0 (List.replicate m [])) p q r p q b hq g1
    rw [run_append, hone _ _ g1.1]
    refine ⟨f1, f2, env.activeState (run env s0 (List.replicate m [])).log,
      (run env s0 (List.replicate m [])).cameraTarget, ?_⟩
    rw [f3, g3, hl, g2]
  constructor
  · intro n m
    obtain ⟨a1, a2, a3⟩ := frame_press env s p q r b hq hp hs
    obtain ⟨b1, b2, b3⟩ := run_idle_drag env p ⟨p.x + 1, p.y + 1⟩ n (frame env s [pressAt p]) a1 a2
    obtain ⟨c1, c2, c3⟩ := frame_move env (run env (frame env s [pressAt p]) (List.replicate n []))
      p q r p ⟨p.x + 1, p.y + 1⟩ b hq hqy hoff b1
    have hsplit : [[pressAt p]] ++ List.replicate n [] ++ [[moveTo q b]] ++
        List.replicate m [] ++ [[releaseAt r]] =
        [[pressAt p]] ++ (List.replicate n [] ++ ([[moveTo q b]] ++
          (List.replicate m [] ++ [[releaseAt r]]))) := by
      simp
    rw [hsplit, run_append, hone _ _ hopen, run_append, run_append, hone _ _ b1.1]
    exact hfinish _ m c1 c2 (c3.trans (b3.trans a3))
  · intro m
    obtain ⟨a1, a2, a3⟩ := frame_press_move env s p q r b hq hp hqy hoff hs
    have hsplit : [[pressAt p, moveTo q b]] ++ List.replicate m [] ++ [[releaseAt r]] =
        [[pressAt p, moveTo q b]] ++ (List.replicate m [] ++ [[releaseAt r]]) := by
      simp
    rw [hsplit, run_append, hone _ _ hopen]
    exact hfinish _ m a1 a2 a3

theorem quietEnv_quietDrag (p q r : ScreenPos) (b : MouseButton) : QuietDrag quietEnv p q r b :=
  ⟨fun _ => ⟨rfl, rfl, rfl⟩, fun _ => ⟨rfl, rfl, rfl⟩, fun _ => ⟨rfl, rfl, rfl⟩,
    fun _ _ => rfl, fun _ _ => rfl, fun _ _ _ => rfl, fun _ _ => rfl⟩

/-- Witness for C5 amended: press at (100,100), one idle frame, move to (150,140), two
idle frames, release, in the quiet environment. -/
theorem drag_end_to_end_witness :
    DragSelected quietEnv idleEngine ⟨100, 100⟩ ⟨150, 140⟩
      (run quietEnv idleEngine ([[pressAt ⟨100, 100⟩]] ++ List.replicate 1 [] ++
        [[moveTo ⟨150, 140⟩ MouseButton.NoButton]] ++ List.replicate 2 [] ++
        [[releaseAt ⟨150, 140⟩]])) :=
  (drag_end_to_end quietEnv idleEngine ⟨100, 100⟩ ⟨150, 140⟩ ⟨150, 140⟩ MouseButton.NoButton
    (quietEnv_quietDrag _ _ _ _) (by decide) (by decide)
    (fun _ => by simp [quietEnv, MOUSE_MOVE_EDGE_SIZE])
    ⟨rfl, rfl, rfl, rfl, rfl⟩).1 1 2

/-- C5 as stated fails: when press at (100,100), move to (150,140) and release arrive in
one event loop, `selectUnits` is called with the empty rectangle, and when move and
release arrive together one frame after the press, with the rectangle (100,100)-(101,101);
the rectangle spanned by the two points is (100,100) with extent 50 by 40. -/
theorem drag_in_one_drain_selects_stale_rect :
    (run quietEnv idleEngine [[pressAt ⟨100, 100⟩, moveTo ⟨150, 140⟩ MouseButton.NoButton,
        releaseAt ⟨150, 140⟩]]).log.filter Call.isSelectUnits =
      [Call.selectUnits 0 ScreenRect.empty ⟨2400, 2400, 0⟩] ∧
    (run quietEnv idleEngine [[pressAt ⟨100, 100⟩], [moveTo ⟨150, 140⟩ MouseButton.NoButton,
        releaseAt ⟨150, 140⟩]]).log.filter Call.isSelectUnits =
      [Call.selectUnits 0 ⟨100, 100, 1, 1⟩ ⟨2400, 2400, 0⟩] ∧
    quietEnv.rectOf ⟨100, 100⟩ ⟨150, 140⟩ = ⟨100, 100, 50, 40⟩ ∧
    ¬ DragSelected quietEnv idleEngine ⟨100, 100⟩ ⟨150, 140⟩
      (run quietEnv idleEngine [[pressAt ⟨100, 100⟩, moveTo ⟨150, 140⟩ MouseButton.NoButton,
        releaseAt ⟨150, 140⟩]]) := by
  have h1 : (run quietEnv idleEngine [[pressAt ⟨100, 100⟩,
      moveTo ⟨150, 140⟩ MouseButton.NoButton, releaseAt ⟨150, 140⟩]]).log.filter
        Call.isSelectUnits = [Call.selectUnits 0 ScreenRect.empty ⟨2400, 2400, 0⟩] := by
    decide
  refine ⟨h1, by decide, by decide, ?_⟩
  rintro ⟨_, _, state, camera, h⟩
  rw [h1] at h
  simp only [idleEngine, List.filter_nil, List.nil_append, List.cons.injEq, Call.input.injEq,
    InputCall.selectUnits.injEq, and_true] at h
  have h2 := h.2.1
  revert h2
  decide

/-! ### The dispatch chain -/

/-- C11: with no dialog present, `handleEvent` consults the action panel, then the
minimap, then the unit-info panel, each on the history left by the one before. The first
of them that answers true makes `handleEvent` return true with the engine unchanged apart
from the consultations made so far, so no later widget and no key or mouse handler is
invoked; only when all three decline does the key or mouse handler of the event run, on
the history holding the three consultations in that order. -/
theorem widget_chain_order (env : Env) (s : Engine) (event : Event) (state : StateId)
    (hd : s.currentDialog = false) :
    (env.boolOf s.log (Call.actionPanelHandleEvent event) = true →
      handleEvent env s event state =
        (true, s.withLog (s.log ++ [Call.actionPanelHandleEvent event]))) ∧
    (env.boolOf s.log (Call.actionPanelHandleEvent event) = false →
      env.boolOf (s.log ++ [Call.actionPanelHandleEvent event])
        (Call.minimapHandleEvent event) = true →
      handleEvent env s event state =
        (true, s.withLog (s.log ++
          [Call.actionPanelHandleEvent event, Call.minimapHandleEvent event]))) ∧
    (env.boolOf s.log (Call.actionPanelHandleEvent event) = false →
      env.boolOf (s.log ++ [Call.actionPanelHandleEvent event])
        (Call.minimapHandleEvent event) = false →
      env.boolOf (s.log ++ [Call.actionPanelHandleEvent event, Call.minimapHandleEvent event])
        (Call.unitInfoPanelHandleEvent event) = true →
      handleEvent env s event state =
        (true, s.withLog (s.log ++ [Call.actionPanelHandleEvent event,
          Call.minimapHandleEvent event, Call.unitInfoPanelHandleEvent event]))) ∧
    (env.boolOf s.log (Call.actionPanelHandleEvent event) = false →
      env.boolOf (s.log ++ [Call.actionPanelHandleEvent event])
        (Call.minimapHandleEvent event) = false →
      env.boolOf (s.log ++ [Call.actionPanelHandleEvent event, Call.minimapHandleEvent event])
        (Call.unitInfoPanelHandleEvent event) = false →
      handleEvent env s event state =
        match event with
        | Event.keyboard _ key =>
          handleKeyEvent env (s.withLog (s.log ++ [Call.actionPanelHandleEvent event,
            Call.minimapHandleEvent event, Call.unitInfoPanelHandleEvent event])) key state
        | Event.mouse EventType.MousePressed position button =>
          handleMousePress env (s.withLog (s.log ++ [Call.actionPanelHandleEvent event,
            Call.minimapHandleEvent event, Call.unitInfoPanelHandleEvent event]))
            position button state
        | Event.mouse EventType.MouseReleased position button =>
          handleMouseRelease env (s.withLog (s.log ++ [Call.actionPanelHandleEvent event,
            Call.minimapHandleEvent event, Call.unitInfoPanelHandleEvent event]))
            position button state
        | Event.mouse EventType.MouseMoved position _ =>
          handleMouseMove env (s.withLog (s.log ++ [Call.actionPanelHandleEvent event,
            Call.minimapHandleEvent event, Call.unitInfoPanelHandleEvent event]))
            position state
        | _ => (false, s.withLog (s.log ++ [Call.actionPanelHandleEvent event,
            Call.minimapHandleEvent event, Call.unitInfoPanelHandleEvent event]))) := by
  refine ⟨?_, ?_, ?_, ?_⟩
  · intro h1
    simp [handleEvent, hd, callB, h1, Engine.call, Engine.withLog]
  · intro h1 h2
    simp [handleEvent, hd, callB, h1, h2, Engine.call, Engine.withLog]
  · intro h1 h2 h3
    simp [handleEvent, hd, callB, h1, h2, h3, Engine.call, Engine.withLog]
  · intro h1 h2 h3
    simp only [handleEvent, hd, callB, h1, h2, Engine.call, Engine.withLog,
      List.append_assoc, List.singleton_append, List.cons_append, List.nil_append] at h3 ⊢
    simp only [h3]
    simp only [Bool.false_eq_true, if_false]
    rcases event with t | ⟨t, k⟩ | ⟨t, p, b⟩
    · rfl
    · rfl
    · cases t <;> rfl

/-- Witness for C11: the action panel declines, the minimap claims the event; the
unit-info panel and the press handler are never reached. -/
theorem widget_chain_order_witness :
    handleEvent minimapClaimsEnv idleEngine (pressAt ⟨100, 100⟩) 0 =
      (true, idleEngine.withLog [Call.actionPanelHandleEvent (pressAt ⟨100, 100⟩),
        Call.minimapHandleEvent (pressAt ⟨100, 100⟩)]) :=
  (widget_chain_order minimapClaimsEnv idleEngine (pressAt ⟨100, 100⟩) 0 rfl).2.1 rfl rfl

/-- C12: when a dialog is present, `handleEvent` clears the dialog exactly when the
dialog's answer to the event is `Cancel`, closes the window exactly when the answer is
`Quit` (the only call besides the dialog's own is then the window close), and for every
other answer leaves the dialog present and the window as it was. -/
theorem dialog_result_effects (env : Env) (s : Engine) (event : Event) (state : StateId)
    (hd : s.currentDialog = true) :
    ((handleEvent env s event state).2.currentDialog = false ↔
      env.choiceOf s.log event = Choice.Cancel) ∧
    (Call.windowClose ∈ (handleEvent env s event state).2.log.drop s.log.length ↔
      env.choiceOf s.log event = Choice.Quit) ∧
    (handleEvent env s event state).2.log =
      s.log ++ Call.dialogHandleEvent event ::
        (if env.choiceOf s.log event = Choice.Quit then [Call.windowClose] else []) ∧
    (handleEvent env s event state).2.windowOpen =
      (if env.choiceOf s.log event = Choice.Quit then false else s.windowOpen) ∧
    (env.choiceOf s.log event ≠ Choice.Cancel → env.choiceOf s.log event ≠ Choice.Quit →
      handleEvent env s event state = (true, s.call (Call.dialogHandleEvent event))) := by
  have hlog : (handleEvent env s event state).2.log =
      s.log ++ Call.dialogHandleEvent event ::
        (if env.choiceOf s.log event = Choice.Quit then [Call.windowClose] else []) := by
    simp only [handleEvent, hd, if_true]
    split_ifs <;> simp_all [Engine.call, Engine.closeWindow]
  refine ⟨?_, ?_, hlog, ?_, ?_⟩
  · simp only [handleEvent, hd, if_true]
    split_ifs <;> simp_all [Engine.call, Engine.closeWindow]
  · rw [hlog, List.drop_left]
    split_ifs with h <;> simp [h]
  · simp only [handleEvent, hd, if_true]
    split_ifs <;> simp_all [Engine.call, Engine.closeWindow]
  · intro h1 h2
    simp [handleEvent, hd, h1, h2]

/-- Witness for C12: a `Cancel` answer clears the dialog and leaves the window open. -/
theorem dialog_result_effects_witness :
    (handleEvent cancellingEnv { idleEngine with currentDialog := true }
      (pressAt ⟨100, 100⟩) 0).2.currentDialog = false ∧
    (handleEvent cancellingEnv { idleEngine with currentDialog := true }
      (pressAt ⟨100, 100⟩) 0).2.windowOpen = true :=
  ⟨(dialog_result_effects cancellingEnv { idleEngine with currentDialog := true }
      (pressAt ⟨100, 100⟩) 0 rfl).1.mpr rfl,
    (dialog_result_effects cancellingEnv { idleEngine with currentDialog := true }
      (pressAt ⟨100, 100⟩) 0 rfl).2.2.2.1⟩

/-! ### Camera steering -/

/-- C14: after `handleMouseMove` for a cursor at `(x, y)` on a render target of size
`(w, h)` the horizontal velocity is -1 if `x < 10`, otherwise +1 if `x > w - 10`, otherwise
0, and the vertical velocity is +1 if `y < 10`, otherwise -1 if `y > h - 10`, otherwise 0
(on a target of at least 20 pixels the two margins of an axis do not overlap, so the far
margin alone decides +1 resp. -1). Each component is therefore in {-1, 0, 1}, is non-zero
only inside the 10-pixel margin of an edge, and is the same whatever the velocity was
before the move. -/
theorem edge_scroll_velocity (env : Env) (s : Engine) (position : ScreenPos) (state : StateId) :
    (handleMouseMove env s position state).2.cameraDeltaX =
      (if position.x < 10 then -1
        else if position.x > (env.targetSize s.log).width - 10 then 1 else 0) ∧
    (handleMouseMove env s position state).2.cameraDeltaY =
      (if position.y < 10 then 1
        else if position.y > (env.targetSize s.log).height - 10 then -1 else 0) ∧
    (20 ≤ (env.targetSize s.log).width → position.x > (env.targetSize s.log).width - 10 →
      (handleMouseMove env s position state).2.cameraDeltaX = 1) ∧
    (20 ≤ (env.targetSize s.log).height → position.y > (env.targetSize s.log).height - 10 →
      (handleMouseMove env s position state).2.cameraDeltaY = -1) ∧
    ((handleMouseMove env s position state).2.cameraDeltaX = -1 ∨
      (handleMouseMove env s position state).2.cameraDeltaX = 0 ∨
      (handleMouseMove env s position state).2.cameraDeltaX = 1) ∧
    ((handleMouseMove env s position state).2.cameraDeltaY = -1 ∨
      (handleMouseMove env s position state).2.cameraDeltaY = 0 ∨
      (handleMouseMove env s position state).2.cameraDeltaY = 1) ∧
    ((handleMouseMove env s position state).2.cameraDeltaX ≠ 0 →
      position.x < 10 ∨ position.x > (env.targetSize s.log).width - 10) ∧
    ((handleMouseMove env s position state).2.cameraDeltaY ≠ 0 →
      position.y < 10 ∨ position.y > (env.targetSize s.log).height - 10) ∧
    (∀ dx dy : Int,
      (handleMouseMove env { s with cameraDeltaX := dx, cameraDeltaY := dy }
          position state).2.cameraDeltaX =
        (handleMouseMove env s position state).2.cameraDeltaX ∧
      (handleMouseMove env { s with cameraDeltaX := dx, cameraDeltaY := dy }
          position state).2.cameraDeltaY =
        (handleMouseMove env s position state).2.cameraDeltaY) := by
  have hx : ∀ u : Engine, u.log = s.log →
      (handleMouseMove env u position state).2.cameraDeltaX =
        (if position.x < 10 then -1
          else if position.x > (env.targetSize s.log).width - 10 then 1 else 0) := by
    intro u hu
    simp only [handleMouseMove, MOUSE_MOVE_EDGE_SIZE, hu]
    split_ifs <;> simp_all [Engine.call]
  have hy : ∀ u : Engine, u.log = s.log →
      (handleMouseMove env u position state).2.cameraDeltaY =
        (if position.y < 10 then 1
          else if position.y > (env.targetSize s.log).height - 10 then -1 else 0) := by
    intro u hu
    simp only [handleMouseMove, MOUSE_MOVE_EDGE_SIZE, hu]
    split_ifs <;> simp_all [Engine.call]
  refine ⟨hx s rfl, hy s rfl, ?_, ?_, ?_, ?_, ?_, ?_, ?_⟩
  · intro hw h
    rw [hx s rfl]
    split_ifs <;> first | rfl | omega
  · intro hw h
    rw [hy s rfl]
    split_ifs <;> first | rfl | omega
  · rw [hx s rfl]
    split_ifs <;> simp
  · rw [hy s rfl]
    split_ifs <;> simp
  · rw [hx s rfl]
    split_ifs with h1 h2
    · exact fun _ => Or.inl h1
    · exact fun _ => Or.inr h2
    · exact fun h => absurd rfl h
  · rw [hy s rfl]
    split_ifs with h1 h2
    · exact fun _ => Or.inl h1
    · exact fun _ => Or.inr h2
    · exact fun h => absurd rfl h
  · intro dx dy
    exact ⟨(hx _ rfl).trans (hx s rfl).symm, (hy _ rfl).trans (hy s rfl).symm⟩

/-- C15: `handleKeyEvent` for Left, Right, Down, Up sets the camera target to
`clamped(toMap(toScreen(target) + d))` with `d` = (-20,0), (+20,0), (0,-20), (0,+20)
respectively, changes nothing else and returns true; for every other key it returns false
and leaves the engine, the camera target included, unchanged. -/
theorem key_scroll (env : Env) (s : Engine) (state : StateId) :
    handleKeyEvent env s Key.Left state =
      (true, { s with cameraTarget := (env.clamped
        (env.toMap ((env.toScreen s.cameraTarget).add ⟨-20, 0⟩))
        (env.mapPixelSize s.log state)) }) ∧
    handleKeyEvent env s Key.Right state =
      (true, { s with cameraTarget := (env.clamped
        (env.toMap ((env.toScreen s.cameraTarget).add ⟨20, 0⟩))
        (env.mapPixelSize s.log state)) }) ∧
    handleKeyEvent env s Key.Down state =
      (true, { s with cameraTarget := (env.clamped
        (env.toMap ((env.toScreen s.cameraTarget).add ⟨0, -20⟩))
        (env.mapPixelSize s.log state)) }) ∧
    handleKeyEvent env s Key.Up state =
      (true, { s with cameraTarget := (env.clamped
        (env.toMap ((env.toScreen s.cameraTarget).add ⟨0, 20⟩))
        (env.mapPixelSize s.log state)) }) ∧
    (∀ code, handleKeyEvent env s (Key.Other code) state = (false, s)) := by
  refine ⟨?_, ?_, ?_, ?_, fun _ => rfl⟩ <;>
    simp [handleKeyEvent, ScreenPos.add, Int.sub_eq_add_neg]

/-- C20: if some icon button claims the mouse press, or the press is not a left-button
press with `y < 800`, or the unit layer's `onLeftClick` accepts it, then
`handleMousePress` leaves the drag state (start, current point, active flag) unchanged;
and when a button claims the press the unit layer is not consulted at all: the only calls
are the `onMousePressed` of the buttons. -/
theorem press_keeps_drag (env : Env) (s : Engine) (position : ScreenPos) (button : MouseButton)
    (state : StateId)
    (h : (∃ i, i < s.buttons.length ∧
        env.boolOf (s.log ++ pressCalls position i) (Call.buttonOnMousePressed i position) = true) ∨
      ¬ (position.y < 800 ∧ button = MouseButton.LeftButton) ∨
      env.boolOf (s.log ++ pressCalls position s.buttons.length)
        (Call.onLeftClick state position s.cameraTarget) = true) :
    (handleMousePress env s position button state).2.selectionStart = s.selectionStart ∧
    (handleMousePress env s position button state).2.selectionCurr = s.selectionCurr ∧
    (handleMousePress env s position button state).2.selecting = s.selecting ∧
    ((∃ i, i < s.buttons.length ∧
        env.boolOf (s.log ++ pressCalls position i) (Call.buttonOnMousePressed i position) = true) →
      handleMousePress env s position button state =
        (true, s.withLog (s.log ++ pressCalls position s.buttons.length))) := by
  have h2 : (pressButtons env s position).2 =
      s.withLog (s.log ++ pressCalls position s.buttons.length) :=
    pressFold_snd env s position s.buttons.length
  have h1 := pressFold_fst env s position s.buttons.length
  have hclaim : (∃ i, i < s.buttons.length ∧
        env.boolOf (s.log ++ pressCalls position i) (Call.buttonOnMousePressed i position) = true) →
      handleMousePress env s position button state =
        (true, s.withLog (s.log ++ pressCalls position s.buttons.length)) := by
    intro hc
    have hp : (pressButtons env s position).1 = true := h1.mpr hc
    simp [handleMousePress, hp, h2]
  by_cases hp : (pressButtons env s position).1 = true
  · have he := hclaim (h1.mp hp)
    refine ⟨?_, ?_, ?_, hclaim⟩ <;> rw [he] <;> rfl
  · have hno : ¬ ∃ i, i < s.buttons.length ∧
        env.boolOf (s.log ++ pressCalls position i)
          (Call.buttonOnMousePressed i position) = true := fun hc => hp (h1.mpr hc)
    rcases h with hc | hnot | hunit
    · exact absurd hc hno
    · refine ⟨?_, ?_, ?_, hclaim⟩ <;>
        simp [handleMousePress, hp, h2, hnot, Engine.withLog]
    · refine ⟨?_, ?_, ?_, hclaim⟩ <;>
        by_cases hl : position.y < 800 ∧ button = MouseButton.LeftButton <;>
        simp [handleMousePress, hp, h2, hl, callB, hunit, Engine.withLog, Engine.call]

/-- Witness for C20: the second button claims a left press at (100,100) made during a
drag; the drag is as before and the history holds the two button calls only. -/
theorem press_keeps_drag_witness :
    (handleMousePress buttonClaimsPressEnv draggingEngine ⟨100, 100⟩ MouseButton.LeftButton
      0).2.selectionStart = ⟨100, 100⟩ ∧
    (handleMousePress buttonClaimsPressEnv draggingEngine ⟨100, 100⟩ MouseButton.LeftButton
      0).2.log = [Call.buttonOnMousePressed 0 ⟨100, 100⟩, Call.buttonOnMousePressed 1 ⟨100, 100⟩] :=
  ⟨(press_keeps_drag buttonClaimsPressEnv draggingEngine ⟨100, 100⟩ MouseButton.LeftButton 0
      (Or.inl ⟨1, by decide, rfl⟩)).1,
    congrArg (fun r => r.2.log)
      ((press_keeps_drag buttonClaimsPressEnv draggingEngine ⟨100, 100⟩ MouseButton.LeftButton 0
        (Or.inl ⟨1, by decide, rfl⟩)).2.2.2 ⟨1, by decide, rfl⟩)⟩

/-! ### Soft expiry of message lines -/

theorem drain_visibleText (env : Env) (state : StateId) (events : List Event) (s : Engine) :
    (drain env s state events).visibleText = s.visibleText := by
  rw [drain_withCore]
  rfl

theorem tick_visibleText (env : Env) (s : Engine) (state : StateId) :
    (tick env s state).2.visibleText = s.visibleText := by
  unfold tick
  simp only [callB, readClock]
  split_ifs <;> rfl

theorem updateCamera_visibleText (env : Env) (s : Engine) (state : StateId) :
    (updateCamera env s state).2.visibleText = s.visibleText := by
  unfold updateCamera
  simp only [readClock]
  split_ifs <;> rfl

theorem updateUi_visibleText (env : Env) (s : Engine) (state : StateId) :
    (updateUi env s state).2.visibleText = s.visibleText := by
  unfold updateUi
  simp only [callB, readClock]
  exact updateCamera_visibleText env _ state

theorem refreshSelection_visibleText (env : Env) (s : Engine) :
    (refreshSelection env s).2.visibleText = s.visibleText := by
  unfold refreshSelection
  dsimp only
  split_ifs <;> rfl

theorem render_visibleText (env : Env) (s : Engine) (state : StateId) (t : Int) :
    (render env s state t).visibleText = s.visibleText := by
  unfold render
  simp only [drawScene_eq, drawUi_eq, readClock, Engine.call]
  split_ifs <;> rfl

theorem rebind_visibleText (env : Env) (s : Engine) :
    (rebind env s).visibleText = s.visibleText := by
  unfold rebind
  dsimp only
  split_ifs <;> rfl

/-- A frame never touches the message lines. -/
theorem frame_visibleText (env : Env) (s : Engine) (events : List Event) :
    (frame env s events).visibleText = s.visibleText := by
  have h1 : ∀ (u : Engine) (state : StateId) (t : Int) (b : Bool),
      (frameTail env u state t b).visibleText = u.visibleText := by
    intro u state t b
    unfold frameTail
    dsimp only
    split_ifs
    · exact (render_visibleText env _ state t).trans
        ((refreshSelection_visibleText env _).trans (updateUi_visibleText env _ state))
    · exact (refreshSelection_visibleText env _).trans (updateUi_visibleText env _ state)
  unfold frame frameRest
  dsimp only
  rw [h1, tick_visibleText, drain_visibleText]
  exact rebind_visibleText env s

theorem run_visibleText (env : Env) (schedule : List (List Event)) :
    ∀ s : Engine, (run env s schedule).visibleText = s.visibleText := by
  induction schedule with
  | nil => intro s; rfl
  | cons events rest ih =>
    intro s
    simp only [run]
    split_ifs
    · rw [ih, frame_visibleText]
    · rfl

theorem drawUiCalls_noMessage (s : Engine) :
    ∀ c ∈ drawUiCalls s, c.isMessageDraw = false := by
  unfold drawUiCalls
  simp only [List.forall_mem_append, List.forall_mem_cons]
  refine ⟨⟨⟨?_, ?_⟩, ?_⟩, ?_⟩
  · split_ifs
    · simp only [List.forall_mem_cons]
      exact ⟨rfl, by simp⟩
    · simp
  · exact ⟨rfl, by simp⟩
  · intro c hc
    simp only [buttonRenderCalls, List.mem_map] at hc
    obtain ⟨i, _, rfl⟩ := hc
    rfl
  · refine ⟨rfl, rfl, rfl, rfl, rfl, rfl, rfl, rfl, rfl, by simp⟩

/-- Slot `i` is drawn by the message loop exactly when its line has not expired. -/
theorem mem_messageCalls (t : Int) (lines : List MessageLine) (i : Nat) (line : MessageLine)
    (h : lines[i]? = some line) :
    Call.drawMessageLine i line.string ∈ messageCalls t lines.enum ↔ ¬ line.endTime < t := by
  simp only [messageCalls, List.mem_map, List.mem_filter, Bool.not_eq_true', decide_eq_false_iff_not]
  constructor
  · rintro ⟨⟨j, l⟩, ⟨hmem, hlive⟩, heq⟩
    have hj : j = i := by
      simp only [Call.drawMessageLine, Call.render.injEq, RenderCall.drawMessageLine.injEq] at heq
      exact heq.1
    subst hj
    have hl := List.mk_mem_enum_iff_getElem?.mp hmem
    rw [h] at hl
    cases hl
    exact hlive
  · intro hlive
    exact ⟨(i, line), ⟨List.mk_mem_enum_iff_getElem?.mpr h, hlive⟩, rfl⟩


/-- C17: `drawUi` draws a message line exactly when its expiry is not earlier than the
clock value it reads (lines with expiry < now are skipped), and drawing changes no line's
text or expiry. Frames never change the lines either, so an expired line keeps its slot,
text and expiry through any run of frames; only `addMessage` moves it, shifting every line
one slot up whatever its expiry. Expiry thus affects visibility only. -/
theorem soft_expiry (env : Env) (s : Engine) :
    (drawUi env s).log = s.log ++ drawUiCalls s ++ [Call.clock] ++
      messageCalls (env.clock (s.log ++ drawUiCalls s)) s.visibleText.enum ++
      [Call.cursorRender] ∧
    (∀ i line, s.visibleText[i]? = some line →
      (Call.drawMessageLine i line.string ∈ (drawUi env s).log.drop s.log.length ↔
        ¬ line.endTime < env.clock (s.log ++ drawUiCalls s))) ∧
    (drawUi env s).visibleText = s.visibleText ∧
    (∀ schedule, (run env s schedule).visibleText = s.visibleText) ∧
    (0 < env.numMessagesLines → s.visibleText.length = env.numMessagesLines → ∀ m,
      (addMessage env s m).visibleText =
        s.visibleText.tail ++ [⟨m, env.clock s.log + env.messageTimeout⟩]) := by
  have hlog : (drawUi env s).log = s.log ++ drawUiCalls s ++ [Call.clock] ++
      messageCalls (env.clock (s.log ++ drawUiCalls s)) s.visibleText.enum ++
      [Call.cursorRender] := by
    rw [drawUi_eq]
    simp [Engine.withLog, drawUiLog]
  refine ⟨hlog, ?_, ?_, fun schedule => run_visibleText env schedule s,
    fun hN hlen m => addMessage_visibleText env s m hN hlen⟩
  · intro i line hline
    rw [hlog]
    simp only [List.append_assoc, List.drop_left, List.mem_append, List.mem_singleton,
      List.mem_cons]
    rw [← mem_messageCalls _ s.visibleText i line hline]
    constructor
    · rintro (h | h | h | h)
      · exact absurd (drawUiCalls_noMessage s _ h) (by simp [Call.isMessageDraw])
      · rcases h with h | h
        · exact absurd (congrArg Call.isMessageDraw h) (by simp [Call.isMessageDraw])
        · cases h
      · exact h
      · rcases h with h | h
        · exact absurd (congrArg Call.isMessageDraw h) (by simp [Call.isMessageDraw])
        · cases h
    · intro h
      exact Or.inr (Or.inr (Or.inl h))
  · rw [drawUi_eq]
    rfl

/-- Witness for C17: of an expired line in slot 0 and a live line in slot 1, `drawUi`
draws the second only. -/
theorem soft_expiry_witness :
    Call.drawMessageLine 1 "new" ∈
      (drawUi quietEnv staleLineEngine).log.drop staleLineEngine.log.length ∧
    ¬ Call.drawMessageLine 0 "old" ∈
      (drawUi quietEnv staleLineEngine).log.drop staleLineEngine.log.length :=
  ⟨((soft_expiry quietEnv staleLineEngine).2.1 1 ⟨"new", 100000⟩ rfl).mpr (by decide),
    fun h => ((soft_expiry quietEnv staleLineEngine).2.1 0 ⟨"old", 0⟩ rfl).mp h (by decide)⟩

/-! ### Release precedence -/

/-- When no button carries the type `Invalid`, `clickedButton` differs from `Invalid` after
the release loop exactly when some button claimed the release. -/
theorem releaseFold_fst_claimed (env : Env) (s : Engine) (p : ScreenPos)
    (hinv : IconButtonType.Invalid ∉ s.buttons) (n : Nat) (hn : n ≤ s.buttons.length) :
    ((List.range n).foldl (releaseStep env p) (IconButtonType.Invalid, s)).1 ≠
        IconButtonType.Invalid ↔
      ∃ i, i < n ∧
        env.boolOf (s.log ++ releaseCalls p i) (Call.buttonOnMouseReleased i p) = true := by
  induction n with
  | zero => simp
  | succ n ih =>
    have ih2 := ih (Nat.le_of_succ_le hn)
    rw [List.range_succ, List.foldl_append]
    simp only [List.foldl_cons, List.foldl_nil, releaseStep, callB, releaseFold_snd]
    by_cases hb : env.boolOf (s.withLog (s.log ++ releaseCalls p n)).log
        (Call.buttonOnMouseReleased n p) = true
    · simp only [hb, if_true]
      have hlt : n < s.buttons.length := hn
      have hget : (s.withLog (s.log ++ releaseCalls p n)).buttons.getD n IconButtonType.Invalid =
          s.buttons.get ⟨n, hlt⟩ := by
        simp [Engine.withLog, List.getD_eq_getElem?_getD, List.getElem?_eq_getElem hlt]
      constructor
      · intro _
        exact ⟨n, Nat.lt_succ_self n, hb⟩
      · intro _ hc
        rw [hget] at hc
        exact hinv (hc ▸ List.get_mem s.buttons n hlt)
    · simp only [hb]
      rw [if_neg (by simp), ih2]
      constructor
      · rintro ⟨i, hi, h⟩
        exact ⟨i, Nat.lt_succ_of_lt hi, h⟩
      · rintro ⟨i, hi, h⟩
        rcases Nat.lt_succ_iff_lt_or_eq.mp hi with hlt | rfl
        · exact ⟨i, hlt, h⟩
        · exact absurd h hb

theorem showMenu_ext_of {P : Call → Prop} {l : History} (env : Env) (s : Engine)
    (h1 : P (Call.getUIFile "dlg_men.sin")) (h2 : P Call.getSlp)
    (h3 : P Call.dialogLoadBackground) (h : Ext P l s.log) :
    Ext P l (showMenu env s).log := by
  unfold showMenu
  simp only [callB]
  split_ifs <;> repeat' first | exact h | exact h1 | exact h2 | exact h3 | rfl | apply ext_call

/-- Opening the menu leaves the drag as it is. -/
theorem showMenu_drag (env : Env) (s : Engine) :
    (showMenu env s).selecting = s.selecting ∧
    (showMenu env s).selectionStart = s.selectionStart ∧
    (showMenu env s).selectionCurr = s.selectionCurr ∧
    (showMenu env s).selectionRect = s.selectionRect ∧
    (showMenu env s).cameraTarget = s.cameraTarget := by
  unfold showMenu
  simp only [callB]
  split_ifs <;> exact ⟨rfl, rfl, rfl, rfl, rfl⟩

theorem releaseCalls_neither (p : ScreenPos) (n : Nat) :
    ∀ c ∈ releaseCalls p n, neitherSelectNorCommand c := by
  intro c hc
  simp only [releaseCalls, List.mem_map] at hc
  obtain ⟨j, _, rfl⟩ := hc
  exact ⟨rfl, rfl⟩

theorem releaseCalls_noRightClick (p : ScreenPos) (n : Nat) :
    ∀ c ∈ releaseCalls p n, c.isRightClick = false :=
  fun c hc => (releaseCalls_neither p n c hc).2

/-- What `handleMouseRelease` does once the unit layer has declined or was not asked,
leaving the engine `s0`. If some button claims the release, it returns true, keeps the
drag and issues neither `selectUnits` nor `onRightClick`; otherwise it finalises an active
drag on a left release, issues the context command on a right release, and does nothing
more in any other case. -/
theorem release_after_unit (env : Env) (s s0 : Engine) (p : ScreenPos) (b : MouseButton)
    (state : StateId) (hinv : IconButtonType.Invalid ∉ s0.buttons)
    (hunit : (if p.y < 800 ∧ b = MouseButton.LeftButton then
        callB env s (Call.onMouseRelease state) else (false, s)) = (false, s0)) :
    ((∃ i, i < s0.buttons.length ∧
        env.boolOf (s0.log ++ releaseCalls p i) (Call.buttonOnMouseReleased i p) = true) →
      (handleMouseRelease env s p b state).1 = true ∧
      (handleMouseRelease env s p b state).2.selecting = s0.selecting ∧
      (handleMouseRelease env s p b state).2.selectionStart = s0.selectionStart ∧
      (handleMouseRelease env s p b state).2.selectionCurr = s0.selectionCurr ∧
      (handleMouseRelease env s p b state).2.selectionRect = s0.selectionRect ∧
      Ext neitherSelectNorCommand s0.log (handleMouseRelease env s p b state).2.log) ∧
    ((¬ ∃ i, i < s0.buttons.length ∧
        env.boolOf (s0.log ++ releaseCalls p i) (Call.buttonOnMouseReleased i p) = true) →
      handleMouseRelease env s p b state =
        if s0.selecting ∧ b = MouseButton.LeftButton then
          (true, { (s0.withLog (s0.log ++ releaseCalls p s0.buttons.length ++
              [Call.selectUnits state s0.selectionRect s0.cameraTarget])) with
            selectionRect := ScreenRect.empty, selecting := false })
        else if b = MouseButton.RightButton then
          (false, s0.withLog (s0.log ++ releaseCalls p s0.buttons.length ++
            [Call.onRightClick state p s0.cameraTarget]))
        else (false, s0.withLog (s0.log ++ releaseCalls p s0.buttons.length))) := by
  have h2 : (releaseButtons env s0 p).2 = s0.withLog (s0.log ++ releaseCalls p s0.buttons.length) :=
    releaseFold_snd env s0 p s0.buttons.length
  have h1 := releaseFold_fst_claimed env s0 p hinv s0.buttons.length le_rfl
  have hext : Ext neitherSelectNorCommand s0.log
      (s0.withLog (s0.log ++ releaseCalls p s0.buttons.length)).log :=
    (Ext.refl _ _).append (releaseCalls_neither p _)
  constructor
  · intro hclaim
    have h3 : (releaseButtons env s0 p).1 ≠ IconButtonType.Invalid := h1.mpr hclaim
    unfold handleMouseRelease
    simp only [hunit, Bool.false_eq_true, if_false]
    rw [if_pos h3, h2]
    by_cases hm : (releaseButtons env s0 p).1 = IconButtonType.GameMenu
    · simp only [hm, if_true]
      have hd := showMenu_drag env (s0.withLog (s0.log ++ releaseCalls p s0.buttons.length))
      exact ⟨trivial, hd.1, hd.2.1, hd.2.2.1, hd.2.2.2.1,
        showMenu_ext_of env _ ⟨rfl, rfl⟩ ⟨rfl, rfl⟩ ⟨rfl, rfl⟩ hext⟩
    · simp only [hm, if_false]
      exact ⟨trivial, rfl, rfl, rfl, rfl, hext⟩
  · intro hclaim
    have h3 : (releaseButtons env s0 p).1 = IconButtonType.Invalid := by
      by_contra hne
      exact hclaim (h1.mp hne)
    unfold handleMouseRelease
    simp only [hunit, Bool.false_eq_true, if_false, h3, h2]
    simp only [ne_eq, not_true_eq_false, if_false, reduceCtorEq]
    split_ifs <;> simp_all [Engine.withLog, Engine.call]

/-- C16: a release claimed by the unit layer's `onMouseRelease` (asked only for a left
release with `y < 800`) reaches neither the icon buttons nor drag finalisation: the unit
layer's call is the only one and the engine is otherwise unchanged. A release the unit
layer did not claim but an icon button claims returns true, leaves the drag as it was and
issues neither `selectUnits` nor `onRightClick`. And `onRightClick` is called exactly for a
right-button release claimed by none of them (a right release never finalises a drag); in
that case it is the last call, the engine is otherwise unchanged and `handleMouseRelease`
returns false. The buttons carry the types given by `loadTopButtons`, none of which is
`Invalid`. -/
theorem release_precedence (env : Env) (s : Engine) (position : ScreenPos)
    (button : MouseButton) (state : StateId) (hinv : IconButtonType.Invalid ∉ s.buttons) :
    let asked : List Call :=
      if position.y < 800 ∧ button = MouseButton.LeftButton then [Call.onMouseRelease state]
      else []
    let unitClaims : Prop := position.y < 800 ∧ button = MouseButton.LeftButton ∧
      env.boolOf s.log (Call.onMouseRelease state) = true
    let buttonClaims : Prop := ∃ i, i < s.buttons.length ∧
      env.boolOf (s.log ++ asked ++ releaseCalls position i)
        (Call.buttonOnMouseReleased i position) = true
    let out := handleMouseRelease env s position button state
    (unitClaims → out = (true, s.call (Call.onMouseRelease state))) ∧
    (¬ unitClaims → buttonClaims →
      out.1 = true ∧ out.2.selecting = s.selecting ∧ out.2.selectionStart = s.selectionStart ∧
      out.2.selectionCurr = s.selectionCurr ∧ out.2.selectionRect = s.selectionRect ∧
      ∀ c ∈ out.2.log.drop s.log.length, c.isSelectUnits = false ∧ c.isRightClick = false) ∧
    ((∃ c ∈ out.2.log.drop s.log.length, c.isRightClick = true) ↔
      button = MouseButton.RightButton ∧ ¬ unitClaims ∧ ¬ buttonClaims) ∧
    (button = MouseButton.RightButton → ¬ buttonClaims →
      out = (false, s.withLog (s.log ++ releaseCalls position s.buttons.length ++
        [Call.onRightClick state position s.cameraTarget]))) := by
  intro asked unitClaims buttonClaims out
  by_cases hu : unitClaims
  · have hc : position.y < 800 ∧ button = MouseButton.LeftButton := ⟨hu.1, hu.2.1⟩
    have hout : out = (true, s.call (Call.onMouseRelease state)) := by
      simp only [out, handleMouseRelease, hc, callB, hu.2.2, and_self, if_true]
    refine ⟨fun _ => hout, fun h => absurd hu h, ⟨?_, fun h => absurd hu h.2.1⟩, ?_⟩
    · rintro ⟨c, hcm, hr⟩
      rw [hout] at hcm
      simp only [Engine.call, List.drop_left, List.mem_singleton] at hcm
      subst hcm
      cases hr
    · intro hr
      rw [hu.2.1] at hr
      cases hr
  · have hunit : (if position.y < 800 ∧ button = MouseButton.LeftButton then
        callB env s (Call.onMouseRelease state) else (false, s)) =
        (false, s.withLog (s.log ++ asked)) := by
      by_cases hc : position.y < 800 ∧ button = MouseButton.LeftButton
      · have hb : env.boolOf s.log (Call.onMouseRelease state) = false := by
          rw [Bool.eq_false_iff]
          exact fun h => hu ⟨hc.1, hc.2, h⟩
        simp only [asked, hc, and_self, if_true, callB, hb]
        rfl
      · simp only [asked, hc, if_false, List.append_nil]
        rfl
    have H := release_after_unit env s (s.withLog (s.log ++ asked)) position button state
      hinv hunit
    have hasked : ∀ c ∈ asked, neitherSelectNorCommand c := by
      intro c hc
      simp only [asked] at hc
      split_ifs at hc
      · rw [List.mem_singleton] at hc
        subst hc
        exact ⟨rfl, rfl⟩
      · cases hc
    by_cases hbc : buttonClaims
    · obtain ⟨h1, h2, h3, h4, h5, d, hd, hP⟩ := H.1 hbc
      have hdrop : out.2.log.drop s.log.length = asked ++ d := by
        show (handleMouseRelease env s position button state).2.log.drop s.log.length = _
        rw [hd]
        simp only [Engine.withLog, List.append_assoc, List.drop_left]
      have hall : ∀ c ∈ out.2.log.drop s.log.length, neitherSelectNorCommand c := by
        rw [hdrop]
        intro c hc
        rcases List.mem_append.mp hc with h | h
        · exact hasked c h
        · exact hP c h
      refine ⟨fun h => absurd h hu, fun _ _ => ⟨h1, h2, h3, h4, h5, hall⟩,
        ⟨?_, fun h => absurd hbc h.2.2⟩, fun _ h => absurd hbc h⟩
      rintro ⟨c, hcm, hr⟩
      rw [(hall c hcm).2] at hr
      cases hr
    · have hout : out = _ := H.2 hbc
      refine ⟨fun h => absurd h hu, fun _ h => absurd h hbc, ?_, ?_⟩
      · by_cases hr : button = MouseButton.RightButton
        · have hnl : ¬ (position.y < 800 ∧ button = MouseButton.LeftButton) := by
            rw [hr]
            simp
          have hnl2 : ¬ ((s.withLog (s.log ++ asked)).selecting = true ∧
              button = MouseButton.LeftButton) := by
            rw [hr]
            simp
          rw [if_neg hnl2, if_pos hr] at hout
          constructor
          · intro _
            exact ⟨hr, hu, hbc⟩
          · intro _
            refine ⟨Call.onRightClick state position s.cameraTarget, ?_, rfl⟩
            rw [hout]
            simp [Engine.withLog]
        · constructor
          · rintro ⟨c, hcm, hrc⟩
            exfalso
            rw [hout] at hcm
            split_ifs at hcm
            all_goals
              simp only [Engine.withLog, List.append_assoc, List.drop_left, List.mem_append,
                List.mem_singleton] at hcm
              have hcm2 : c ∈ asked ∨ c ∈ releaseCalls position s.buttons.length ∨
                  c = Call.selectUnits state s.selectionRect s.cameraTarget := by tauto
              rcases hcm2 with h | h | h
              · rw [(hasked c h).2] at hrc
                cases hrc
              · rw [releaseCalls_noRightClick _ _ c h] at hrc
                cases hrc
              · subst h
                cases hrc
          · intro h
            exact absurd h.1 hr
      · intro hr _
        have hnl : ¬ (position.y < 800 ∧ button = MouseButton.LeftButton) := by
          rw [hr]
          simp
        have hnl2 : ¬ ((s.withLog (s.log ++ asked)).selecting = true ∧
            button = MouseButton.LeftButton) := by
          rw [hr]
          simp
        rw [if_neg hnl2, if_pos hr] at hout
        rw [hout]
        simp only [asked, hnl, if_false, List.append_nil]
        rfl

/-- Witness for C16: a right release at (100,100) during a drag that nobody claims issues
the context command after the two button calls, returns false and leaves the drag. -/
theorem release_precedence_witness :
    handleMouseRelease quietEnv draggingEngine ⟨100, 100⟩ MouseButton.RightButton 0 =
      (false, draggingEngine.withLog ([] ++ releaseCalls ⟨100, 100⟩ 2 ++
        [Call.onRightClick 0 ⟨100, 100⟩ ⟨2400, 2400, 0⟩])) :=
  (release_precedence quietEnv draggingEngine ⟨100, 100⟩ MouseButton.RightButton 0
    (by decide)).2.2.2 rfl (by decide)

/-! ### Drag anchoring under camera pan -/

/-- C18 fails at a map edge: with the camera target on the left edge and a scroll to the
left during a drag, `updateCamera` leaves the camera target where it was (the clamp takes
the 16-pixel step back) but still shifts the drag start by the unclamped step, from
(100,100) to (116,100); the world position under the drag start moves with it. -/
theorem drag_start_drifts_at_map_edge :
    (updateCamera quietEnv edgeDragEngine 0).1 = true ∧
    (updateCamera quietEnv edgeDragEngine 0).2.cameraTarget = edgeDragEngine.cameraTarget ∧
    edgeDragEngine.selectionStart = ⟨100, 100⟩ ∧
    (updateCamera quietEnv edgeDragEngine 0).2.selectionStart = ⟨116, 100⟩ ∧
    quietEnv.absoluteMapPos edgeDragEngine.cameraTarget edgeDragEngine.selectionStart =
      ⟨100, 2500, 0⟩ ∧
    quietEnv.absoluteMapPos (updateCamera quietEnv edgeDragEngine 0).2.cameraTarget
      (updateCamera quietEnv edgeDragEngine 0).2.selectionStart = ⟨116, 2500, 0⟩ := by
  decide

/-- What `updateCamera` does to an active drag, clamp or no clamp: the start point moves by
the raw step `(-dX * dt, +dY * dt)`, while the camera target becomes the clamped image of
its screen position moved by `(dX * dt, dY * dt)`. -/
theorem updateCamera_drag_start (env : Env) (s : Engine) (state : StateId)
    (hsel : s.selecting = true) (hmove : ¬ (s.cameraDeltaX = 0 ∧ s.cameraDeltaY = 0)) :
    (updateCamera env s state).2.selectionStart =
      ⟨s.selectionStart.x - s.cameraDeltaX * (env.clock s.log - s.lastUpdate),
        s.selectionStart.y + s.cameraDeltaY * (env.clock s.log - s.lastUpdate)⟩ ∧
    (updateCamera env s state).2.cameraTarget =
      env.clamped (env.toMap
        ⟨(env.toScreen s.cameraTarget).x + s.cameraDeltaX * (env.clock s.log - s.lastUpdate),
          (env.toScreen s.cameraTarget).y + s.cameraDeltaY * (env.clock s.log - s.lastUpdate)⟩)
        (env.mapPixelSize (s.log ++ [Call.clock]) state) := by
  simp [updateCamera, hmove, readClock, Engine.call, hsel, CAMERA_SPEED]

theorem updateCamera_drag_start_witness :
    (updateCamera quietEnv edgeDragEngine 0).2.selectionStart =
      ⟨100 - -1 * (0 - -16), 100 + 0 * (0 - -16)⟩ :=
  (updateCamera_drag_start quietEnv edgeDragEngine 0 rfl (by decide)).1

/-! ### Unclaimed events -/

/-- C13: the calls of one frame iteration occur in a fixed order. After the rebinding of
the widgets (on a change of the active state) and the clock read that opens the frame come
all event dispatches, then the simulation tick (if any: a clock read and the state's
`update`), then the cursor `setPosition` and the widget updates; then, only if something
was updated, the redraw: clear, map renderer, visible-entity query and sprites, state
draw, the modal dialog (if present), the win/loss overlay (if the result is not
`Running`), the user interface of `drawUi` ending with the cursor, a clock read for the
frame rate and the present. A frame in which nothing was updated ends with a 16 ms sleep
instead. -/
theorem frame_order (env : Env) (s : Engine) (events : List Event) :
    let state := env.activeState s.log
    let start := readClock env (rebind env s)
    let drained := drain env start.2 state events
    let ticked := tick env drained state
    let cursor := callB env ticked.2 (Call.cursorSetPosition ticked.2.mousePos)
    let ui := updateUi env cursor.2 state
    let sel := refreshSelection env ui.2
    let updated := sel.1 || (ui.1 || (cursor.1 || (ticked.1 || !events.isEmpty)))
    ∃ (dispatches updates : List Call) (t : Int),
      (∀ c ∈ dispatches, c.phase = Phase.input) ∧
      (∀ c ∈ updates, c.phase = Phase.update ∨ c.phase = Phase.clock) ∧
      start.2.log = s.log ++
        (if s.state = some state then [] else rebindCalls state) ++ [Call.clock] ∧
      drained.log = start.2.log ++ dispatches ∧
      ticked.2.log = drained.log ++
        (if !drained.currentDialog ∧ env.result drained.log state = Result.Running then
          [Call.clock, Call.stateUpdate state (env.clock drained.log)] else []) ∧
      sel.2.log = ticked.2.log ++ Call.cursorSetPosition ticked.2.mousePos :: updates ∧
      (frame env s events).log = sel.2.log ++
        (if updated then
          [Call.clear, Call.mapRendererDisplay, Call.entitiesBetween state,
            Call.unitManagerRender state, Call.stateDraw state] ++
          (if sel.2.currentDialog then [Call.dialogRender] else []) ++
          (if env.result (sel.2.log ++ sceneCalls sel.2 state) state ≠ Result.Running then
            [Call.drawResultOverlay sel.2.resultOverlayString sel.2.resultOverlayPos]
            else []) ++
          drawUiCalls sel.2 ++ [Call.clock] ++ messageCalls t sel.2.visibleText.enum ++
          [Call.cursorRender, Call.clock, Call.windowUpdate]
        else [Call.sleep 16]) := by
  intro state start drained ticked cursor ui sel updated
  have hframe : frame env s events =
      if updated then render env sel.2 state start.1
      else sel.2.call (Call.sleep (Int.tdiv 1000 60)) := rfl
  obtain ⟨dispatches, hd, hdP⟩ := drain_ext env state events start.2 (Ext.refl isInput _)
  obtain ⟨updates, hu, huP⟩ := updateUi_ext env cursor.2 state (Ext.refl isUpdate _)
  refine ⟨dispatches, updates,
    env.clock ((sel.2.withLog (sel.2.log ++ sceneCalls sel.2 state ++
      overlayCalls env sel.2 state)).log ++
      drawUiCalls (sel.2.withLog (sel.2.log ++ sceneCalls sel.2 state ++
        overlayCalls env sel.2 state))), hdP, huP, ?_, hd, tick_log env drained state, ?_, ?_⟩
  · show (rebind env s).log ++ [Call.clock] = _
    rw [rebind_log]
  · show (refreshSelection env ui.2).2.log = _
    rw [refreshSelection_log]
    show (updateUi env cursor.2 state).2.log = _
    rw [hu]
    simp [cursor, callB, Engine.call]
  · rw [hframe]
    by_cases hup : updated = true
    · rw [if_pos hup, if_pos hup, render_log]
      simp only [renderLog, drawUiLog, sceneCalls, overlayCalls, drawUiCalls, Engine.withLog,
        List.append_assoc, List.cons_append, List.nil_append]
    · rw [if_neg hup, if_neg hup]
      have h16 : Int.tdiv 1000 60 = 16 := by decide
      rw [h16]
      rfl

/-! ### Widget update -/

/-- The calls of one `updateUi`, whatever the widgets answer. -/
theorem updateUi_log_shape (env : Env) (s : Engine) (state : StateId) :
    ∃ (w f g st p pm t : Int) (cam : List Call),
      (cam = [] ∨ cam = [Call.clock]) ∧
      (updateUi env s state).2.log = s.log ++
        [Call.clock, Call.labelSetValue Label.wood w, Call.labelSetValue Label.food f,
          Call.labelSetValue Label.gold g, Call.labelSetValue Label.stone st,
          Call.labelSetValue Label.population p, Call.labelSetMaxValue Label.population pm,
          Call.cursorUpdate state, Call.clock, Call.mapRendererUpdate t] ++ cam ++
        [Call.minimapUpdate (env.clock s.log - s.lastUpdate),
          Call.actionPanelUpdate (env.clock s.log - s.lastUpdate),
          Call.unitInfoPanelUpdate (env.clock s.log - s.lastUpdate), Call.clock] := by
  unfold updateUi
  simp only [callB, readClock, Engine.call, updateCamera_log]
  simp only [List.append_assoc, List.cons_append, List.nil_append, List.singleton_append]
  exact ⟨_, _, _, _, _, _, _, _, by split_ifs <;> simp, rfl⟩

/-- C21: `updateUi` returns true exactly when at least one of its constituent updates (the
four resource labels' `setValue`, the population label's `setValue` and `setMaxValue`, the
mouse cursor, the map renderer, `updateCamera`, minimap, action panel, unit-info panel)
returned true; and whatever the answers are, every one of them is invoked exactly once, in
source order: the calls of one `updateUi` are always the same twelve updates (the camera
update showing as its clock read when the camera moves) between the opening and the
closing clock read. -/
theorem updateUi_or_of_all (env : Env) (s : Engine) (state : StateId) :
    let t0 := readClock env s
    let wood := callB env t0.2 (Call.labelSetValue Label.wood
      (env.resourcesAvailable t0.2.log state ResourceType.WoodStorage))
    let food := callB env wood.2 (Call.labelSetValue Label.food
      (env.resourcesAvailable wood.2.log state ResourceType.FoodStorage))
    let gold := callB env food.2 (Call.labelSetValue Label.gold
      (env.resourcesAvailable food.2.log state ResourceType.GoldStorage))
    let stone := callB env gold.2 (Call.labelSetValue Label.stone
      (env.resourcesAvailable gold.2.log state ResourceType.StoneStorage))
    let pop := callB env stone.2 (Call.labelSetValue Label.population
      (env.resourcesUsed stone.2.log state ResourceType.PopulationHeadroom))
    let popMax := callB env pop.2 (Call.labelSetMaxValue Label.population
      (env.resourcesAvailable pop.2.log state ResourceType.PopulationHeadroom))
    let cursor := callB env popMax.2 (Call.cursorUpdate state)
    let t1 := readClock env cursor.2
    let mapRenderer := callB env t1.2 (Call.mapRendererUpdate t1.1)
    let camera := updateCamera env mapRenderer.2 state
    let minimap := callB env camera.2 (Call.minimapUpdate (t0.1 - s.lastUpdate))
    let actionPanel := callB env minimap.2 (Call.actionPanelUpdate (t0.1 - s.lastUpdate))
    let unitInfo := callB env actionPanel.2 (Call.unitInfoPanelUpdate (t0.1 - s.lastUpdate))
    ((updateUi env s state).1 = true ↔
      wood.1 = true ∨ food.1 = true ∨ gold.1 = true ∨ stone.1 = true ∨ pop.1 = true ∨
      popMax.1 = true ∨ cursor.1 = true ∨ mapRenderer.1 = true ∨ camera.1 = true ∨
      minimap.1 = true ∨ actionPanel.1 = true ∨ unitInfo.1 = true) ∧
    ∃ (w f g st p pm t : Int) (cam : List Call),
      (cam = [] ∨ cam = [Call.clock]) ∧
      (updateUi env s state).2.log = s.log ++
        [Call.clock, Call.labelSetValue Label.wood w, Call.labelSetValue Label.food f,
          Call.labelSetValue Label.gold g, Call.labelSetValue Label.stone st,
          Call.labelSetValue Label.population p, Call.labelSetMaxValue Label.population pm,
          Call.cursorUpdate state, Call.clock, Call.mapRendererUpdate t] ++ cam ++
        [Call.minimapUpdate (env.clock s.log - s.lastUpdate),
          Call.actionPanelUpdate (env.clock s.log - s.lastUpdate),
          Call.unitInfoPanelUpdate (env.clock s.log - s.lastUpdate), Call.clock] := by
  intro t0 wood food gold stone pop popMax cursor t1 mapRenderer camera minimap actionPanel
    unitInfo
  constructor
  · have h : (updateUi env s state).1 =
        (unitInfo.1 || (actionPanel.1 || (minimap.1 || (camera.1 || (mapRenderer.1 ||
          (cursor.1 || (popMax.1 || (pop.1 || (stone.1 || (gold.1 || (food.1 ||
            (wood.1 || false)))))))))))) := rfl
    rw [h]
    simp only [Bool.or_false, Bool.or_eq_true]
    constructor <;> intro h <;>
      rcases h with h | h | h | h | h | h | h | h | h | h | h | h <;>
      simp only [h, true_or, or_true]
  · exact updateUi_log_shape env s state

/-! ### Selection rectangle invariant -/

theorem showMenu_rectInvariant (env : Env) (s : Engine) (h : RectInvariant s) :
    RectInvariant (showMenu env s) := by
  unfold showMenu
  simp only [callB]
  split_ifs <;> exact h

theorem handleKeyEvent_rectInvariant (env : Env) (s : Engine) (key : Key) (state : StateId)
    (h : RectInvariant s) : RectInvariant (handleKeyEvent env s key state).2 := by
  cases key <;> exact h

theorem handleMouseMove_rectInvariant (env : Env) (s : Engine) (p : ScreenPos)
    (state : StateId) (h : RectInvariant s) :
    RectInvariant (handleMouseMove env s p state).2 := by
  unfold handleMouseMove
  dsimp only
  split_ifs <;> exact h

theorem handleMousePress_rectInvariant (env : Env) (s : Engine) (p : ScreenPos)
    (b : MouseButton) (state : StateId) (h : RectInvariant s) :
    RectInvariant (handleMousePress env s p b state).2 := by
  have h2 : (pressButtons env s p).2 = s.withLog (s.log ++ pressCalls p s.buttons.length) :=
    pressFold_snd env s p s.buttons.length
  unfold handleMousePress
  simp only [callB, h2]
  split_ifs <;> first
    | exact h
    | (intro hsel; cases hsel)

theorem handleMouseRelease_rectInvariant (env : Env) (s : Engine) (p : ScreenPos)
    (b : MouseButton) (state : StateId) (h : RectInvariant s) :
    RectInvariant (handleMouseRelease env s p b state).2 := by
  have h2 : ∀ s1 : Engine, (releaseButtons env s1 p).2 =
      s1.withLog (s1.log ++ releaseCalls p s1.buttons.length) :=
    fun s1 => releaseFold_snd env s1 p s1.buttons.length
  have hm : ∀ s1 : Engine, RectInvariant s1 → ∀ c, RectInvariant ((showMenu env s1).call c) :=
    fun s1 h1 _ => showMenu_rectInvariant env s1 h1
  unfold handleMouseRelease
  simp only [callB, h2]
  split_ifs <;> first
    | exact h
    | exact showMenu_rectInvariant env _ h
    | exact hm _ h _
    | exact fun _ => rfl

theorem handleEvent_rectInvariant (env : Env) (s : Engine) (e : Event) (state : StateId)
    (h : RectInvariant s) : RectInvariant (handleEvent env s e state).2 := by
  unfold handleEvent
  simp only [callB, Engine.closeWindow]
  split_ifs <;> (try dsimp only) <;> try split
  all_goals first
    | exact h
    | exact handleKeyEvent_rectInvariant env _ _ _ h
    | exact handleMousePress_rectInvariant env _ _ _ _ h
    | exact handleMouseRelease_rectInvariant env _ _ _ _ h
    | exact handleMouseMove_rectInvariant env _ _ _ h

theorem dispatch_rectInvariant (env : Env) (s : Engine) (state : StateId) (e : Event)
    (h : RectInvariant s) : RectInvariant (dispatch env s state e) := by
  unfold dispatch
  dsimp only
  split_ifs <;> exact handleEvent_rectInvariant env _ _ _ h

theorem drain_rectInvariant (env : Env) (state : StateId) (events : List Event) :
    ∀ s : Engine, RectInvariant s → RectInvariant (drain env s state events) := by
  induction events with
  | nil => intro s h; exact h
  | cons e es ih =>
    intro s h
    exact ih _ (dispatch_rectInvariant env s state e h)

theorem tick_rectInvariant (env : Env) (s : Engine) (state : StateId) (h : RectInvariant s) :
    RectInvariant (tick env s state).2 := by
  unfold tick
  simp only [callB, readClock]
  split_ifs <;> exact h

theorem updateCamera_rectInvariant (env : Env) (s : Engine) (state : StateId)
    (h : RectInvariant s) : RectInvariant (updateCamera env s state).2 := by
  unfold updateCamera
  simp only [readClock]
  split_ifs with h1 h2
  · exact h
  · intro hsel
    exact absurd (h2.symm.trans hsel) (by simp)
  · exact h

theorem updateUi_rectInvariant (env : Env) (s : Engine) (state : StateId)
    (h : RectInvariant s) : RectInvariant (updateUi env s state).2 := by
  unfold updateUi
  simp only [callB, readClock]
  exact updateCamera_rectInvariant env _ state h

theorem refreshSelection_rectInvariant (env : Env) (s : Engine) (h : RectInvariant s) :
    RectInvariant (refreshSelection env s).2 := by
  unfold refreshSelection
  dsimp only
  split_ifs with h1 h2
  · intro hsel
    exact absurd (h1.symm.trans hsel) (by simp)
  · exact h
  · exact h

theorem render_rectInvariant (env : Env) (s : Engine) (state : StateId) (t : Int)
    (h : RectInvariant s) : RectInvariant (render env s state t) := by
  unfold render
  simp only [drawScene_eq, drawUi_eq, readClock, Engine.call]
  split_ifs <;> exact h

theorem rebind_rectInvariant (env : Env) (s : Engine) (h : RectInvariant s) :
    RectInvariant (rebind env s) := by
  unfold rebind
  dsimp only
  split_ifs <;> exact h

theorem frame_rectInvariant (env : Env) (s : Engine) (events : List Event)
    (h : RectInvariant s) : RectInvariant (frame env s events) := by
  have h1 : ∀ (u : Engine) (state : StateId) (t : Int) (b : Bool), RectInvariant u →
      RectInvariant (frameTail env u state t b) := by
    intro u state t b hu
    have hs := refreshSelection_rectInvariant env _
      (updateUi_rectInvariant env (callB env u (Call.cursorSetPosition u.mousePos)).2 state hu)
    unfold frameTail
    dsimp only
    split_ifs
    · exact render_rectInvariant env _ state t hs
    · exact hs
  unfold frame frameRest
  dsimp only
  exact h1 _ _ _ _ (tick_rectInvariant env _ _
    (drain_rectInvariant env _ events _ (rebind_rectInvariant env s h)))

theorem run_rectInvariant (env : Env) (schedule : List (List Event)) :
    ∀ s : Engine, RectInvariant s → RectInvariant (run env s schedule) := by
  induction schedule with
  | nil => intro s h; exact h
  | cons events rest ih =>
    intro s h
    simp only [run]
    split_ifs
    · exact ih _ (frame_rectInvariant env s events h)
    · exact h

/-- C22: the selection rectangle invariant (no drag active implies the stored rectangle is
the empty default rectangle) is preserved by every event handler reached through
`handleEvent`, by `updateCamera`, by the frame loop's rectangle recomputation, and hence by
a whole frame and by any run of frames: started in a state that satisfies it, the engine
only reaches states in which the rectangle can be non-empty only while a drag is active. -/
theorem selection_rect_invariant (env : Env) (s : Engine)
    (h : s.selecting = false → s.selectionRect = ScreenRect.empty) :
    (∀ e state, (handleEvent env s e state).2.selecting = false →
      (handleEvent env s e state).2.selectionRect = ScreenRect.empty) ∧
    (∀ state, (updateCamera env s state).2.selecting = false →
      (updateCamera env s state).2.selectionRect = ScreenRect.empty) ∧
    ((refreshSelection env s).2.selecting = false →
      (refreshSelection env s).2.selectionRect = ScreenRect.empty) ∧
    (∀ events, (frame env s events).selecting = false →
      (frame env s events).selectionRect = ScreenRect.empty) ∧
    (∀ schedule, (run env s schedule).selecting = false →
      (run env s schedule).selectionRect = ScreenRect.empty) :=
  ⟨fun e state => handleEvent_rectInvariant env s e state h,
    fun state => updateCamera_rectInvariant env s state h,
    refreshSelection_rectInvariant env s h,
    fun events => frame_rectInvariant env s events h,
    fun schedule => run_rectInvariant env schedule s h⟩

/-- Witness for C22: an unclaimed left release during a drag ends the drag and leaves the
empty rectangle. -/
theorem selection_rect_invariant_witness :
    (handleEvent quietEnv draggingEngine (releaseAt ⟨150, 140⟩) 0).2.selectionRect =
      ScreenRect.empty :=
  (selection_rect_invariant quietEnv draggingEngine (fun h => absurd h (by decide))).1
    (releaseAt ⟨150, 140⟩) 0 (by decide)

/-! ### UI overlay fallback -/

/-- The loop of `loadUiOverlay` ends within `fallbackRounds` rounds. -/
theorem fallbackLoop_terminates (civs : UiCivs) (assets : OverlayAssets) :
    ∀ (fuel : Nat) (resolution : UiResolution) (civ : Nat),
      fallbackRounds civs resolution civ ≤ fuel →
      ∃ r, fallbackLoop civs assets fuel resolution civ = some r := by
  intro fuel
  induction fuel with
  | zero =>
    intro resolution civ h
    cases resolution <;> simp [fallbackRounds] at h
  | succ fuel ih =>
    intro resolution civ h
    unfold fallbackLoop
    split_ifs with hc
    · cases resolution
      · dsimp only
        cases assets UiResolution.Ui1024x768 civs.briton with
        | some o => exact ⟨_, rfl⟩
        | none =>
          exact ih _ _ (by simp only [fallbackRounds] at h ⊢; omega)
      · dsimp only
        cases assets UiResolution.Ui800x600 civs.briton with
        | some o => exact ⟨_, rfl⟩
        | none =>
          exact ih _ _ (by simp only [fallbackRounds] at h ⊢; omega)
      · exact ⟨_, rfl⟩
    · cases assets resolution (civ + 1) with
      | some o => exact ⟨_, rfl⟩
      | none =>
        dsimp only
        exact ih _ _ (by cases resolution <;> simp only [fallbackRounds] at h ⊢ <;> omega)

/-- `loadUiOverlay` always terminates: its loop never runs out of the fuel given to it. -/
theorem loadUiOverlay_terminates (civs : UiCivs) (assets : OverlayAssets)
    (uiOverlay : Option Size) : ∃ r, loadUiOverlay civs assets uiOverlay = some r := by
  unfold loadUiOverlay
  cases assets UiResolution.Ui1280x1024 civs.viking with
  | some o => exact ⟨_, rfl⟩
  | none =>
    dsimp only
    obtain ⟨r, hr⟩ := fallbackLoop_terminates civs assets (fallbackFuel civs)
      UiResolution.Ui1280x1024 civs.briton
      (by simp only [fallbackRounds, fallbackFuel]; omega)
    rw [hr]
    cases r with
    | some o => exact ⟨_, rfl⟩
    | none => exact ⟨_, rfl⟩

/-- When the only overlay of the asset layer is the one for (1280x1024, Briton), the loop
started at or after Briton never finds it. -/
theorem fallbackLoop_britonOnly (civs : UiCivs) :
    ∀ (fuel : Nat) (resolution : UiResolution) (civ : Nat),
      (resolution = UiResolution.Ui1280x1024 → civs.briton ≤ civ) →
      fallbackLoop civs (britonOnlyAssets civs) fuel resolution civ = none ∨
      fallbackLoop civs (britonOnlyAssets civs) fuel resolution civ = some none := by
  intro fuel
  induction fuel with
  | zero => intro resolution civ _; exact Or.inl rfl
  | succ fuel ih =>
    intro resolution civ h
    unfold fallbackLoop
    split_ifs with hc
    · cases resolution
      · simp only [britonOnlyAssets, reduceCtorEq, false_and, if_false]
        exact ih _ _ (fun h => by cases h)
      · simp only [britonOnlyAssets, reduceCtorEq, false_and, if_false]
        exact ih _ _ (fun h => by cases h)
      · exact Or.inr rfl
    · have hne : ¬ (resolution = UiResolution.Ui1280x1024 ∧ civ + 1 = civs.briton) := by
        rintro ⟨h1, h2⟩
        have := h h1
        omega
      simp only [britonOnlyAssets, hne, if_false]
      exact ih _ _ (fun h1 => Nat.le_succ_of_le (h h1))

/-- C23 fails: for every numbering of the civs in which Viking is not Briton, an asset
layer that has the overlay for (1280x1024, Briton) and no other makes `loadUiOverlay`
terminate with the UI overlay left as it was (unset, if it was unset): the loop advances
the civ before its first request, so Briton is never requested at the first resolution. -/
theorem overlay_fallback_skips_briton (civs : UiCivs) (hv : civs.viking ≠ civs.briton)
    (uiOverlay : Option Size) :
    britonOnlyAssets civs UiResolution.Ui1280x1024 civs.briton = some ⟨1280, 1024⟩ ∧
    loadUiOverlay civs (britonOnlyAssets civs) uiOverlay = some uiOverlay := by
  refine ⟨by simp [britonOnlyAssets], ?_⟩
  obtain ⟨r, hr⟩ := fallbackLoop_terminates civs (britonOnlyAssets civs) (fallbackFuel civs)
    UiResolution.Ui1280x1024 civs.briton
    (by simp only [fallbackRounds, fallbackFuel]; omega)
  have h2 := fallbackLoop_britonOnly civs (fallbackFuel civs) UiResolution.Ui1280x1024
    civs.briton (fun _ => le_rfl)
  have h3 : fallbackLoop civs (britonOnlyAssets civs) (fallbackFuel civs)
      UiResolution.Ui1280x1024 civs.briton = some none := by
    rcases h2 with h | h
    · rw [hr] at h
      cases h
    · exact h
  have h1 : britonOnlyAssets civs UiResolution.Ui1280x1024 civs.viking = none := by
    simp [britonOnlyAssets, hv]
  unfold loadUiOverlay
  rw [h1]
  dsimp only
  rw [h3]

/-- Witness for C23: with Briton = 1, Viking = 11 and Korean = 18 the overlay stays
unset although the asset layer has one for (1280x1024, Briton). -/
theorem overlay_fallback_skips_briton_witness :
    loadUiOverlay civNumbers (britonOnlyAssets civNumbers) none = some none :=
  (overlay_fallback_skips_briton civNumbers (by decide) none).2

/-- The loop of `loadUiOverlay` finds an overlay whenever one of the combinations still
ahead of it has one. -/
theorem fallbackLoop_finds (civs : UiCivs) (assets : OverlayAssets) :
    ∀ (fuel : Nat) (resolution : UiResolution) (civ : Nat),
      fallbackRounds civs resolution civ ≤ fuel →
      (∃ r c, Ahead civs resolution civ r c ∧ assets r c ≠ none) →
      ∃ o, fallbackLoop civs assets fuel resolution civ = some (some o) := by
  intro fuel
  induction fuel with
  | zero =>
    intro resolution civ h
    cases resolution <;> simp [fallbackRounds] at h
  | succ fuel ih =>
    intro resolution civ h ⟨r, c, ha, hex⟩
    unfold fallbackLoop
    split_ifs with hc
    · have hlater : resolution.rank < r.rank ∧ civs.briton ≤ c ∧ c ≤ civs.korean := by
        rcases ha with ⟨_, h1, h2⟩ | h3
        · omega
        · exact h3
      cases resolution
      · dsimp only
        cases hq : assets UiResolution.Ui1024x768 civs.briton with
        | some o => exact ⟨_, rfl⟩
        | none =>
          refine ih _ _ (by simp only [fallbackRounds] at h ⊢; omega) ⟨r, c, ?_, hex⟩
          cases r
          · simp [UiResolution.rank] at hlater
          · left
            refine ⟨rfl, ?_, hlater.2.2⟩
            rcases Nat.lt_or_ge civs.briton c with h1 | h1
            · exact h1
            · have : c = civs.briton := le_antisymm h1 hlater.2.1
              rw [this] at hex
              exact absurd hq hex
          · right
            exact ⟨by simp [UiResolution.rank], hlater.2⟩
      · dsimp only
        cases hq : assets UiResolution.Ui800x600 civs.briton with
        | some o => exact ⟨_, rfl⟩
        | none =>
          refine ih _ _ (by simp only [fallbackRounds] at h ⊢; omega) ⟨r, c, ?_, hex⟩
          cases r
          · simp [UiResolution.rank] at hlater
          · simp [UiResolution.rank] at hlater
          · left
            refine ⟨rfl, ?_, hlater.2.2⟩
            rcases Nat.lt_or_ge civs.briton c with h1 | h1
            · exact h1
            · have : c = civs.briton := le_antisymm h1 hlater.2.1
              rw [this] at hex
              exact absurd hq hex
      · cases r <;> simp [UiResolution.rank] at hlater
    · cases hq : assets resolution (civ + 1) with
      | some o => exact ⟨_, rfl⟩
      | none =>
        dsimp only
        refine ih _ _ (by cases resolution <;> simp only [fallbackRounds] at h ⊢ <;> omega)
          ⟨r, c, ?_, hex⟩
        rcases ha with ⟨h1, h2, h3⟩ | h3
        · left
          refine ⟨h1, ?_, h3⟩
          rcases Nat.lt_or_ge (civ + 1) c with h4 | h4
          · exact h4
          · have : c = civ + 1 := le_antisymm h4 h2
            rw [this, h1] at hex
            exact absurd hq hex
        · exact Or.inr h3

/-- What the fallback of `loadUiOverlay` does cover: if the asset layer has an overlay for
(1280x1024, Viking), or for any civ from Briton to Korean at any resolution other than the
combination (1280x1024, Briton), an overlay is found and installed. -/
theorem loadUiOverlay_finds (civs : UiCivs) (assets : OverlayAssets) (uiOverlay : Option Size)
    (r : UiResolution) (c : Nat)
    (hc : (r = UiResolution.Ui1280x1024 ∧ c = civs.viking) ∨
      (civs.briton ≤ c ∧ c ≤ civs.korean ∧ ¬ (r = UiResolution.Ui1280x1024 ∧ c = civs.briton)))
    (hex : assets r c ≠ none) :
    ∃ o, loadUiOverlay civs assets uiOverlay = some (some o) := by
  unfold loadUiOverlay
  cases hq : assets UiResolution.Ui1280x1024 civs.viking with
  | some o => exact ⟨_, rfl⟩
  | none =>
    dsimp only
    have hrange : civs.briton ≤ c ∧ c ≤ civs.korean ∧
        ¬ (r = UiResolution.Ui1280x1024 ∧ c = civs.briton) := by
      rcases hc with ⟨h1, h2⟩ | h
      · rw [h1, h2] at hex
        exact absurd hq hex
      · exact h
    obtain ⟨o, ho⟩ := fallbackLoop_finds civs assets (fallbackFuel civs)
      UiResolution.Ui1280x1024 civs.briton
      (by simp only [fallbackRounds, fallbackFuel]; omega)
      ⟨r, c, by
        cases r
        · left
          refine ⟨rfl, ?_, hrange.2.1⟩
          rcases Nat.lt_or_ge civs.briton c with h1 | h1
          · exact h1
          · exact absurd ⟨rfl, le_antisymm h1 hrange.1⟩ hrange.2.2
        · right
          exact ⟨by simp [UiResolution.rank], hrange.1, hrange.2.1⟩
        · right
          exact ⟨by simp [UiResolution.rank], hrange.1, hrange.2.1⟩, hex⟩
    rw [ho]
    exact ⟨_, rfl⟩

/-! ### Setup -/

/-- Without any overlay in the asset layer the loop of `loadUiOverlay` finds nothing. -/
theorem fallbackLoop_empty (civs : UiCivs) (assets : OverlayAssets)
    (hempty : ∀ r c, assets r c = none) :
    ∀ (fuel : Nat) (resolution : UiResolution) (civ : Nat),
      fallbackLoop civs assets fuel resolution civ = none ∨
      fallbackLoop civs assets fuel resolution civ = some none := by
  intro fuel
  induction fuel with
  | zero => intro resolution civ; exact Or.inl rfl
  | succ fuel ih =>
    intro resolution civ
    unfold fallbackLoop
    split_ifs with hc
    · cases resolution
      · simp only [hempty]
        exact ih _ _
      · simp only [hempty]
        exact ih _ _
      · exact Or.inr rfl
    · simp only [hempty]
      exact ih _ _

/-- Without any overlay in the asset layer `loadUiOverlay` leaves the overlay as it was. -/
theorem loadUiOverlay_empty (civs : UiCivs) (assets : OverlayAssets)
    (hempty : ∀ r c, assets r c = none) (uiOverlay : Option Size) :
    loadUiOverlay civs assets uiOverlay = some uiOverlay := by
  obtain ⟨r, hr⟩ := fallbackLoop_terminates civs assets (fallbackFuel civs)
    UiResolution.Ui1280x1024 civs.briton
    (by simp only [fallbackRounds, fallbackFuel]; omega)
  have h3 : fallbackLoop civs assets (fallbackFuel civs)
      UiResolution.Ui1280x1024 civs.briton = some none := by
    rcases fallbackLoop_empty civs assets hempty (fallbackFuel civs)
      UiResolution.Ui1280x1024 civs.briton with h | h
    · rw [hr] at h
      cases h
    · exact h
  unfold loadUiOverlay
  rw [hempty]
  dsimp only
  rw [h3]

/-- C24 fails for an absent overlay: when the state manager accepts the game state and the
asset layer has no overlay at all, `setup` does not return: it reads the size through the
unset `m_uiOverlay` before it checks anything. The rest of the claim holds: a loaded
overlay of invalid size makes `setup` return true with window and render target at
640x480, and `setup` returns false exactly when the state manager refuses the game state
(the window then keeps its initial 1280x1024). -/
theorem setup_dereferences_unset_overlay (env : SetupEnv) :
    (env.addActiveState = true → (∀ r c, env.assets r c = none) →
      setup env = some SetupEnd.nullDereference) ∧
    (∀ overlay, env.addActiveState = true →
      loadUiOverlay env.civs env.assets none = some (some overlay) →
      env.isValid overlay = false →
      setup env = some (SetupEnd.returned true ⟨640, 480⟩)) ∧
    (∀ size, setup env = some (SetupEnd.returned false size) ↔
      env.addActiveState = false ∧ size = ⟨1280, 1024⟩) := by
  refine ⟨?_, ?_, ?_⟩
  · intro ha hempty
    simp [setup, ha, loadUiOverlay_empty env.civs env.assets hempty]
  · intro overlay ha hload hvalid
    simp [setup, ha, hload, hvalid]
  · intro size
    unfold setup
    by_cases ha : env.addActiveState = true
    · simp only [ha, Bool.not_true, Bool.false_eq_true, if_false]
      obtain ⟨r, hr⟩ := loadUiOverlay_terminates env.civs env.assets none
      rw [hr]
      cases r <;> simp
    · simp only [Bool.not_eq_true] at ha
      simp only [ha, Bool.not_false, if_true]
      constructor
      · intro h
        cases h
        exact ⟨trivial, rfl⟩
      · rintro ⟨_, rfl⟩
        rfl

/-- Witness for C24: the run of `setup` with no overlay in the asset layer ends in the
dereference of the unset overlay; with overlays of size 0x0 it returns true at 640x480. -/
theorem setup_dereferences_unset_overlay_witness :
    setup noOverlayEnv = some SetupEnd.nullDereference ∧
    setup emptyOverlayEnv = some (SetupEnd.returned true ⟨640, 480⟩) :=
  ⟨(setup_dereferences_unset_overlay noOverlayEnv).1 rfl (fun _ _ => rfl),
    (setup_dereferences_unset_overlay emptyOverlayEnv).2.1 ⟨0, 0⟩ rfl rfl rfl⟩

/-! ### History screen: scroll bounds -/

theorem updateVisibleText_of_ne (env : HistoryEnv) (s : HistoryScreen)
    (h : (s.lineCount : Int) - env.numVisibleTextLines ≠ 0) :
    ∃ y, HistoryScreen.updateVisibleText env s = some { s with textIndicatorY := y } := by
  unfold HistoryScreen.updateVisibleText
  simp only [h, if_false]
  exact ⟨_, rfl⟩

theorem updateVisibleTitles_of_ne (env : HistoryEnv) (s : HistoryScreen)
    (h : (s.entryCount : Int) - env.numListEntries ≠ 0) :
    ∃ y, HistoryScreen.updateVisibleTitles env s = some { s with titlesIndicatorY := y } := by
  unfold HistoryScreen.updateVisibleTitles
  simp only [h, if_false]
  exact ⟨_, rfl⟩

/-- One step of the text offset, up or down, guarded as in the handlers, keeps the scroll
bounds and returns. -/
theorem textStep_bounds (env : HistoryEnv) (s : HistoryScreen) (h : ScrollBounds env s) :
    (s.textScrollOffset > 0 →
      ∃ t, HistoryScreen.updateVisibleText env
          { s with textScrollOffset := s.textScrollOffset - 1 } = some t ∧
        ScrollBounds env t ∧ OneStep s t ∧ t.titleScrollOffset = s.titleScrollOffset) ∧
    (s.textScrollOffset < (s.lineCount : Int) - env.numVisibleTextLines →
      ∃ t, HistoryScreen.updateVisibleText env
          { s with textScrollOffset := s.textScrollOffset + 1 } = some t ∧
        ScrollBounds env t ∧ OneStep s t ∧ t.titleScrollOffset = s.titleScrollOffset) := by
  obtain ⟨h1, h2, h3, h4⟩ := h
  constructor
  · intro hpos
    have hne : (s.lineCount : Int) - env.numVisibleTextLines ≠ 0 := by
      intro h0
      rw [h0] at h2
      simp at h2
      omega
    obtain ⟨y, hy⟩ := updateVisibleText_of_ne env
      { s with textScrollOffset := s.textScrollOffset - 1 } hne
    refine ⟨_, hy, ⟨?_, ?_, h3, h4⟩, ⟨rfl, rfl, ?_, ?_, ?_, ?_⟩, rfl⟩ <;> simp only <;> omega
  · intro hlt
    have hne : (s.lineCount : Int) - env.numVisibleTextLines ≠ 0 := by omega
    obtain ⟨y, hy⟩ := updateVisibleText_of_ne env
      { s with textScrollOffset := s.textScrollOffset + 1 } hne
    refine ⟨_, hy, ⟨?_, ?_, h3, h4⟩, ⟨rfl, rfl, ?_, ?_, ?_, ?_⟩, rfl⟩ <;> simp only <;> omega

/-- One step of the title offset, up or down, guarded as in the handlers, keeps the scroll
bounds and returns. -/
theorem titleStep_bounds (env : HistoryEnv) (s : HistoryScreen) (h : ScrollBounds env s) :
    (s.titleScrollOffset > 0 →
      ∃ t, HistoryScreen.updateVisibleTitles env
          { s with titleScrollOffset := s.titleScrollOffset - 1 } = some t ∧
        ScrollBounds env t ∧ OneStep s t ∧ t.textScrollOffset = s.textScrollOffset) ∧
    (s.titleScrollOffset < (s.entryCount : Int) - env.numListEntries →
      ∃ t, HistoryScreen.updateVisibleTitles env
          { s with titleScrollOffset := s.titleScrollOffset + 1 } = some t ∧
        ScrollBounds env t ∧ OneStep s t ∧ t.textScrollOffset = s.textScrollOffset) := by
  obtain ⟨h1, h2, h3, h4⟩ := h
  constructor
  · intro hpos
    have hne : (s.entryCount : Int) - env.numListEntries ≠ 0 := by
      intro h0
      rw [h0] at h4
      simp at h4
      omega
    obtain ⟨y, hy⟩ := updateVisibleTitles_of_ne env
      { s with titleScrollOffset := s.titleScrollOffset - 1 } hne
    refine ⟨_, hy, ⟨h1, h2, ?_, ?_⟩, ⟨rfl, rfl, ?_, ?_, ?_, ?_⟩, rfl⟩ <;> simp only <;> omega
  · intro hlt
    have hne : (s.entryCount : Int) - env.numListEntries ≠ 0 := by omega
    obtain ⟨y, hy⟩ := updateVisibleTitles_of_ne env
      { s with titleScrollOffset := s.titleScrollOffset + 1 } hne
    refine ⟨_, hy, ⟨h1, h2, ?_, ?_⟩, ⟨rfl, rfl, ?_, ?_, ?_, ?_⟩, rfl⟩ <;> simp only <;> omega

theorem oneStep_same (s : HistoryScreen) : OneStep s s := by
  refine ⟨rfl, rfl, ?_, ?_, ?_, ?_⟩ <;> omega

/-- C25: if the scroll bounds `0 <= textScrollOffset <= max(0, lineCount - visible lines)`
and `0 <= titleScrollOffset <= max(0, entryCount - list slots)` hold before a key event
or a scroll-wheel event, the handler returns (the indicator computation it triggers does
not divide by zero), the bounds hold afterwards, the line and entry counts are unchanged
and each offset has changed by at most 1. -/
theorem scroll_bounds_preserved (env : HistoryEnv) (s : HistoryScreen)
    (h : ScrollBounds env s) :
    (∀ key, ∃ t, HistoryScreen.handleKeyEvent env s key = some t ∧
      ScrollBounds env t ∧ OneStep s t) ∧
    (∀ position deltaY, ∃ t, HistoryScreen.handleScrollEvent env s position deltaY = some t ∧
      ScrollBounds env t ∧ OneStep s t) := by
  have hkeep : ∃ t, some s = some t ∧ ScrollBounds env t ∧ OneStep s t :=
    ⟨s, rfl, h, oneStep_same s⟩
  have drop : ∀ {u : HistoryScreen} {r : Option HistoryScreen} {q : HistoryScreen → Prop},
      (∃ t, r = some t ∧ ScrollBounds env t ∧ OneStep u t ∧ q t) →
      ∃ t, r = some t ∧ ScrollBounds env t ∧ OneStep u t :=
    fun ⟨t, h1, h2, h3, _⟩ => ⟨t, h1, h2, h3⟩
  constructor
  · intro key
    cases key with
    | Up =>
      simp only [HistoryScreen.handleKeyEvent]
      split_ifs with h1
      · exact drop ((textStep_bounds env s h).1 h1)
      · exact hkeep
    | Down =>
      simp only [HistoryScreen.handleKeyEvent]
      split_ifs with h1
      · exact drop ((textStep_bounds env s h).2 h1)
      · exact hkeep
    | Left => exact hkeep
    | Right => exact hkeep
    | Other code => exact hkeep
  · intro position deltaY
    have h1 : ∃ t, HistoryScreen.scrollTitles env s position deltaY = some t ∧
        ScrollBounds env t ∧ OneStep s t ∧ t.textScrollOffset = s.textScrollOffset := by
      unfold HistoryScreen.scrollTitles
      split_ifs <;> first
        | exact ⟨s, rfl, h, oneStep_same s, rfl⟩
        | (apply (titleStep_bounds env s h).1; assumption)
        | (apply (titleStep_bounds env s h).2; assumption)
    obtain ⟨t1, ht1, hb1, hs1, htext⟩ := h1
    have h2 : ∃ t, HistoryScreen.scrollText env t1 position deltaY = some t ∧
        ScrollBounds env t ∧ OneStep t1 t ∧ t.titleScrollOffset = t1.titleScrollOffset := by
      unfold HistoryScreen.scrollText
      split_ifs <;> first
        | exact ⟨t1, rfl, hb1, oneStep_same t1, rfl⟩
        | (apply (textStep_bounds env t1 hb1).1; assumption)
        | (apply (textStep_bounds env t1 hb1).2; assumption)
    obtain ⟨t2, ht2, hb2, hs2, htitle⟩ := h2
    refine ⟨t2, ?_, hb2, ?_⟩
    · simp only [HistoryScreen.handleScrollEvent, ht1, Option.some_bind, ht2]
    · obtain ⟨a1, a2, a3, a4, a5, a6⟩ := hs1
      obtain ⟨b1, b2, b3, b4, b5, b6⟩ := hs2
      refine ⟨b1.trans a1, b2.trans a2, ?_, ?_, ?_, ?_⟩ <;> omega

/-- Witness for C25: a Down key on the sample screen (40 lines, 12 visible) scrolls the
text from line 0 to line 1. -/
theorem scroll_bounds_preserved_witness :
    ∃ t, HistoryScreen.handleKeyEvent (sampleHistoryEnv (fun _ => [])) sampleHistoryScreen
        Key.Down = some t ∧
      ScrollBounds (sampleHistoryEnv (fun _ => [])) t ∧ OneStep sampleHistoryScreen t :=
  (scroll_bounds_preserved (sampleHistoryEnv (fun _ => [])) sampleHistoryScreen
    (by simp [ScrollBounds, sampleHistoryScreen, sampleHistoryEnv])).1 Key.Down

/-! ### History screen: scrollbars -/

/-- C26 fails for the press: with 100 entries and 10 list slots (bound 90), a press on the
titles scrollbar at y = 365, between the lowest indicator position and the down button,
returns with `titleScrollOffset` set to 90 * (365 - 41) / 318 = 91, above the bound; the
press branch has no clamp, unlike the move branch. -/
theorem scrollbar_press_overshoots :
    HistoryScreen.handleMouseEvent
        (sampleHistoryEnv (fun _ => [UiElement.TitlesScrollbar])) sampleHistoryScreen
        EventType.MousePressed ⟨225, 365⟩ =
      some (false, { sampleHistoryScreen with
        titleScrollOffset := 91
        titlesIndicatorY := 352
        pressedUiElement := UiElement.TitlesPositionIndicator }) ∧
    max 0 ((sampleHistoryScreen.entryCount : Int) -
      (sampleHistoryEnv (fun _ => [UiElement.TitlesScrollbar])).numListEntries) = 90 ∧
    ScrollBounds (sampleHistoryEnv (fun _ => [UiElement.TitlesScrollbar])) sampleHistoryScreen ∧
    ¬ ScrollBounds (sampleHistoryEnv (fun _ => [UiElement.TitlesScrollbar]))
      { sampleHistoryScreen with
        titleScrollOffset := 91
        titlesIndicatorY := 352
        pressedUiElement := UiElement.TitlesPositionIndicator } := by
  refine ⟨by decide, by decide, ?_, ?_⟩
  · simp [ScrollBounds, sampleHistoryScreen, sampleHistoryEnv]
  · simp [ScrollBounds, sampleHistoryScreen, sampleHistoryEnv]

/-- The move branch of `handleMouseEvent` does clamp: while a position indicator is held,
a mouse move that returns leaves the offset of that scrollbar within its bounds, for every
cursor position and whatever the scrollbar formula yields; and it returns unless the items
exactly fill the slots (where the indicator computation divides by zero). -/
theorem scrollbar_move_clamped (env : HistoryEnv) (s : HistoryScreen) (position : ScreenPos) :
    (s.pressedUiElement = UiElement.TitlesPositionIndicator →
      (∀ r, HistoryScreen.handleMouseEvent env s EventType.MouseMoved position = some r →
        r.1 = false ∧ r.2.entryCount = s.entryCount ∧ 0 ≤ r.2.titleScrollOffset ∧
        r.2.titleScrollOffset ≤ max 0 ((s.entryCount : Int) - env.numListEntries)) ∧
      ((s.entryCount : Int) - env.numListEntries ≠ 0 →
        ∃ r, HistoryScreen.handleMouseEvent env s EventType.MouseMoved position = some r)) ∧
    (s.pressedUiElement = UiElement.TextPositionIndicator →
      (∀ r, HistoryScreen.handleMouseEvent env s EventType.MouseMoved position = some r →
        r.1 = false ∧ r.2.lineCount = s.lineCount ∧ 0 ≤ r.2.textScrollOffset ∧
        r.2.textScrollOffset ≤ max 0 ((s.lineCount : Int) - env.numVisibleTextLines)) ∧
      ((s.lineCount : Int) - env.numVisibleTextLines ≠ 0 →
        ∃ r, HistoryScreen.handleMouseEvent env s EventType.MouseMoved position = some r)) := by
  constructor
  · intro hp
    constructor
    · intro r hr
      simp only [HistoryScreen.handleMouseEvent, hp, if_true,
        HistoryScreen.updateVisibleTitles] at hr
      split_ifs at hr
      all_goals first
        | (simp at hr; done)
        | (simp only [Option.map_some', Option.some.injEq] at hr
           subst hr
           refine ⟨rfl, rfl, ?_, ?_⟩ <;> simp only <;> omega)
    · intro h2
      simp only [HistoryScreen.handleMouseEvent, hp, if_true,
        HistoryScreen.updateVisibleTitles, h2, if_false, Option.map_some']
      exact ⟨_, rfl⟩
  · intro hp
    have hnt : ¬ s.pressedUiElement = UiElement.TitlesPositionIndicator := by
      rw [hp]
      decide
    constructor
    · intro r hr
      simp only [HistoryScreen.handleMouseEvent, hp, hnt, if_true, if_false,
        HistoryScreen.updateVisibleText, reduceCtorEq] at hr
      split_ifs at hr
      all_goals first
        | (simp at hr; done)
        | (simp only [Option.map_some', Option.some.injEq] at hr
           subst hr
           refine ⟨rfl, rfl, ?_, ?_⟩ <;> simp only <;> omega)
    · intro h2
      simp only [HistoryScreen.handleMouseEvent, hp, if_true, if_false,
        HistoryScreen.updateVisibleText, h2, Option.map_some', reduceCtorEq]
      exact ⟨_, rfl⟩

/-! ### History screen: position indicators -/

/-- C28 fails: the position-indicator computation of `updateVisibleText` divides by
`int(lines - visible lines)` and that of `updateVisibleTitles` by
`int(entries - list slots)`, with no guard; whatever the scroll offset, each divides by
zero exactly when the number of lines equals the number of visible lines (resp. the
number of entries equals the number of list slots). -/
theorem indicator_divides_by_zero (env : HistoryEnv) (s : HistoryScreen) :
    (HistoryScreen.updateVisibleText env s = none ↔
      (s.lineCount : Int) = env.numVisibleTextLines) ∧
    (HistoryScreen.updateVisibleTitles env s = none ↔
      (s.entryCount : Int) = env.numListEntries) := by
  constructor
  · unfold HistoryScreen.updateVisibleText
    dsimp only
    split_ifs with h
    · simp only [true_iff]
      omega
    · simp only [reduceCtorEq, false_iff]
      omega
  · unfold HistoryScreen.updateVisibleTitles
    dsimp only
    split_ifs with h
    · simp only [true_iff]
      omega
    · simp only [reduceCtorEq, false_iff]
      omega

/-- Witness for C28: with 12 text lines for 12 visible lines `updateVisibleText` divides by
zero. -/
theorem indicator_divides_by_zero_witness :
    HistoryScreen.updateVisibleText (sampleHistoryEnv (fun _ => []))
      { sampleHistoryScreen with lineCount := 12 } = none :=
  (indicator_divides_by_zero (sampleHistoryEnv (fun _ => []))
    { sampleHistoryScreen with lineCount := 12 }).1.mpr rfl

/-! ### History screen: word wrap -/

/-- Every round of the read loop appends the character read to the text held, unless it is
a carriage return or a newline; nothing is dropped inside the loop. -/
theorem readChar_flat (advance : Char → Int) (textWidth : Int) (st : WrapState) (c : Char) :
    (readChar advance textWidth st c).flat = st.flat ++ (if keptChar c then [c] else []) := by
  by_cases h1 : c = '\r'
  · subst h1
    simp [readChar, keptChar]
  · by_cases h3 : c = '\n'
    · subst h3
      have hk : keptChar '\n' = false := by decide
      simp only [readChar, hk, Char.reduceEq, if_false, ne_eq, not_true_eq_false, and_false,
        if_true, Bool.false_eq_true, List.append_nil]
      split_ifs <;> simp [WrapState.flat]
    · by_cases h4 : c = ' '
      · subst h4
        have hk : keptChar ' ' = true := by decide
        simp only [readChar, hk, Char.reduceEq, if_false, ne_eq, not_true_eq_false, false_and,
          if_true]
        split_ifs <;> simp [WrapState.flat]
      · have hk : keptChar c = true := by simp [keptChar, h1, h3]
        simp [readChar, h1, h3, h4, hk, WrapState.flat]

theorem readFold_flat (advance : Char → Int) (textWidth : Int) (l : List Char) :
    ∀ st : WrapState,
      (l.foldl (readChar advance textWidth) st).flat = st.flat ++ l.filter keptChar := by
  induction l with
  | nil => intro st; simp
  | cons c l ih =>
    intro st
    rw [List.foldl_cons, ih, readChar_flat]
    by_cases h : keptChar c = true
    · simp [h, List.filter_cons]
    · simp [h, List.filter_cons]

/-- The lines built by `loadFile` and the word still pending when the loop ends hold
together the whole file without its carriage returns and newlines (and the `EOF`
character of the last, failed read). -/
theorem loadLines_flat (advance : Char → Int) (textWidth : Int) (content : List Char) :
    ((loadLines advance textWidth content).map TextLine.text).flatten ++
        (readAll advance textWidth content).currentWord =
      (content ++ [eofChar]).filter keptChar := by
  have h : (readAll advance textWidth content).flat =
      (content ++ [eofChar]).filter keptChar := by
    have h0 := readFold_flat advance textWidth (content ++ [eofChar]) ⟨[], ⟨[], 0⟩, [], 0⟩
    simpa [WrapState.flat, readAll] using h0
  rw [← h]
  unfold loadLines
  dsimp only
  by_cases h1 : (readAll advance textWidth content).currentLine.text = []
  · rw [if_neg (not_not.mpr h1)]
    simp [WrapState.flat, h1]
  · rw [if_pos h1]
    simp [WrapState.flat]

/-- A space or a newline empties the current word. -/
theorem readChar_separator (advance : Char → Int) (textWidth : Int) (st : WrapState) (c : Char)
    (h : c = ' ' ∨ c = '\n') : (readChar advance textWidth st c).currentWord = [] := by
  unfold readChar
  rcases h with rfl | rfl
  · simp only [Char.reduceEq, if_false, ne_eq, not_true_eq_false, false_and]
    split_ifs <;> rfl
  · simp only [Char.reduceEq, if_false, ne_eq, not_true_eq_false, and_false, if_true]
    split_ifs <;> rfl

/-- Characters other than space and newline only grow the current word. -/
theorem readFold_word (advance : Char → Int) (textWidth : Int) (l : List Char)
    (hl : ∀ c ∈ l, c ≠ ' ' ∧ c ≠ '\n') :
    ∀ st : WrapState,
      (l.foldl (readChar advance textWidth) st).currentWord =
        st.currentWord ++ l.filter (fun c => c ≠ '\r') := by
  induction l with
  | nil => intro st; simp
  | cons c l ih =>
    intro st
    have hc := hl c (List.mem_cons_self c l)
    rw [List.foldl_cons, ih (fun d hd => hl d (List.mem_cons_of_mem c hd))]
    unfold readChar
    by_cases h1 : c = '\r'
    · simp [h1]
    · simp [h1, hc.1, hc.2, List.filter_cons]

/-- The word pending when the read loop ends: everything after the last space or newline
of the file, with the `EOF` character of the failed read appended. -/
theorem readAll_currentWord (advance : Char → Int) (textWidth : Int) (pre w : List Char)
    (hpre : pre = [] ∨ ∃ p sep, pre = p ++ [sep] ∧ (sep = ' ' ∨ sep = '\n'))
    (hw : ∀ c ∈ w, c ≠ ' ' ∧ c ≠ '\n') :
    (readAll advance textWidth (pre ++ w)).currentWord =
      (w ++ [eofChar]).filter (fun c => c ≠ '\r') := by
  have htail : ∀ c ∈ w ++ [eofChar], c ≠ ' ' ∧ c ≠ '\n' := by
    intro c hc
    rcases List.mem_append.mp hc with h | h
    · exact hw c h
    · rw [List.mem_singleton] at h
      subst h
      decide
  have hsplit : readAll advance textWidth (pre ++ w) =
      (w ++ [eofChar]).foldl (readChar advance textWidth)
        (pre.foldl (readChar advance textWidth) ⟨[], ⟨[], 0⟩, [], 0⟩) := by
    unfold readAll
    rw [List.append_assoc, List.foldl_append]
  rw [hsplit, readFold_word advance textWidth _ htail]
  have h0 : (pre.foldl (readChar advance textWidth) ⟨[], ⟨[], 0⟩, [], 0⟩).currentWord = [] := by
    rcases hpre with rfl | ⟨p, sep, rfl, hsep⟩
    · rfl
    · rw [List.foldl_append, List.foldl_cons, List.foldl_nil]
      exact readChar_separator advance textWidth _ sep hsep
  rw [h0, List.nil_append]

/-- C27 fails: whatever the glyph widths are, the lines `loadFile` produces hold the text of
the file up to its last space or newline only (without carriage returns and newlines, in
the original order); what follows the last space or newline is still in `currentWord` when
the read loop ends and is never put into a line. Words followed by a space or a newline,
the word that triggers a wrap included, are kept; the last word of a file that does not
end with a space or newline is lost. -/
theorem trailing_word_lost (advance : Char → Int) (textWidth : Int) (pre w : List Char)
    (hpre : pre = [] ∨ ∃ p sep, pre = p ++ [sep] ∧ (sep = ' ' ∨ sep = '\n'))
    (hw : ∀ c ∈ w, c ≠ ' ' ∧ c ≠ '\n') :
    ((loadLines advance textWidth (pre ++ w)).map TextLine.text).flatten =
      pre.filter keptChar := by
  have h1 := loadLines_flat advance textWidth (pre ++ w)
  rw [readAll_currentWord advance textWidth pre w hpre hw] at h1
  have h2 : (w ++ [eofChar]).filter (fun c => decide (c ≠ '\r')) =
      (w ++ [eofChar]).filter keptChar := by
    apply List.filter_congr
    intro c hc
    have hn : c ≠ '\n' := by
      rcases List.mem_append.mp hc with h | h
      · exact (hw c h).2
      · rw [List.mem_singleton] at h
        subst h
        decide
    simp [keptChar, hn]
  rw [h2, List.append_assoc pre, List.filter_append pre] at h1
  exact List.append_cancel_right h1

/-- Witness for C27: the file "hello world" yields the single line "hello "; the word
"world" is lost. -/
theorem trailing_word_lost_witness :
    ((loadLines (fun _ => 8) 400 ("hello ".toList ++ "world".toList)).map
      TextLine.text).flatten = "hello ".toList :=
  trailing_word_lost (fun _ => 8) 400 "hello ".toList "world".toList
    (Or.inr ⟨"hello".toList, ' ', rfl, Or.inl rfl⟩) (by decide)

/-! ### Logger -/

theorem findFirst_none (c : Char) (s : List Char) (h : c ∉ s) : findFirst c s = none := by
  induction s with
  | nil => rfl
  | cons x xs ih =>
    have hx : x ≠ c := fun e => h (e ▸ List.mem_cons_self x xs)
    have hxs : c ∉ xs := fun m => h (List.mem_cons_of_mem x m)
    simp [findFirst, hx, ih hxs]

theorem findFirst_append (c : Char) (a b : List Char) (h : c ∉ a) :
    findFirst c (a ++ c :: b) = some a.length := by
  induction a with
  | nil => simp [findFirst]
  | cons x xs ih =>
    have hx : x ≠ c := fun e => h (e ▸ List.mem_cons_self x xs)
    have hxs : c ∉ xs := fun m => h (List.mem_cons_of_mem x m)
    simp [findFirst, hx, ih hxs]

theorem findLast_none (p : Char → Bool) (s : List Char) (h : ∀ c ∈ s, p c = false) :
    findLast p s = none := by
  induction s with
  | nil => rfl
  | cons x xs ih =>
    have hx := h x (List.mem_cons_self x xs)
    have hxs := ih (fun c hc => h c (List.mem_cons_of_mem x hc))
    simp [findLast, hx, hxs]

theorem findLast_append (p : Char → Bool) (a b : List Char) (x : Char) (hx : p x = true)
    (hb : ∀ c ∈ b, p c = false) : findLast p (a ++ x :: b) = some a.length := by
  induction a with
  | nil => simp [findLast, findLast_none p b hb, hx]
  | cons y ys ih => simp [findLast, ih]

/-- C29: for every string `R + " " + C + "::" + M + "(" + rest` where `R` contains no `(`,
`C` contains no space or `(` and `M` contains no space, `:` or `(`, `extractClassName`
returns exactly `C`; and for every string without `(` it returns the empty string. -/
theorem extractClassName_qualifier (R C M rest : List Char) (hlen : C.length < 2 ^ 64)
    (hR : '(' ∉ R) (hC : ' ' ∉ C ∧ '(' ∉ C) (hM : ' ' ∉ M ∧ ':' ∉ M ∧ '(' ∉ M) :
    extractClassName (R ++ [' '] ++ C ++ [':', ':'] ++ M ++ ['('] ++ rest) = C ∧
    ∀ s : List Char, '(' ∉ s → extractClassName s = [] := by
  constructor
  · have hs : R ++ [' '] ++ C ++ [':', ':'] ++ M ++ ['('] ++ rest =
        (R ++ ' ' :: (C ++ ':' :: ':' :: M)) ++ '(' :: rest := by simp
    have hA : '(' ∉ R ++ ' ' :: (C ++ ':' :: ':' :: M) := by
      simp only [List.mem_append, List.mem_cons, not_or]
      exact ⟨hR, by decide, hC.2, by decide, by decide, hM.2.2⟩
    have hfirst := findFirst_append '(' (R ++ ' ' :: (C ++ ':' :: ':' :: M)) rest hA
    have htake : ((R ++ ' ' :: (C ++ ':' :: ':' :: M)) ++ '(' :: rest).take
        ((R ++ ' ' :: (C ++ ':' :: ':' :: M)).length + 1) =
        R ++ ' ' :: (C ++ ':' :: ':' :: M) ++ ['('] := by
      have e : (R ++ ' ' :: (C ++ ':' :: ':' :: M)) ++ '(' :: rest =
          (R ++ ' ' :: (C ++ ':' :: ':' :: M) ++ ['(']) ++ rest := by simp
      rw [e]
      exact List.take_left' (by simp; omega)
    have hcolon : findLast (fun c => decide (c ∈ [':', ':']))
        (R ++ ' ' :: (C ++ ':' :: ':' :: M) ++ ['(']) = some (R.length + C.length + 2) := by
      have e : R ++ ' ' :: (C ++ ':' :: ':' :: M) ++ ['('] =
          (R ++ ' ' :: (C ++ [':'])) ++ ':' :: (M ++ ['(']) := by simp
      rw [e, findLast_append _ _ _ ':' (by decide)]
      · simp
        omega
      · intro c hc
        rcases List.mem_append.mp hc with h | h
        · have : c ≠ ':' := fun e => hM.2.1 (e ▸ h)
          simp [this]
        · rw [List.mem_singleton] at h
          subst h
          decide
    have hspace : findLast (fun c => decide (c ∈ [' ']))
        (R ++ ' ' :: (C ++ ':' :: ':' :: M) ++ ['(']) = some R.length := by
      have e : R ++ ' ' :: (C ++ ':' :: ':' :: M) ++ ['('] =
          R ++ ' ' :: (C ++ ':' :: ':' :: M ++ ['(']) := by simp
      rw [e, findLast_append _ _ _ ' ' (by decide)]
      intro c hc
      simp only [List.append_assoc, List.cons_append, List.mem_append, List.mem_cons,
        List.mem_singleton, List.not_mem_nil, or_false] at hc
      have : c ≠ ' ' := by
        rcases hc with h | h | h | h | h
        · exact fun e => hC.1 (e ▸ h)
        · rw [h]; decide
        · rw [h]; decide
        · exact fun e => hM.1 (e ▸ h)
        · rw [h]; decide
      simp [this]
    have hend : (R.length + C.length + 2 + 2 ^ 64 - (R.length + 1) - 1) % 2 ^ 64 = C.length := by
      have : R.length + C.length + 2 + 2 ^ 64 - (R.length + 1) - 1 = C.length + 2 ^ 64 := by
        omega
      rw [this, Nat.add_mod_right, Nat.mod_eq_of_lt hlen]
    rw [hs]
    unfold extractClassName
    simp only [hfirst, findLastOf, htake, hcolon, hspace]
    have hne : ¬ R.length + C.length + 2 = 0 := by omega
    rw [if_neg hne]
    simp only [hend]
    simp
  · intro s hs
    unfold extractClassName
    rw [findFirst_none '(' s hs]

/-- Witness for C29: "void Engine::start()" gives "Engine". -/
theorem extractClassName_qualifier_witness :
    extractClassName ("void".toList ++ [' '] ++ "Engine".toList ++ [':', ':'] ++
      "start".toList ++ ['('] ++ ")".toList) = "Engine".toList :=
  (extractClassName_qualifier "void".toList "Engine".toList "start".toList ")".toList
    (by decide) (by decide) (by decide) (by decide)).1

end FreeAoe
